import Mathlib

/-! MPU9250 driver (`src/MPU9250.cpp`): shallow embedding

Modelling conventions.

* `float` is IEEE 754 binary32 and `double` is binary64; every operation is done in the
  type C++ gives it and rounded to nearest, ties to even (`FLT_EVAL_METHOD` 0), and a
  product and the difference that follows it are two operations, each rounded (no fused
  multiply-add).  A floating-point value is an `FP`: a rational, an infinity or a NaN;
  `FP.f32` and `FP.f64` round a rational into the two formats.  The two signed zeros are
  one value, and a zero divisor counts as `+0`.  The fields of `MPU9250` and
  `MPU9250Dataset` that the source uses as floating-point numbers are taken to be `float`.
* `pow` of the C library is external: it is a parameter `pow : FP → FP → FP`.
* `uint8_t`, `uint16_t` are `Nat` reduced `% 256`, `% 65536` where the source stores them;
  `int16_t`, `int32_t` are `Int` wrapped by `toInt16`, `toInt32`.
* The I2C transport (`Wire`) is external.  It is a parameter `B : Bus σ` acting on an
  arbitrary device state `σ`; every `writeByte` is also appended to a log of register
  writes.  `delay` is a bus operation too, so that a device may change with time.
* `MPU9250.h` is not part of the sources.  Register indices and the magnetometer
  address are the fields of a parameter `R : Regs`.  The scale selectors take the values
  that the comments of `init` give ("register bit settings").
* The array `rawData` that `update` leaves uninitialised is a parameter of `update`; the
  uninitialised arrays of `init` and `calibrate_still_bias` are zero-filled.
-/

/-- The value of a floating-point expression: a finite number (the two signed zeros are
not distinguished), an infinity, or a NaN.  A `float` is a value in the range of `f32`, a
`double` one in the range of `f64`. -/
inductive FP where
  | fin (q : ℚ)
  | inf (neg : Bool)
  | nan
deriving DecidableEq

namespace FP

/-- Rounding of a rational to the nearest integer, ties to the even one. -/
def roundEven (t : ℚ) : Int :=
  if t - ⌊t⌋ < 1 / 2 then ⌊t⌋
  else if 1 / 2 < t - ⌊t⌋ then ⌊t⌋ + 1
  else if ⌊t⌋ % 2 = 0 then ⌊t⌋ else ⌊t⌋ + 1

/-- The exponent of the unit in the last place of `x ≠ 0` in a binary format with `prec`
significand bits whose subnormal numbers are multiples of `2 ^ emin`. -/
def ulpExp (prec : Nat) (emin : Int) (x : ℚ) : Int :=
  max (Int.log 2 |x| - ((prec : Int) - 1)) emin

/-- Rounding to nearest, ties to even, with an unbounded exponent above. -/
def roundTo (prec : Nat) (emin : Int) (x : ℚ) : ℚ :=
  if x = 0 then 0
  else (roundEven (x / 2 ^ ulpExp prec emin x) : ℚ) * 2 ^ ulpExp prec emin x

/-- Rounding into a binary format: to nearest, ties to even; a rounded magnitude of
`2 ^ emax` or more overflows to an infinity. -/
def round (prec : Nat) (emin emax : Int) (x : ℚ) : FP :=
  if |roundTo prec emin x| < 2 ^ emax then fin (roundTo prec emin x)
  else inf (decide (x < 0))

/-- Rounding to `float` (IEEE 754 binary32). -/
def f32 (x : ℚ) : FP := round 24 (-149) 128 x

/-- Rounding to `double` (IEEE 754 binary64). -/
def f64 (x : ℚ) : FP := round 53 (-1074) 1024 x

/-- Negation. -/
def neg : FP → FP
  | fin x => fin (-x)
  | inf s => inf (!s)
  | nan => nan

/-- Addition, rounded by `rnd`. -/
def add (rnd : ℚ → FP) : FP → FP → FP
  | fin x, fin y => rnd (x + y)
  | fin _, inf s => inf s
  | inf s, fin _ => inf s
  | inf s, inf t => if s = t then inf s else nan
  | _, _ => nan

/-- Subtraction, rounded by `rnd`. -/
def sub (rnd : ℚ → FP) (a b : FP) : FP := add rnd a (neg b)

/-- Multiplication, rounded by `rnd`. -/
def mul (rnd : ℚ → FP) : FP → FP → FP
  | fin x, fin y => rnd (x * y)
  | fin x, inf s => if x = 0 then nan else inf (xor s (decide (x < 0)))
  | inf s, fin y => if y = 0 then nan else inf (xor s (decide (y < 0)))
  | inf s, inf t => inf (xor s t)
  | _, _ => nan

/-- Division, rounded by `rnd`; a zero divisor is taken as `+0`. -/
def div (rnd : ℚ → FP) : FP → FP → FP
  | fin x, fin y => if y = 0 then (if x = 0 then nan else inf (decide (x < 0))) else rnd (x / y)
  | fin _, inf _ => fin 0
  | inf s, fin y => inf (xor s (decide (y < 0)))
  | _, _ => nan

/-- Conversion of a value to the format of `rnd` (`double` to `float`, or the exact
widening `float` to `double`). -/
def cvt (rnd : ℚ → FP) : FP → FP
  | fin x => rnd x
  | inf s => inf s
  | nan => nan

/-- Conversion of an integer to the format of `rnd`. -/
def ofInt (rnd : ℚ → FP) (n : Int) : FP := rnd (n : ℚ)

/-- The comparison `a < b` of floating-point values (false when either is a NaN). -/
def lt : FP → FP → Prop
  | fin x, fin y => x < y
  | fin _, inf s => s = false
  | inf s, fin _ => s = true
  | inf s, inf t => s = true ∧ t = false
  | _, _ => False

end FP

/-- Three floats, `float[3]`. -/
structure Vec3 where
  x : FP
  y : FP
  z : FP
deriving DecidableEq

/-- Three 32-bit signed integers, `int32_t[3]`. -/
structure IVec3 where
  x : Int
  y : Int
  z : Int
deriving DecidableEq

/-- Component `i` of a `float[3]`. -/
def Vec3.get (v : Vec3) (i : Fin 3) : FP :=
  match i with
  | 0 => v.x
  | 1 => v.y
  | 2 => v.z

/-- Register indices and the magnetometer bus address used by the driver
(constants of the header `MPU9250.h`). -/
structure Regs where
  AK8963_ADDRESS : Nat
  AK8963_WHO_AM_I : Nat
  AK8963_ST1 : Nat
  AK8963_CNTL : Nat
  AK8963_ASAX : Nat
  SELF_TEST_X_GYRO : Nat
  SELF_TEST_Y_GYRO : Nat
  SELF_TEST_Z_GYRO : Nat
  SELF_TEST_X_ACCEL : Nat
  SELF_TEST_Y_ACCEL : Nat
  SELF_TEST_Z_ACCEL : Nat
  SMPLRT_DIV : Nat
  CONFIG : Nat
  GYRO_CONFIG : Nat
  ACCEL_CONFIG : Nat
  ACCEL_CONFIG2 : Nat
  FIFO_EN : Nat
  I2C_MST_CTRL : Nat
  INT_PIN_CFG : Nat
  INT_ENABLE : Nat
  INT_STATUS : Nat
  ACCEL_XOUT_H : Nat
  GYRO_XOUT_H : Nat
  USER_CTRL : Nat
  PWR_MGMT_1 : Nat
  PWR_MGMT_2 : Nat
  FIFO_COUNTH : Nat
  FIFO_R_W : Nat
  WHO_AM_I_MPU9250 : Nat

/-- The register bus: `write addr reg byte`, `read addr reg count` (the bytes the device
sends back, and the device afterwards), and the passing of `ms` milliseconds. -/
structure Bus (σ : Type) where
  write : Nat → Nat → Nat → σ → σ
  read : Nat → Nat → Nat → σ → List Nat × σ
  delay : Nat → σ → σ

/-- The device behind the bus, and the register writes issued so far
(address, register, byte), oldest first. -/
structure World (σ : Type) where
  dev : σ
  writes : List (Nat × Nat × Nat)

/-- Fields of the class `MPU9250`. -/
structure MPU9250 where
  MPU9250_ADDRESS : Nat
  aRes : FP
  gRes : FP
  mRes : FP
  magCalibration : Vec3
  accelBias : Vec3
  gyroBias : Vec3
  magBias : Vec3
deriving DecidableEq

/-- The fields of `MPU9250Dataset` that `update` assigns. -/
structure MPU9250Dataset where
  Ax : FP
  Ay : FP
  Az : FP
  T : FP
  Gx : FP
  Gy : FP
  Gz : FP
deriving DecidableEq

namespace MPU9250

/-- Header constant of `MPU9250.h` (not among the sources), with the register bit
setting that the comment in `init` gives: "2 Gs (00), 4 Gs (01), 8 Gs (10), and 16 Gs
(11)". -/
def AFS_2G : Nat := 0
/-- Selector of the 4 g range. -/
def AFS_4G : Nat := 1
/-- Selector of the 8 g range. -/
def AFS_8G : Nat := 2
/-- Selector of the 16 g range. -/
def AFS_16G : Nat := 3

/-- Header constant of `MPU9250.h` (not among the sources), with the register bit
setting that the comment in `init` gives: "250 DPS (00), 500 DPS (01), 1000 DPS (10), and
2000 DPS (11)". -/
def GFS_250DPS : Nat := 0
/-- Selector of the 500 deg/s range. -/
def GFS_500DPS : Nat := 1
/-- Selector of the 1000 deg/s range. -/
def GFS_1000DPS : Nat := 2
/-- Selector of the 2000 deg/s range. -/
def GFS_2000DPS : Nat := 3

/-- Header constant of `MPU9250.h` (not among the sources), with the register bit
setting that the comment in `init` gives: "14 bit resolution (0) and 16 bit resolution
(1)". -/
def MFS_14BITS : Nat := 0
/-- Selector of the 16-bit magnetometer output. -/
def MFS_16BITS : Nat := 1

/-- Conversion of an integer to `int16_t` (two's complement wrap). -/
def toInt16 (n : Int) : Int :=
  if n % 65536 < 32768 then n % 65536 else n % 65536 - 65536

/-- Conversion of an integer to `int32_t` (two's complement wrap). -/
def toInt32 (n : Int) : Int :=
  if n % 4294967296 < 2147483648 then n % 4294967296 else n % 4294967296 - 4294967296

/-- The expression `(int16_t)(((int16_t)hi << 8) | lo)` on two bytes. -/
def int16_of_bytes (hi lo : Nat) : Int :=
  toInt16 (((hi <<< 8) ||| lo : Nat) : Int)

/-- Byte `i` of a buffer. -/
def byteAt (buf : List Nat) (i : Nat) : Nat := buf.getD i 0

section driver

variable {σ : Type}

/-- `writeByte(address, subAddress, data)`: one register write of a `uint8_t`. -/
def writeByte (B : Bus σ) (address subAddress data : Nat) (w : World σ) : World σ :=
  { dev := B.write address subAddress (data % 256) w.dev,
    writes := w.writes ++ [(address, subAddress, data % 256)] }

/-- `readByte(address, subAddress)`: request one byte; `Wire.read()` gives `-1`, stored as
`0xFF`, when the device sent nothing. -/
def readByte (B : Bus σ) (address subAddress : Nat) (w : World σ) : Nat × World σ :=
  ((B.read address subAddress 1 w.dev).1.headD 255 % 256,
    { w with dev := (B.read address subAddress 1 w.dev).2 })

/-- `readBytes(address, subAddress, count, dest)`: the bytes received (at most `count`)
overwrite the front of `dest`. -/
def readBytes (B : Bus σ) (address subAddress count : Nat) (dest : List Nat)
    (w : World σ) : List Nat × World σ :=
  (((B.read address subAddress count w.dev).1.take count).map (fun b => b % 256)
      ++ dest.drop (((B.read address subAddress count w.dev).1.take count).length),
    { w with dev := (B.read address subAddress count w.dev).2 })

/-- `delay(ms)`. -/
def delay (B : Bus σ) (ms : Nat) (w : World σ) : World σ :=
  { w with dev := B.delay ms w.dev }

/-- `MPU9250::update`: read the 14 data registers and convert them.  `rawData` is what
the uninitialised local array of 14 bytes holds on entry.  The products and differences
are `float` operations; the temperature is computed in `double` (the constants `333.87`
and `21.0` are `double`) and rounded to `float` when it is stored. -/
def update (R : Regs) (B : Bus σ) (self : MPU9250) (rawData : List Nat) (w : World σ) :
    MPU9250Dataset × World σ :=
  let r := readBytes B self.MPU9250_ADDRESS R.ACCEL_XOUT_H 14 rawData w
  let rawData := r.1
  let rawValues : Nat → Int := fun i =>
    int16_of_bytes (byteAt rawData (2 * i)) (byteAt rawData (2 * i + 1))
  ({ Ax := FP.sub FP.f32 (FP.mul FP.f32 (FP.ofInt FP.f32 (rawValues 0)) self.aRes)
       self.accelBias.x,
     Ay := FP.sub FP.f32 (FP.mul FP.f32 (FP.ofInt FP.f32 (rawValues 1)) self.aRes)
       self.accelBias.y,
     Az := FP.sub FP.f32 (FP.mul FP.f32 (FP.ofInt FP.f32 (rawValues 2)) self.aRes)
       self.accelBias.z,
     T := FP.cvt FP.f32
       (FP.add FP.f64 (FP.div FP.f64 (FP.ofInt FP.f32 (rawValues 3)) (FP.f64 (33387 / 100)))
         (FP.f64 21)),
     Gx := FP.sub FP.f32 (FP.mul FP.f32 (FP.ofInt FP.f32 (rawValues 4)) self.gRes)
       self.gyroBias.x,
     Gy := FP.sub FP.f32 (FP.mul FP.f32 (FP.ofInt FP.f32 (rawValues 5)) self.gRes)
       self.gyroBias.y,
     Gz := FP.sub FP.f32 (FP.mul FP.f32 (FP.ofInt FP.f32 (rawValues 6)) self.gRes)
       self.gyroBias.z }, r.2)

/-- Lines 62-117 of `init`: reset, clock source, filter and sample rate, the two
full-scale registers (read, modify, write), accelerometer filter, interrupts. -/
def init_mpu (R : Regs) (B : Bus σ) (addr Ascale Gscale : Nat) (w : World σ) : World σ :=
  let w := writeByte B addr R.PWR_MGMT_1 0x80 w
  let w := delay B 100 w
  let w := writeByte B addr R.PWR_MGMT_1 0x01 w
  let w := writeByte B addr R.PWR_MGMT_2 0x00 w
  let w := delay B 200 w
  let w := writeByte B addr R.CONFIG 0x03 w
  let w := writeByte B addr R.SMPLRT_DIV 0x04 w
  let r := readByte B addr R.GYRO_CONFIG w
  let c := r.1
  let c := c &&& 0xFD
  let c := c &&& 0xE7
  let c := (c ||| (Gscale <<< 3)) % 256
  let w := writeByte B addr R.GYRO_CONFIG c r.2
  let r := readByte B addr R.ACCEL_CONFIG w
  let c := r.1
  let c := c &&& 0xE7
  let c := (c ||| (Ascale <<< 3)) % 256
  let w := writeByte B addr R.ACCEL_CONFIG c r.2
  let r := readByte B addr R.ACCEL_CONFIG2 w
  let c := r.1
  let c := c &&& 0xF0
  let c := c ||| 0x03
  let w := writeByte B addr R.ACCEL_CONFIG2 c r.2
  let w := writeByte B addr R.INT_PIN_CFG 0x22 w
  let w := writeByte B addr R.INT_ENABLE 0x01 w
  delay B 100 w

/-- The sensitivity adjustment `(float)(raw - 128)/256. + 1.` of lines 130-132: the
division and the addition are `double` operations, the result is stored in a `float`. -/
def mag_adjust (raw : Nat) : FP :=
  FP.cvt FP.f32
    (FP.add FP.f64 (FP.div FP.f64 (FP.ofInt FP.f32 ((raw : Int) - 128)) (FP.f64 256))
      (FP.f64 1))

/-- Lines 124-139 of `init`: read the fuse ROM sensitivity adjustment of the
magnetometer and set its resolution and output rate. -/
def init_mag (R : Regs) (B : Bus σ) (self : MPU9250) (Mscale Mmode : Nat) (w : World σ) :
    MPU9250 × World σ :=
  let w := writeByte B R.AK8963_ADDRESS R.AK8963_CNTL 0x00 w
  let w := delay B 10 w
  let w := writeByte B R.AK8963_ADDRESS R.AK8963_CNTL 0x0F w
  let w := delay B 10 w
  let r := readBytes B R.AK8963_ADDRESS R.AK8963_ASAX 3 (List.replicate 3 0) w
  let rawData := r.1
  let self := { self with magCalibration :=
    { x := mag_adjust (byteAt rawData 0),
      y := mag_adjust (byteAt rawData 1),
      z := mag_adjust (byteAt rawData 2) } }
  let w := writeByte B R.AK8963_ADDRESS R.AK8963_CNTL 0x00 r.2
  let w := delay B 10 w
  let w := writeByte B R.AK8963_ADDRESS R.AK8963_CNTL ((Mscale <<< 4) ||| Mmode) w
  (self, delay B 10 w)

/-- A `double` constant expression `a/b` of lines 151-190 stored in a `float` field. -/
def float_quotient (a b : FP) : FP := FP.cvt FP.f32 (FP.div FP.f64 a b)

/-- Lines 147-156 of `init`: `switch (Mscale)`, without a `default`; `10.*4912./8190.` is
a `double` expression stored in a `float`. -/
def switch_Mscale (self : MPU9250) (Mscale : Nat) : MPU9250 :=
  if Mscale = MFS_14BITS then
    { self with mRes := float_quotient (FP.mul FP.f64 (FP.f64 10) (FP.f64 4912)) (FP.f64 8190) }
  else if Mscale = MFS_16BITS then
    { self with mRes :=
        float_quotient (FP.mul FP.f64 (FP.f64 10) (FP.f64 4912)) (FP.f64 32760) }
  else self

/-- Lines 158-174 of `init`: `switch (Gscale)`, without a `default`. -/
def switch_Gscale (self : MPU9250) (Gscale : Nat) : MPU9250 :=
  if Gscale = GFS_250DPS then { self with gRes := float_quotient (FP.f64 250) (FP.f64 32768) }
  else if Gscale = GFS_500DPS then { self with gRes := float_quotient (FP.f64 500) (FP.f64 32768) }
  else if Gscale = GFS_1000DPS then { self with gRes := float_quotient (FP.f64 1000) (FP.f64 32768) }
  else if Gscale = GFS_2000DPS then { self with gRes := float_quotient (FP.f64 2000) (FP.f64 32768) }
  else self

/-- Lines 176-192 of `init`: `switch (Ascale)`, without a `default`. -/
def switch_Ascale (self : MPU9250) (Ascale : Nat) : MPU9250 :=
  if Ascale = AFS_2G then { self with aRes := float_quotient (FP.f64 2) (FP.f64 32768) }
  else if Ascale = AFS_4G then { self with aRes := float_quotient (FP.f64 4) (FP.f64 32768) }
  else if Ascale = AFS_8G then { self with aRes := float_quotient (FP.f64 8) (FP.f64 32768) }
  else if Ascale = AFS_16G then { self with aRes := float_quotient (FP.f64 16) (FP.f64 32768) }
  else self

/-- Lines 147-192 of `init`: the three `switch` statements in their order. -/
def set_resolutions (self : MPU9250) (Ascale Gscale Mscale : Nat) : MPU9250 :=
  switch_Ascale (switch_Gscale (switch_Mscale self Mscale) Gscale) Ascale

/-- The driver after line 58 of `init`: the alternate address when `set_AD0`. -/
def select_address (self : MPU9250) (set_AD0 : Bool) : MPU9250 :=
  if set_AD0 then { self with MPU9250_ADDRESS := 0x69 } else self

/-- `MPU9250::init`: the returned flag, the driver and the world afterwards. -/
def init (R : Regs) (B : Bus σ) (self : MPU9250) (Ascale Gscale Mscale Mmode : Nat)
    (set_AD0 : Bool) (w : World σ) : Bool × MPU9250 × World σ :=
  let self := select_address self set_AD0
  let r := readByte B self.MPU9250_ADDRESS R.WHO_AM_I_MPU9250 w
  if r.1 = 0x71 then
    let w := init_mpu R B self.MPU9250_ADDRESS Ascale Gscale r.2
    let r := readByte B R.AK8963_ADDRESS R.AK8963_WHO_AM_I w
    if r.1 = 0x48 then
      let m := init_mag R B self Mscale Mmode r.2
      (true, set_resolutions m.1 Ascale Gscale Mscale, m.2)
    else
      (false, self, r.2)
  else
    (false, self, r.2)

/-- `MPU9250::set_bias`: the three software bias vectors are replaced; the bus is not
used. -/
def set_bias (self : MPU9250) (newAccelBias newGyroBias newMagBias : Vec3)
    (w : World σ) : MPU9250 × World σ :=
  ({ self with
      accelBias := { x := newAccelBias.x, y := newAccelBias.y, z := newAccelBias.z },
      gyroBias := { x := newGyroBias.x, y := newGyroBias.y, z := newGyroBias.z },
      magBias := { x := newMagBias.x, y := newMagBias.y, z := newMagBias.z } }, w)

/-- Loop state of the two 200-sample loops of `self_test`: the receive buffer, the
accelerometer and gyro accumulators, the world, and (not in the source) the lists of the
accelerometer and gyro blocks read so far. -/
structure SampleAcc (σ : Type) where
  rawData : List Nat
  a : IVec3
  g : IVec3
  aReads : List (List Nat)
  gReads : List (List Nat)
  w : World σ

/-- One pass of the loop body (lines 213-221, the same as 235-243): read the accelerometer
registers and add the three samples, then the same for the gyro. -/
def sample_step (R : Regs) (B : Bus σ) (addr : Nat) (s : SampleAcc σ) : SampleAcc σ :=
  let r := readBytes B addr R.ACCEL_XOUT_H 6 s.rawData s.w
  let a : IVec3 :=
    { x := toInt32 (s.a.x + int16_of_bytes (byteAt r.1 0) (byteAt r.1 1)),
      y := toInt32 (s.a.y + int16_of_bytes (byteAt r.1 2) (byteAt r.1 3)),
      z := toInt32 (s.a.z + int16_of_bytes (byteAt r.1 4) (byteAt r.1 5)) }
  let q := readBytes B addr R.GYRO_XOUT_H 6 r.1 r.2
  let g : IVec3 :=
    { x := toInt32 (s.g.x + int16_of_bytes (byteAt q.1 0) (byteAt q.1 1)),
      y := toInt32 (s.g.y + int16_of_bytes (byteAt q.1 2) (byteAt q.1 3)),
      z := toInt32 (s.g.z + int16_of_bytes (byteAt q.1 4) (byteAt q.1 5)) }
  { rawData := q.1, a := a, g := g, aReads := s.aReads ++ [r.1], gReads := s.gReads ++ [q.1],
    w := q.2 }

/-- The loop `for (ii = 0; ii < n; ii++)` around `sample_step`. -/
def sample_loop (R : Regs) (B : Bus σ) (addr : Nat) : Nat → SampleAcc σ → SampleAcc σ
  | 0, s => s
  | n + 1, s => sample_loop R B addr n (sample_step R B addr s)

/-- The loop `for (ii = 0; ii < 3; ii++) v[ii] /= d` on an `int32_t[3]`
(C division truncates toward zero). -/
def div_each (v : IVec3) (d : Int) : IVec3 :=
  { x := toInt32 (Int.tdiv v.x d), y := toInt32 (Int.tdiv v.y d),
    z := toInt32 (Int.tdiv v.z d) }

/-- The factory trim of one channel, `(float)(2620/1<<FS)*(pow(1.01, (float)code - 1.0))`:
the subtraction, `pow` and the product are `double`, the result is stored in a `float`. -/
def factory_trim (pow : FP → FP → FP) (FS code : Nat) : FP :=
  FP.cvt FP.f32
    (FP.mul FP.f64 (FP.ofInt FP.f32 (((2620 / 1) <<< FS : Nat) : Int))
      (pow (FP.f64 (101 / 100)) (FP.sub FP.f64 (FP.ofInt FP.f32 (code : Int)) (FP.f64 1))))

/-- One entry of `results`: `100.0*((float)(stAvg - avg))/factoryTrim - 100.`: the
product, the quotient and the difference are `double`, the result is stored in a
`float`. -/
def percent_deviation (stAvg avg : Int) (factoryTrim : FP) : FP :=
  FP.cvt FP.f32
    (FP.sub FP.f64
      (FP.div FP.f64 (FP.mul FP.f64 (FP.f64 100) (FP.ofInt FP.f32 (toInt32 (stAvg - avg))))
        factoryTrim)
      (FP.f64 100))

/-- Lines 205-222 of `self_test`: program the test configuration (with `FS = 0`) and run
the baseline sampling loop from zeroed `rawData` and accumulators. -/
def self_test_baseline (R : Regs) (B : Bus σ) (self : MPU9250) (w : World σ) : SampleAcc σ :=
  let addr := self.MPU9250_ADDRESS
  let FS : Nat := 0
  let w := writeByte B addr R.SMPLRT_DIV 0x00 w
  let w := writeByte B addr R.CONFIG 0x02 w
  let w := writeByte B addr R.GYRO_CONFIG (FS <<< 3) w
  let w := writeByte B addr R.ACCEL_CONFIG2 0x02 w
  let w := writeByte B addr R.ACCEL_CONFIG (FS <<< 3) w
  sample_loop R B addr 200
    { rawData := List.replicate 6 0, a := ⟨0, 0, 0⟩, g := ⟨0, 0, 0⟩, aReads := [],
      gReads := [], w := w }

/-- Lines 230-244 of `self_test`: enable the self test on both sensors, wait, and run the
excited sampling loop from zeroed accumulators (`rawData` is the buffer of the baseline
loop). -/
def self_test_excited (R : Regs) (B : Bus σ) (self : MPU9250) (s : SampleAcc σ) :
    SampleAcc σ :=
  let addr := self.MPU9250_ADDRESS
  let w := writeByte B addr R.ACCEL_CONFIG 0xE0 s.w
  let w := writeByte B addr R.GYRO_CONFIG 0xE0 w
  let w := delay B 25 w
  sample_loop R B addr 200
    { rawData := s.rawData, a := ⟨0, 0, 0⟩, g := ⟨0, 0, 0⟩, aReads := [], gReads := [],
      w := w }

/-- Lines 252-262 of `self_test`: back to normal operation, wait, and read the six factory
self-test codes (accelerometer x, y, z, then gyro x, y, z). -/
def self_test_codes (R : Regs) (B : Bus σ) (self : MPU9250) (w : World σ) :
    List Nat × World σ :=
  let addr := self.MPU9250_ADDRESS
  let w := writeByte B addr R.ACCEL_CONFIG 0x00 w
  let w := writeByte B addr R.GYRO_CONFIG 0x00 w
  let w := delay B 25 w
  let c0 := readByte B addr R.SELF_TEST_X_ACCEL w
  let c1 := readByte B addr R.SELF_TEST_Y_ACCEL c0.2
  let c2 := readByte B addr R.SELF_TEST_Z_ACCEL c1.2
  let c3 := readByte B addr R.SELF_TEST_X_GYRO c2.2
  let c4 := readByte B addr R.SELF_TEST_Y_GYRO c3.2
  let c5 := readByte B addr R.SELF_TEST_Z_GYRO c4.2
  ([c0.1, c1.1, c2.1, c3.1, c4.1, c5.1], c5.2)

/-- The local variables of `self_test` when it returns, the world, and (not in the
source) the final states of the two sampling loops. -/
structure SelfTestRun (σ : Type) where
  baseline : SampleAcc σ
  excited : SampleAcc σ
  aAvg : IVec3
  gAvg : IVec3
  aSTAvg : IVec3
  gSTAvg : IVec3
  selfTest : List Nat
  factoryTrim : List FP
  results : List FP
  w : World σ

/-- `MPU9250::self_test`, keeping its local variables. -/
def self_test_run (R : Regs) (B : Bus σ) (pow : FP → FP → FP) (self : MPU9250)
    (w : World σ) : SelfTestRun σ :=
  let FS : Nat := 0
  let s := self_test_baseline R B self w
  let aAvg := div_each s.a 200
  let gAvg := div_each s.g 200
  let t := self_test_excited R B self s
  let aSTAvg := div_each t.a 200
  let gSTAvg := div_each t.g 200
  let c := self_test_codes R B self t.w
  let selfTest := c.1
  let factoryTrim := selfTest.map (factory_trim pow FS)
  { baseline := s, excited := t,
    aAvg := aAvg, gAvg := gAvg, aSTAvg := aSTAvg, gSTAvg := gSTAvg,
    selfTest := selfTest, factoryTrim := factoryTrim,
    results :=
      [percent_deviation aSTAvg.x aAvg.x (factoryTrim.getD 0 FP.nan),
       percent_deviation aSTAvg.y aAvg.y (factoryTrim.getD 1 FP.nan),
       percent_deviation aSTAvg.z aAvg.z (factoryTrim.getD 2 FP.nan),
       percent_deviation gSTAvg.x gAvg.x (factoryTrim.getD 3 FP.nan),
       percent_deviation gSTAvg.y gAvg.y (factoryTrim.getD 4 FP.nan),
       percent_deviation gSTAvg.z gAvg.z (factoryTrim.getD 5 FP.nan)],
    w := c.2 }

/-- `MPU9250::self_test`: the six values written to `results`, and the world. -/
def self_test (R : Regs) (B : Bus σ) (pow : FP → FP → FP) (self : MPU9250) (w : World σ) :
    List FP × World σ :=
  ((self_test_run R B pow self w).results, (self_test_run R B pow self w).w)

/-- Loop state of the FIFO loop of `calibrate_still_bias`: the buffer `data`, the two
accumulators, the world, and (not in the source) the list of the packets read so far. -/
structure FifoAcc (σ : Type) where
  data : List Nat
  accel_bias : IVec3
  gyro_bias : IVec3
  packets : List (List Nat)
  w : World σ

/-- One pass of the loop body, lines 326-340: read a 12-byte packet and add its six
signed 16-bit samples to the 32-bit accumulators. -/
def fifo_step (R : Regs) (B : Bus σ) (addr : Nat) (s : FifoAcc σ) : FifoAcc σ :=
  let r := readBytes B addr R.FIFO_R_W 12 s.data s.w
  let data := r.1
  let accel_temp : IVec3 :=
    { x := int16_of_bytes (byteAt data 0) (byteAt data 1),
      y := int16_of_bytes (byteAt data 2) (byteAt data 3),
      z := int16_of_bytes (byteAt data 4) (byteAt data 5) }
  let gyro_temp : IVec3 :=
    { x := int16_of_bytes (byteAt data 6) (byteAt data 7),
      y := int16_of_bytes (byteAt data 8) (byteAt data 9),
      z := int16_of_bytes (byteAt data 10) (byteAt data 11) }
  { data := data,
    accel_bias :=
      { x := toInt32 (s.accel_bias.x + accel_temp.x),
        y := toInt32 (s.accel_bias.y + accel_temp.y),
        z := toInt32 (s.accel_bias.z + accel_temp.z) },
    gyro_bias :=
      { x := toInt32 (s.gyro_bias.x + gyro_temp.x),
        y := toInt32 (s.gyro_bias.y + gyro_temp.y),
        z := toInt32 (s.gyro_bias.z + gyro_temp.z) },
    packets := s.packets ++ [data],
    w := r.2 }

/-- The loop `for (ii = 0; ii < packet_count; ii++)` around `fifo_step`. -/
def fifo_loop (R : Regs) (B : Bus σ) (addr : Nat) : Nat → FifoAcc σ → FifoAcc σ
  | 0, s => s
  | n + 1, s => fifo_loop R B addr n (fifo_step R B addr s)

/-- The state of `calibrate_still_bias` after the FIFO loop (line 342). -/
structure FifoRun (σ : Type) where
  fifo_count : Nat
  packet_count : Nat
  acc : FifoAcc σ

/-- Lines 286-321 of `calibrate_still_bias`: reset and configure the device, let the FIFO
fill for 40 ms, stop it and read the two bytes of its byte count into `data`. -/
def calibrate_setup (R : Regs) (B : Bus σ) (self : MPU9250) (w : World σ) :
    List Nat × World σ :=
  let addr := self.MPU9250_ADDRESS
  let w := writeByte B addr R.PWR_MGMT_1 0x80 w
  let w := delay B 100 w
  let w := writeByte B addr R.PWR_MGMT_1 0x01 w
  let w := writeByte B addr R.PWR_MGMT_2 0x00 w
  let w := delay B 200 w
  let w := writeByte B addr R.INT_ENABLE 0x00 w
  let w := writeByte B addr R.FIFO_EN 0x00 w
  let w := writeByte B addr R.PWR_MGMT_1 0x00 w
  let w := writeByte B addr R.I2C_MST_CTRL 0x00 w
  let w := writeByte B addr R.USER_CTRL 0x00 w
  let w := writeByte B addr R.USER_CTRL 0x0C w
  let w := delay B 15 w
  let w := writeByte B addr R.CONFIG 0x01 w
  let w := writeByte B addr R.SMPLRT_DIV 0x00 w
  let w := writeByte B addr R.GYRO_CONFIG 0x00 w
  let w := writeByte B addr R.ACCEL_CONFIG 0x00 w
  let w := writeByte B addr R.USER_CTRL 0x40 w
  let w := writeByte B addr R.FIFO_EN 0x78 w
  let w := delay B 40 w
  let w := writeByte B addr R.FIFO_EN 0x00 w
  readBytes B addr R.FIFO_COUNTH 2 (List.replicate 12 0) w

/-- Lines 286-342 of `calibrate_still_bias`: after `calibrate_setup`, form the byte count
and drain `fifo_count/12` packets. -/
def calibrate_collect (R : Regs) (B : Bus σ) (self : MPU9250) (w : World σ) : FifoRun σ :=
  let r := calibrate_setup R B self w
  let data := r.1
  let fifo_count := ((byteAt data 0 <<< 8) ||| byteAt data 1) % 65536
  let packet_count := fifo_count / 12
  { fifo_count := fifo_count, packet_count := packet_count,
    acc := fifo_loop R B self.MPU9250_ADDRESS packet_count
      { data := data, accel_bias := ⟨0, 0, 0⟩, gyro_bias := ⟨0, 0, 0⟩, packets := [],
        w := r.2 } }

/-- Lines 350-354: remove gravity from the averaged z count of the accelerometer. -/
def remove_gravity (accel_bias : IVec3) (accelsensitivity : Int) : IVec3 :=
  if accel_bias.z > 0 then { accel_bias with z := toInt32 (accel_bias.z - accelsensitivity) }
  else { accel_bias with z := toInt32 (accel_bias.z + accelsensitivity) }

/-- Lines 343-428 of `calibrate_still_bias` on the accumulated sums: average, remove
gravity, scale; the values of `newAccelBias` and `newGyroBias`.  The six divisions by
`packet_count` have no result when it is zero.  The six quotients of the outputs are
`float` divisions of `float` conversions. -/
def still_bias (packet_count : Nat) (accel_sum gyro_sum : IVec3) : Option (Vec3 × Vec3) :=
  let gyrosensitivity : Nat := 131
  let accelsensitivity : Nat := 16384
  if packet_count = 0 then none
  else
    let accel_bias := div_each accel_sum (packet_count : Int)
    let gyro_bias := div_each gyro_sum (packet_count : Int)
    let accel_bias := remove_gravity accel_bias (accelsensitivity : Int)
    some
      ({ x := FP.div FP.f32 (FP.ofInt FP.f32 accel_bias.x) (FP.ofInt FP.f32 (accelsensitivity : Int)),
         y := FP.div FP.f32 (FP.ofInt FP.f32 accel_bias.y) (FP.ofInt FP.f32 (accelsensitivity : Int)),
         z := FP.div FP.f32 (FP.ofInt FP.f32 accel_bias.z) (FP.ofInt FP.f32 (accelsensitivity : Int)) },
       { x := FP.div FP.f32 (FP.ofInt FP.f32 gyro_bias.x) (FP.ofInt FP.f32 (gyrosensitivity : Int)),
         y := FP.div FP.f32 (FP.ofInt FP.f32 gyro_bias.y) (FP.ofInt FP.f32 (gyrosensitivity : Int)),
         z := FP.div FP.f32 (FP.ofInt FP.f32 gyro_bias.z) (FP.ofInt FP.f32 (gyrosensitivity : Int)) })

/-- `MPU9250::calibrate_still_bias`: `(newAccelBias, newGyroBias)` and the world, or
`none` when the averaging divides by zero. -/
def calibrate_still_bias (R : Regs) (B : Bus σ) (self : MPU9250) (w : World σ) :
    Option (Vec3 × Vec3 × World σ) :=
  let c := calibrate_collect R B self w
  (still_bias c.packet_count c.acc.accel_bias c.acc.gyro_bias).map
    fun b => (b.1, b.2, c.acc.w)

end driver

/-! ## Reference values, bus models and the functions the properties are stated with -/

/-- The two's-complement signed 16-bit value of the big-endian byte pair `hi`, `lo`,
as the specification words it. -/
def s16 (hi lo : Nat) : Int :=
  if 32768 ≤ hi * 256 + lo then ((hi * 256 + lo : Nat) : Int) - 65536
  else ((hi * 256 + lo : Nat) : Int)

/-- A scripted bus: the device is the list of the answers it is still to give, one per
read transaction; writes and delays leave it alone. -/
def scriptBus : Bus (List (List Nat)) where
  write := fun _ _ _ d => d
  read := fun _ _ _ d => (d.headD [], d.tail)
  delay := fun _ d => d

/-- A register-map bus: a read returns what was last written (`count` consecutive
registers from `reg`), and nothing else changes a register. -/
def regBus : Bus (Nat → Nat → Nat) where
  write := fun addr reg b d => fun a r => if a = addr ∧ r = reg then b else d a r
  read := fun addr reg count d => ((List.range count).map (fun i => d addr (reg + i)), d)
  delay := fun _ d => d

/-- Register indices of the MPU-9250 and AK8963 register maps (product data sheets). -/
def datasheet : Regs where
  AK8963_ADDRESS := 0x0C
  AK8963_WHO_AM_I := 0x00
  AK8963_ST1 := 0x02
  AK8963_CNTL := 0x0A
  AK8963_ASAX := 0x10
  SELF_TEST_X_GYRO := 0x00
  SELF_TEST_Y_GYRO := 0x01
  SELF_TEST_Z_GYRO := 0x02
  SELF_TEST_X_ACCEL := 0x0D
  SELF_TEST_Y_ACCEL := 0x0E
  SELF_TEST_Z_ACCEL := 0x0F
  SMPLRT_DIV := 0x19
  CONFIG := 0x1A
  GYRO_CONFIG := 0x1B
  ACCEL_CONFIG := 0x1C
  ACCEL_CONFIG2 := 0x1D
  FIFO_EN := 0x23
  I2C_MST_CTRL := 0x24
  INT_PIN_CFG := 0x37
  INT_ENABLE := 0x38
  INT_STATUS := 0x3A
  ACCEL_XOUT_H := 0x3B
  GYRO_XOUT_H := 0x43
  USER_CTRL := 0x6A
  PWR_MGMT_1 := 0x6B
  PWR_MGMT_2 := 0x6C
  FIFO_COUNTH := 0x72
  FIFO_R_W := 0x74
  WHO_AM_I_MPU9250 := 0x75

/-- A driver object with every float field zero, at bus address `0x68`. -/
def driver0 : MPU9250 where
  MPU9250_ADDRESS := 0x68
  aRes := FP.fin 0
  gRes := FP.fin 0
  mRes := FP.fin 0
  magCalibration := ⟨FP.fin 0, FP.fin 0, FP.fin 0⟩
  accelBias := ⟨FP.fin 0, FP.fin 0, FP.fin 0⟩
  gyroBias := ⟨FP.fin 0, FP.fin 0, FP.fin 0⟩
  magBias := ⟨FP.fin 0, FP.fin 0, FP.fin 0⟩

/-- The world of a scripted bus that answers the next read with the 14-byte block whose
accelerometer counts are `(16384, 0, 0)`, temperature count `0` and gyro counts
`(0, 0, 0)`. -/
def blockWorld : World (List (List Nat)) :=
  { dev := [[0x40, 0, 0, 0, 0, 0, 0, 0, 0, 0, 0, 0, 0, 0]], writes := [] }

/-- The `float` nearest to `0.1`, the value of the literal `0.1f`. -/
def float_tenth : ℚ := 13421773 / 134217728

/-- The `float` nearest to `0.2`, the value of the literal `0.2f`. -/
def float_fifth : ℚ := 13421773 / 67108864

/-- A driver at `±2 g` and `±250` degrees per second with zero accelerometer bias and gyro
bias `(0.5f, -0.2f, 0)`. -/
def driver2g : MPU9250 :=
  { driver0 with
    aRes := FP.fin (2 / 32768), gRes := FP.fin (250 / 32768),
    gyroBias := ⟨FP.fin (1 / 2), FP.fin (-float_fifth), FP.fin 0⟩ }

/-- The full-scale range, in g, that an accelerometer selector stands for. -/
def accelFullScale (Ascale : Nat) : ℚ :=
  if Ascale = AFS_2G then 2 else if Ascale = AFS_4G then 4
  else if Ascale = AFS_8G then 8 else if Ascale = AFS_16G then 16 else 0

/-- The full-scale range, in degrees per second, that a gyro selector stands for. -/
def gyroFullScale (Gscale : Nat) : ℚ :=
  if Gscale = GFS_250DPS then 250 else if Gscale = GFS_500DPS then 500
  else if Gscale = GFS_1000DPS then 1000 else if Gscale = GFS_2000DPS then 2000 else 0

/-- An accelerometer selector of the enumeration. -/
def validAscale (Ascale : Nat) : Prop :=
  Ascale = AFS_2G ∨ Ascale = AFS_4G ∨ Ascale = AFS_8G ∨ Ascale = AFS_16G

/-- A gyro selector of the enumeration. -/
def validGscale (Gscale : Nat) : Prop :=
  Gscale = GFS_250DPS ∨ Gscale = GFS_500DPS ∨ Gscale = GFS_1000DPS ∨ Gscale = GFS_2000DPS

/-- A scripted device on which `init` succeeds: it answers the identity read with `0x71`,
the three configuration reads with `0`, the magnetometer identity read with `0x48` and
the fuse ROM read with `(128, 128, 128)`. -/
def goodWorld : World (List (List Nat)) :=
  { dev := [[0x71], [0], [0], [0], [0x48], [128, 128, 128]], writes := [] }

/-- The signed 16-bit sample number `k` of a packet (bytes `2k`, `2k+1`): `k = 0, 1, 2` are
the accelerometer axes, `k = 3, 4, 5` the gyro axes. -/
def sample (k : Nat) (data : List Nat) : Int :=
  int16_of_bytes (byteAt data (2 * k)) (byteAt data (2 * k + 1))

/-- The mathematical sum of sample `k` over a list of packets. -/
def colSum (k : Nat) (packets : List (List Nat)) : Int :=
  (packets.map (sample k)).sum

/-- The accumulators hold the mathematical sums of the packets read so far. -/
def SumsExact {σ : Type} (s : FifoAcc σ) : Prop :=
  s.accel_bias = ⟨colSum 0 s.packets, colSum 1 s.packets, colSum 2 s.packets⟩ ∧
  s.gyro_bias = ⟨colSum 3 s.packets, colSum 4 s.packets, colSum 5 s.packets⟩

/-- The truncated average of sample `k` over the packets: the value of `accel_bias[k]`
(`k < 3`) or `gyro_bias[k-3]` after lines 343-348. -/
def avg (k : Nat) (packets : List (List Nat)) : Int :=
  Int.tdiv (colSum k packets) (packets.length : Int)

/-- The z count of the accelerometer after the gravity step, lines 350-354. -/
def gravity_free (m : Int) : Int := if m > 0 then m - 16384 else m + 16384

/-- The 12-byte FIFO packet with accelerometer z count `16384 = 0x4000` and the other five
counts `0`. -/
def gravityPacket : List Nat := [0, 0, 0, 0, 0x40, 0, 0, 0, 0, 0, 0, 0]

/-- The scripted device whose FIFO holds 40 gravity packets: the byte count read answers
`480 = 0x01E0`, then each of the 40 packet reads answers `gravityPacket`. -/
def fifo40World : World (List (List Nat)) :=
  { dev := [0x01, 0xE0] :: List.replicate 40 gravityPacket, writes := [] }

/-- Output number `k` of `calibrate_still_bias`: `newAccelBias[k]` for `k = 0, 1, 2` and
`newGyroBias[k-3]` for `k = 3, 4, 5`. -/
def channel (k : Nat) (accel gyro : Vec3) : FP :=
  match k with
  | 0 => accel.x
  | 1 => accel.y
  | 2 => accel.z
  | 3 => gyro.x
  | 4 => gyro.y
  | _ => gyro.z

/-- The sensitivity of output `k`: 16384 counts per g, 131 counts per degree per second. -/
def sensitivity (k : Nat) : Int := if k < 3 then 16384 else 131

/-- The scripted device whose FIFO holds two packets with gyro x counts `-1` and `0`
(accelerometer z count `16384`, the rest `0`); the byte count read answers `24`. -/
def fifoMinusWorld : World (List (List Nat)) :=
  { dev := [[0, 24], [0, 0, 0, 0, 0x40, 0, 0xFF, 0xFF, 0, 0, 0, 0],
      [0, 0, 0, 0, 0x40, 0, 0, 0, 0, 0, 0, 0]], writes := [] }

/-- The device `fifoMinusWorld` with `1` added to both gyro x counts: `0` and `1`. -/
def fifoPlusWorld : World (List (List Nat)) :=
  { dev := [[0, 24], [0, 0, 0, 0, 0x40, 0, 0, 0, 0, 0, 0, 0],
      [0, 0, 0, 0, 0x40, 0, 0, 1, 0, 0, 0, 0]], writes := [] }

/-- The device `fifoPlusWorld` with `1` added again to both gyro x counts: `1` and `2`. -/
def fifoPlus2World : World (List (List Nat)) :=
  { dev := [[0, 24], [0, 0, 0, 0, 0x40, 0, 0, 1, 0, 0, 0, 0],
      [0, 0, 0, 0, 0x40, 0, 0, 2, 0, 0, 0, 0]], writes := [] }

/-- Entry `k` of a pair of `int32_t[3]` arrays, accelerometer first: `k = 0, 1, 2` the
accelerometer axes, `k = 3, 4, 5` the gyro axes. -/
def ichannel (k : Nat) (accel gyro : IVec3) : Int :=
  match k with
  | 0 => accel.x
  | 1 => accel.y
  | 2 => accel.z
  | 3 => gyro.x
  | 4 => gyro.y
  | _ => gyro.z

/-- The accumulators of a sampling loop hold the mathematical sums of the blocks read. -/
def SamplesExact {σ : Type} (s : SampleAcc σ) : Prop :=
  s.a = ⟨colSum 0 s.aReads, colSum 1 s.aReads, colSum 2 s.aReads⟩ ∧
  s.g = ⟨colSum 0 s.gReads, colSum 1 s.gReads, colSum 2 s.gReads⟩

/-- Every component is a signed 16-bit average (within `±32768`). -/
def Small (v : IVec3) : Prop :=
  (-32768 ≤ v.x ∧ v.x ≤ 32768) ∧ (-32768 ≤ v.y ∧ v.y ≤ 32768) ∧ (-32768 ≤ v.z ∧ v.z ≤ 32768)

/-- The scripted device for a self test: 200 baseline reads of each sensor answer zero
counts, 200 excited reads of each sensor answer counts `2620 = 0x0A3C` on every axis, and
the six factory trim codes read as `1` (factory trim `2620 * 1.01^0`). -/
def selfTestWorld : World (List (List Nat)) :=
  { dev := List.replicate 400 [0, 0, 0, 0, 0, 0]
      ++ (List.replicate 400 [0x0A, 0x3C, 0x0A, 0x3C, 0x0A, 0x3C] ++ List.replicate 6 [1]),
    writes := [] }

/-- The full-scale select bits `[4:3]` of a configuration byte. -/
def fsBits (c : Nat) : Nat := (c >>> 3) &&& 3

/-- The stored `aRes` and `gRes` are the resolutions of the full-scale bits held in the
`ACCEL_CONFIG` and `GYRO_CONFIG` registers of the device the driver talks to. -/
def Synced (R : Regs) (self : MPU9250) (w : World (Nat → Nat → Nat)) : Prop :=
  self.aRes
    = FP.fin (accelFullScale (fsBits (w.dev self.MPU9250_ADDRESS R.ACCEL_CONFIG)) / 32768) ∧
  self.gRes
    = FP.fin (gyroFullScale (fsBits (w.dev self.MPU9250_ADDRESS R.GYRO_CONFIG)) / 32768)

/-- The register indices that `init` writes after a full-scale register are different
from the two full-scale registers, which are different from each other. -/
def DistinctRegs (R : Regs) : Prop :=
  R.GYRO_CONFIG ≠ R.ACCEL_CONFIG ∧
  (R.ACCEL_CONFIG2 ≠ R.GYRO_CONFIG ∧ R.ACCEL_CONFIG2 ≠ R.ACCEL_CONFIG) ∧
  (R.INT_PIN_CFG ≠ R.GYRO_CONFIG ∧ R.INT_PIN_CFG ≠ R.ACCEL_CONFIG) ∧
  (R.INT_ENABLE ≠ R.GYRO_CONFIG ∧ R.INT_ENABLE ≠ R.ACCEL_CONFIG) ∧
  (R.AK8963_CNTL ≠ R.GYRO_CONFIG ∧ R.AK8963_CNTL ≠ R.ACCEL_CONFIG)

/-- The states of the driver and of a register-map device reached by a successful `init`
with selectors of the enumerations (from any state whatever, so also a repeated `init`),
followed by `set_bias` and `update` calls and further such `init` calls. -/
inductive Reach (R : Regs) : MPU9250 → World (Nat → Nat → Nat) → Prop
  | init (self : MPU9250) (w : World (Nat → Nat → Nat))
      (Ascale Gscale Mscale Mmode : Nat) (set_AD0 : Bool) :
      (MPU9250.init R regBus self Ascale Gscale Mscale Mmode set_AD0 w).1 = true →
      validAscale Ascale → validGscale Gscale →
      Reach R (MPU9250.init R regBus self Ascale Gscale Mscale Mmode set_AD0 w).2.1
        (MPU9250.init R regBus self Ascale Gscale Mscale Mmode set_AD0 w).2.2
  | set_bias (self : MPU9250) (w : World (Nat → Nat → Nat)) (a g m : Vec3) :
      Reach R self w →
      Reach R (MPU9250.set_bias self a g m w).1 (MPU9250.set_bias self a g m w).2
  | update (self : MPU9250) (w : World (Nat → Nat → Nat)) (rawData : List Nat) :
      Reach R self w → Reach R self (MPU9250.update R regBus self rawData w).2

/-- A register-map device whose two identity registers hold `0x71` and `0x48` and whose
other registers hold `0`. -/
def idWorld : World (Nat → Nat → Nat) :=
  { dev := fun a r => if a = 0x68 ∧ r = 0x75 then 0x71 else if a = 0x0C ∧ r = 0x00 then 0x48
      else 0,
    writes := [] }

/-- The scripted device whose FIFO holds one packet with all six counts `0`; the byte count
read answers `12`. -/
def fifoZeroWorld : World (List (List Nat)) :=
  { dev := [[0, 12], [0, 0, 0, 0, 0, 0, 0, 0, 0, 0, 0, 0]], writes := [] }

/-- The scripted device whose FIFO byte count reads `11`: less than one packet. -/
def fifoShortWorld : World (List (List Nat)) :=
  { dev := [[0, 11], [0, 0, 0, 0, 0x40, 0, 0, 0, 0, 0, 0]], writes := [] }

/-- The state in which `calibrate_still_bias` enters its FIFO loop: `data` as left by the
byte count read, zero accumulators, no packet read yet. -/
def fifo_start {σ : Type} (R : Regs) (B : Bus σ) (self : MPU9250) (w : World σ) :
    FifoAcc σ :=
  { data := (calibrate_setup R B self w).1, accel_bias := ⟨0, 0, 0⟩,
    gyro_bias := ⟨0, 0, 0⟩, packets := [], w := (calibrate_setup R B self w).2 }

/-- The state in which `self_test` enters its baseline loop (line 211). -/
def baseline_start {σ : Type} (R : Regs) (B : Bus σ) (self : MPU9250) (w : World σ) :
    SampleAcc σ :=
  { rawData := List.replicate 6 0, a := ⟨0, 0, 0⟩, g := ⟨0, 0, 0⟩, aReads := [],
    gReads := [],
    w := writeByte B self.MPU9250_ADDRESS R.ACCEL_CONFIG (0 <<< 3)
      (writeByte B self.MPU9250_ADDRESS R.ACCEL_CONFIG2 0x02
        (writeByte B self.MPU9250_ADDRESS R.GYRO_CONFIG (0 <<< 3)
          (writeByte B self.MPU9250_ADDRESS R.CONFIG 0x02
            (writeByte B self.MPU9250_ADDRESS R.SMPLRT_DIV 0x00 w)))) }

/-- The state in which `self_test` enters its excited loop (line 234), after the baseline
loop ended in `s`. -/
def excited_start {σ : Type} (R : Regs) (B : Bus σ) (self : MPU9250) (s : SampleAcc σ) :
    SampleAcc σ :=
  { rawData := s.rawData, a := ⟨0, 0, 0⟩, g := ⟨0, 0, 0⟩, aReads := [], gReads := [],
    w := delay B 25
      (writeByte B self.MPU9250_ADDRESS R.GYRO_CONFIG 0xE0
        (writeByte B self.MPU9250_ADDRESS R.ACCEL_CONFIG 0xE0 s.w)) }

/-- Every component lies in the range of `int32_t`. -/
def Fits32 (v : IVec3) : Prop :=
  (-2147483648 ≤ v.x ∧ v.x < 2147483648) ∧ (-2147483648 ≤ v.y ∧ v.y < 2147483648) ∧
  (-2147483648 ≤ v.z ∧ v.z < 2147483648)

/-- One entry of `results` as the specification words it: `100 * (excitedAvg -
baselineAvg) / trim - 100`, where each average is the sum of sample `j` over the blocks
read divided by 200 with truncation toward zero, and `trim = 2620 * 1.01^(code - 1)`. -/
def spec_result (excited baseline : List (List Nat)) (j : Nat) (code : Nat) : ℚ :=
  100 * ((Int.tdiv (colSum j excited) 200 - Int.tdiv (colSum j baseline) 200 : Int) : ℚ)
    / (2620 * (101 / 100 : ℚ) ^ ((code : Int) - 1)) - 100

/-- The byte that `init` reads back from `GYRO_CONFIG` at line 85: the prior value `c` of
the register, read after the five configuration writes of lines 62-80. -/
def gyro_config_prior {σ : Type} (R : Regs) (B : Bus σ) (addr : Nat) (w : World σ) : Nat :=
  (readByte B addr R.GYRO_CONFIG
    (writeByte B addr R.SMPLRT_DIV 0x04
      (writeByte B addr R.CONFIG 0x03
        (delay B 200
          (writeByte B addr R.PWR_MGMT_2 0x00
            (writeByte B addr R.PWR_MGMT_1 0x01
              (delay B 100 (writeByte B addr R.PWR_MGMT_1 0x80 w)))))))).1

/-- A scripted device on which `init` succeeds and whose `GYRO_CONFIG` register reads
`0x01` (choice bit 0 set): the answers are identity `0x71`, `GYRO_CONFIG = 0x01`,
`ACCEL_CONFIG = 0`, `ACCEL_CONFIG2 = 0`, magnetometer identity `0x48`, fuse ROM
`(128, 128, 128)`. -/
def fchoiceWorld : World (List (List Nat)) :=
  { dev := [[0x71], [0x01], [0], [0], [0x48], [128, 128, 128]], writes := [] }


/-- The `double` nearest to `333.87`, the value of the literal `333.87`. -/
def double_333_87 : ℚ := 2936751577324585 / 8796093022208

/-- The driver `driver2g` with accelerometer bias `(0.1f, 0, 0)`. -/
def driverTenth : MPU9250 :=
  { driver2g with accelBias := ⟨FP.fin float_tenth, FP.fin 0, FP.fin 0⟩ }

/-- The world of a scripted bus that answers the next read with the 14-byte block whose
temperature count is `0x0D0B = 3339` and whose other counts are `0`. -/
def tempWorld : World (List (List Nat)) :=
  { dev := [[0, 0, 0, 0, 0, 0, 0x0D, 0x0B, 0, 0, 0, 0, 0, 0]], writes := [] }

/-- The zero vector. -/
def zero3 : Vec3 := ⟨FP.fin 0, FP.fin 0, FP.fin 0⟩

/-- The bias vector `(0.1f, 0, 0)`. -/
def tenth3 : Vec3 := ⟨FP.fin float_tenth, FP.fin 0, FP.fin 0⟩

/-- The bias vector `(0.25, 0, 0)`. -/
def quarter3 : Vec3 := ⟨FP.fin (1 / 4), FP.fin 0, FP.fin 0⟩

/-- The bias vector `(0.5, -0.2f, 0)`. -/
def half3 : Vec3 := ⟨FP.fin (1 / 2), FP.fin (-float_fifth), FP.fin 0⟩

/-- The real-number sum of a finite floating-point value and a rational, without
rounding: what "the value plus `d`" means in the specification. -/
def offset (v : FP) (d : ℚ) : FP :=
  match v with
  | FP.fin x => FP.fin (x + d)
  | FP.inf s => FP.inf s
  | FP.nan => FP.nan

/-- The scripted device whose FIFO holds two packets with gyro x counts `-1` and `-1`
(accelerometer z count `16384`, the rest `0`); the byte count read answers `24`. -/
def fifoNegWorld : World (List (List Nat)) :=
  { dev := [[0, 24], [0, 0, 0, 0, 0x40, 0, 0xFF, 0xFF, 0, 0, 0, 0],
      [0, 0, 0, 0, 0x40, 0, 0xFF, 0xFF, 0, 0, 0, 0]], writes := [] }

/-- The device `fifoNegWorld` with `3` added to both gyro x counts: `2` and `2`. -/
def fifoTwoWorld : World (List (List Nat)) :=
  { dev := [[0, 24], [0, 0, 0, 0, 0x40, 0, 0, 2, 0, 0, 0, 0],
      [0, 0, 0, 0, 0x40, 0, 0, 2, 0, 0, 0, 0]], writes := [] }

/-- The `double` nearest to `1.01`, the value of the literal `1.01`. -/
def double_1_01 : ℚ := 4548635623644201 / 4503599627370496

/-- A correctly rounded `pow` for whole exponents: the `double` nearest to `x ^ y`.  It
stands for the C library function in the examples; for the other arguments, which the
driver never passes, it gives a NaN. -/
def refPow : FP → FP → FP
  | FP.fin x, FP.fin y =>
    if y.den = 1 ∧ (x ≠ 0 ∨ 0 ≤ y) then FP.f64 (x ^ y.num) else FP.nan
  | _, _ => FP.nan

/-- What is assumed of the C library `pow`: at the base `1.01` and the whole exponents
`-1 .. 254` that the 8-bit trim codes give, it returns a finite number not below `1/2`
(the true powers lie between `0.99` and `12.6`). -/
def PowOK (pow : FP → FP → FP) : Prop :=
  ∀ n : Int, -1 ≤ n → n ≤ 254 →
    ∃ p : ℚ, pow (FP.fin double_1_01) (FP.fin (n : ℚ)) = FP.fin p ∧ 1 / 2 ≤ p

/-- The factory trim of a code as `self_test` computes it at `FS = 0`: the product of
`2620` and `pow(1.01, code - 1)` is rounded to `double` and stored in a `float`. -/
def float_trim (pow : FP → FP → FP) (code : Nat) : FP :=
  FP.cvt FP.f32
    (FP.mul FP.f64 (FP.fin 2620) (pow (FP.fin double_1_01) (FP.fin ((code : ℚ) - 1))))

/-- One entry of `results` as `self_test` computes it from the blocks read: with the two
averages the sums of sample `j` divided by 200 with truncation toward zero, the quotient of
`100 * (excitedAvg - baselineAvg)` by the factory trim is rounded to `double`, the
difference with `100` is rounded to `double`, and the result is stored in a `float`. -/
def float_result (pow : FP → FP → FP) (excited baseline : List (List Nat)) (j : Nat)
    (code : Nat) : FP :=
  FP.cvt FP.f32
    (FP.sub FP.f64
      (FP.div FP.f64
        (FP.fin (100 * ((Int.tdiv (colSum j excited) 200
          - Int.tdiv (colSum j baseline) 200 : Int) : ℚ)))
        (float_trim pow code))
      (FP.fin 100))

/-- The scripted device for a self test with trim codes `141`: the baseline reads answer
zero counts, the excited reads answer counts `10551 = 0x2937` on every axis. -/
def selfTestWorld141 : World (List (List Nat)) :=
  { dev := List.replicate 400 [0, 0, 0, 0, 0, 0]
      ++ (List.replicate 400 [0x29, 0x37, 0x29, 0x37, 0x29, 0x37] ++ List.replicate 6 [141]),
    writes := [] }

/-- The scripted device for a self test with trim codes `0`: the baseline reads answer
zero counts, the excited reads answer counts `2620 = 0x0A3C` on every axis. -/
def selfTestWorld0 : World (List (List Nat)) :=
  { dev := List.replicate 400 [0, 0, 0, 0, 0, 0]
      ++ (List.replicate 400 [0x0A, 0x3C, 0x0A, 0x3C, 0x0A, 0x3C] ++ List.replicate 6 [0]),
    writes := [] }
/-! ## Floating point: evaluation of a rounding -/

/-- A rational within half a unit of an integer rounds to that integer. -/
theorem roundEven_of_near (t : ℚ) (n : Int) (h1 : (n : ℚ) - 1 / 2 < t) (h2 : t < n + 1 / 2) :
    FP.roundEven t = n := by
  unfold FP.roundEven
  by_cases hn : (n : ℚ) ≤ t
  · have hf : ⌊t⌋ = n := by
      rw [Int.floor_eq_iff]
      constructor <;> linarith
    rw [hf, if_pos (by linarith)]
  · push_neg at hn
    have hf : ⌊t⌋ = n - 1 := by
      rw [Int.floor_eq_iff]
      push_cast
      constructor <;> linarith
    rw [hf]
    push_cast
    rw [if_neg (by linarith), if_pos (by linarith)]
    ring

/-- An integer rounds to itself. -/
theorem roundEven_intCast (n : Int) : FP.roundEven (n : ℚ) = n :=
  roundEven_of_near _ n (by linarith) (by linarith)

/-- The rounding of a rational is not below an integer that the rational is not below. -/
theorem le_roundEven (t : ℚ) (n : Int) (h : (n : ℚ) ≤ t) : n ≤ FP.roundEven t := by
  have hf : n ≤ ⌊t⌋ := Int.le_floor.mpr h
  unfold FP.roundEven
  split_ifs <;> omega

/-- The binary logarithm of a magnitude from a bracket by powers of two. -/
theorem log_of_bounds (x : ℚ) (e : Int) (h1 : (2 : ℚ) ^ e ≤ |x|) (h2 : |x| < 2 ^ (e + 1)) :
    Int.log 2 |x| = e := by
  have hpos : 0 < |x| := lt_of_lt_of_le (by positivity) h1
  have ha : e ≤ Int.log 2 |x| := by
    rw [← Int.zpow_le_iff_le_log (by norm_num) hpos]
    exact_mod_cast h1
  have hb : Int.log 2 |x| < e + 1 := by
    rw [← Int.lt_zpow_iff_log_lt (by norm_num) hpos]
    exact_mod_cast h2
  omega

/-- Evaluation of a rounding from a bracket of the argument and a nearest integer. -/
theorem roundTo_eval (prec : Nat) (emin : Int) (x : ℚ) (e q n : Int)
    (h1 : (2 : ℚ) ^ e ≤ |x|) (h2 : |x| < 2 ^ (e + 1))
    (hq : q = max (e - ((prec : Int) - 1)) emin)
    (h3 : (n : ℚ) - 1 / 2 < x / 2 ^ q) (h4 : x / 2 ^ q < n + 1 / 2) :
    FP.roundTo prec emin x = (n : ℚ) * 2 ^ q := by
  have hpos : 0 < |x| := lt_of_lt_of_le (by positivity) h1
  have hx : x ≠ 0 := abs_pos.mp hpos
  unfold FP.roundTo FP.ulpExp
  rw [if_neg hx, log_of_bounds x e h1 h2, ← hq, roundEven_of_near _ n h3 h4]

/-- A number with a `prec`-bit significand and an exponent in range rounds to itself. -/
theorem roundTo_exact (prec : Nat) (emin : Int) (m k : Int) (hm : |m| < 2 ^ prec)
    (hk : emin ≤ k) :
    FP.roundTo prec emin ((m : ℚ) * 2 ^ k) = (m : ℚ) * 2 ^ k := by
  unfold FP.roundTo
  by_cases hx : (m : ℚ) * 2 ^ k = 0
  · rw [if_pos hx, hx]
  · rw [if_neg hx]
    have hm0 : m ≠ 0 := by
      intro h; apply hx; rw [h]; simp
    have hpos : 0 < |(m : ℚ) * 2 ^ k| := abs_pos.mpr hx
    have h2k : (0 : ℚ) < 2 ^ k := by positivity
    have hle : FP.ulpExp prec emin ((m : ℚ) * 2 ^ k) ≤ k := by
      unfold FP.ulpExp
      apply max_le _ hk
      have h1 := Int.zpow_log_le_self (b := 2) (r := |(m : ℚ) * 2 ^ k|) (by norm_num) hpos
      have h3 : |(m : ℚ) * 2 ^ k| < 2 ^ ((prec : Int) + k) := by
        rw [abs_mul, abs_of_pos h2k, zpow_add₀ (by norm_num : (2 : ℚ) ≠ 0)]
        apply mul_lt_mul_of_pos_right _ h2k
        have : ((|m| : Int) : ℚ) < ((2 ^ prec : Int) : ℚ) := by exact_mod_cast hm
        simpa using this
      have h4 : ((2 : ℕ) : ℚ) ^ Int.log 2 |(m : ℚ) * 2 ^ k| < 2 ^ ((prec : Int) + k) :=
        lt_of_le_of_lt h1 h3
      have h5 : Int.log 2 |(m : ℚ) * 2 ^ k| < (prec : Int) + k := by
        have := (zpow_lt_zpow_iff_right₀ (by norm_num : (1 : ℚ) < 2)).mp (by exact_mod_cast h4)
        exact this
      omega
    obtain ⟨d, hd⟩ := Int.eq_ofNat_of_zero_le
      (show 0 ≤ k - FP.ulpExp prec emin ((m : ℚ) * 2 ^ k) by omega)
    have hdiv : (m : ℚ) * 2 ^ k / 2 ^ FP.ulpExp prec emin ((m : ℚ) * 2 ^ k)
        = ((m * 2 ^ d : Int) : ℚ) := by
      rw [mul_div_assoc, ← zpow_sub₀ (by norm_num : (2 : ℚ) ≠ 0), hd, zpow_natCast]
      push_cast
      rfl
    rw [hdiv, roundEven_intCast, ← hdiv]
    field_simp

/-- Evaluation of a rounding into a format, with the overflow check. -/
theorem round_eval (prec : Nat) (emin emax : Int) (x : ℚ) (e q n : Int)
    (h1 : (2 : ℚ) ^ e ≤ |x|) (h2 : |x| < 2 ^ (e + 1))
    (hq : q = max (e - ((prec : Int) - 1)) emin)
    (h3 : (n : ℚ) - 1 / 2 < x / 2 ^ q) (h4 : x / 2 ^ q < n + 1 / 2)
    (h5 : |(n : ℚ) * 2 ^ q| < 2 ^ emax) :
    FP.round prec emin emax x = FP.fin ((n : ℚ) * 2 ^ q) := by
  unfold FP.round
  rw [roundTo_eval prec emin x e q n h1 h2 hq h3 h4, if_pos h5]

/-- A number of the format rounds to itself. -/
theorem round_exact (prec : Nat) (emin emax : Int) (m k : Int) (hm : |m| < 2 ^ prec)
    (hk : emin ≤ k) (hmax : |(m : ℚ) * 2 ^ k| < 2 ^ emax) :
    FP.round prec emin emax ((m : ℚ) * 2 ^ k) = FP.fin ((m : ℚ) * 2 ^ k) := by
  unfold FP.round
  rw [roundTo_exact prec emin m k hm hk, if_pos hmax]

/-- An integer below `2^24` in magnitude is a `float`. -/
theorem f32_int (n : Int) (h : |n| < 2 ^ 24) : FP.f32 (n : ℚ) = FP.fin n := by
  have h1 := round_exact 24 (-149) 128 n 0 h (by norm_num) (by
    rw [zpow_zero, mul_one]
    have h2 : ((|n| : Int) : ℚ) < ((2 ^ 24 : Int) : ℚ) := by exact_mod_cast h
    rw [Int.cast_abs] at h2
    exact lt_of_lt_of_le h2 (by norm_num))
  rw [zpow_zero, mul_one] at h1
  exact h1

/-- An integer below `2^53` in magnitude is a `double`. -/
theorem f64_int (n : Int) (h : |n| < 2 ^ 53) : FP.f64 (n : ℚ) = FP.fin n := by
  have h1 := round_exact 53 (-1074) 1024 n 0 h (by norm_num) (by
    rw [zpow_zero, mul_one]
    have h2 : ((|n| : Int) : ℚ) < ((2 ^ 53 : Int) : ℚ) := by exact_mod_cast h
    rw [Int.cast_abs] at h2
    exact lt_of_lt_of_le h2 (by norm_num))
  rw [zpow_zero, mul_one] at h1
  exact h1

/-- An integer below `2^24` in magnitude divided by `2^k`, `k ≤ 149`, is a `float`. -/
theorem f32_dyadic (n : Int) (k : Nat) (h : |n| < 2 ^ 24) (hk : k ≤ 149) :
    FP.f32 ((n : ℚ) / 2 ^ k) = FP.fin ((n : ℚ) / 2 ^ k) := by
  have h2 : ((|n| : Int) : ℚ) < ((2 ^ 24 : Int) : ℚ) := by exact_mod_cast h
  rw [Int.cast_abs] at h2
  have hd : (n : ℚ) / 2 ^ k = (n : ℚ) * 2 ^ (-(k : Int)) := by
    rw [zpow_neg, zpow_natCast, div_eq_mul_inv]
  have h1 := round_exact 24 (-149) 128 n (-(k : Int)) h (by omega) (by
    rw [← hd, abs_div, abs_of_pos (by positivity : (0 : ℚ) < 2 ^ k)]
    have h3 : |(n : ℚ)| / 2 ^ k ≤ |(n : ℚ)| :=
      div_le_self (abs_nonneg _) (one_le_pow₀ (by norm_num))
    exact lt_of_le_of_lt h3 (lt_of_lt_of_le h2 (by norm_num)))
  rw [← hd] at h1
  exact h1

/-- Zero rounds to zero in both formats. -/
theorem f32_zero : FP.f32 0 = FP.fin 0 := by
  have h := f32_int 0 (by norm_num)
  simpa using h

/-- A rational `m * 2^k` with `|m| < 2^24`, `k ≥ -149` and magnitude below `2^128` is a
`float`. -/
theorem f32_of_eq (x : ℚ) (m k : Int) (hx : x = (m : ℚ) * 2 ^ k) (hm : |m| < 2 ^ 24)
    (hk : -149 ≤ k) (hmax : |x| < 2 ^ (128 : Int)) : FP.f32 x = FP.fin x := by
  rw [hx] at hmax ⊢
  exact round_exact 24 (-149) 128 m k hm hk hmax

/-- A rational `m * 2^k` with `|m| < 2^53`, `k ≥ -1074` and magnitude below `2^1024` is a
`double`. -/
theorem f64_of_eq (x : ℚ) (m k : Int) (hx : x = (m : ℚ) * 2 ^ k) (hm : |m| < 2 ^ 53)
    (hk : -1074 ≤ k) (hmax : |x| < 2 ^ (1024 : Int)) : FP.f64 x = FP.fin x := by
  rw [hx] at hmax ⊢
  exact round_exact 53 (-1074) 1024 m k hm hk hmax

/-- Zero is a `double`. -/
theorem f64_zero : FP.f64 0 = FP.fin 0 := by
  have h := f64_int 0 (by norm_num)
  simpa using h

/-- The rounding of a rational is not above an integer that the rational is not above. -/
theorem roundEven_le (t : ℚ) (n : Int) (h : t ≤ (n : ℚ)) : FP.roundEven t ≤ n := by
  have hf : ⌊t⌋ ≤ n := Int.cast_le.mp (le_trans (Int.floor_le t) h)
  have hlt : 0 < t - ⌊t⌋ → ⌊t⌋ + 1 ≤ n := by
    intro hpos
    by_contra hc
    have he : ⌊t⌋ = n := by omega
    rw [he] at hpos
    linarith
  unfold FP.roundEven
  split_ifs with h1 h2 h3
  · exact hf
  · exact hlt (by linarith)
  · exact hf
  · exact hlt (by linarith)

/-- Rounding does not cross a power of two of the format: magnitudes. -/
theorem roundTo_abs_le (prec : Nat) (emin : Int) (x : ℚ) (j : Int) (hp : 1 ≤ prec)
    (hj : emin ≤ j) (hx : |x| ≤ 2 ^ j) : |FP.roundTo prec emin x| ≤ 2 ^ j := by
  unfold FP.roundTo
  by_cases h0 : x = 0
  · rw [if_pos h0, abs_zero]; positivity
  · rw [if_neg h0]
    have hpos : 0 < |x| := abs_pos.mpr h0
    have hlog : Int.log 2 |x| ≤ j := by
      have h1 := Int.zpow_log_le_self (b := 2) (r := |x|) (by norm_num) hpos
      have h2 : ((2 : ℕ) : ℚ) ^ Int.log 2 |x| ≤ 2 ^ j := le_trans h1 hx
      exact (zpow_le_zpow_iff_right₀ (by norm_num : (1 : ℚ) < 2)).mp (by exact_mod_cast h2)
    have hq : FP.ulpExp prec emin x ≤ j := by
      unfold FP.ulpExp
      apply max_le _ hj
      omega
    obtain ⟨d, hd⟩ := Int.eq_ofNat_of_zero_le (show 0 ≤ j - FP.ulpExp prec emin x by omega)
    have h2q : (0 : ℚ) < 2 ^ FP.ulpExp prec emin x := by positivity
    have hj2 : (2 : ℚ) ^ j = 2 ^ d * 2 ^ FP.ulpExp prec emin x := by
      rw [← zpow_natCast, ← hd, ← zpow_add₀ (by norm_num : (2 : ℚ) ≠ 0)]
      congr 1
      omega
    have ht : |x / 2 ^ FP.ulpExp prec emin x| ≤ 2 ^ d := by
      rw [abs_div, abs_of_pos h2q, div_le_iff₀ h2q, ← hj2]
      exact hx
    rw [abs_le] at ht
    have hup : FP.roundEven (x / 2 ^ FP.ulpExp prec emin x) ≤ (2 ^ d : Int) :=
      roundEven_le _ _ (by push_cast; exact ht.2)
    have hlo : (-(2 ^ d) : Int) ≤ FP.roundEven (x / 2 ^ FP.ulpExp prec emin x) :=
      le_roundEven _ _ (by push_cast; exact ht.1)
    have hr : |(FP.roundEven (x / 2 ^ FP.ulpExp prec emin x) : ℚ)| ≤ 2 ^ d := by
      rw [abs_le]
      constructor
      · exact_mod_cast hlo
      · exact_mod_cast hup
    rw [abs_mul, abs_of_pos h2q, hj2]
    exact mul_le_mul_of_nonneg_right hr (le_of_lt h2q)

/-- Rounding does not cross a power of two of the format: from below. -/
theorem roundTo_ge_pow (prec : Nat) (emin : Int) (x : ℚ) (j : Int) (hp : 1 ≤ prec)
    (hj : emin ≤ j) (hx : 2 ^ j ≤ x) : 2 ^ j ≤ FP.roundTo prec emin x := by
  have hxpos : 0 < x := lt_of_lt_of_le (by positivity) hx
  have h0 : x ≠ 0 := ne_of_gt hxpos
  have habs : |x| = x := abs_of_pos hxpos
  unfold FP.roundTo
  rw [if_neg h0]
  have hlog : j ≤ Int.log 2 |x| := by
    rw [← Int.zpow_le_iff_le_log (by norm_num) (by rw [habs]; exact hxpos), habs]
    exact_mod_cast hx
  have hq : FP.ulpExp prec emin x ≤ Int.log 2 |x| := by
    unfold FP.ulpExp
    apply max_le <;> omega
  obtain ⟨d, hd⟩ := Int.eq_ofNat_of_zero_le
    (show 0 ≤ Int.log 2 |x| - FP.ulpExp prec emin x by omega)
  have h2q : (0 : ℚ) < 2 ^ FP.ulpExp prec emin x := by positivity
  have he2 : (2 : ℚ) ^ Int.log 2 |x| = 2 ^ d * 2 ^ FP.ulpExp prec emin x := by
    rw [← zpow_natCast, ← hd, ← zpow_add₀ (by norm_num : (2 : ℚ) ≠ 0)]
    congr 1
    omega
  have hle : (2 : ℚ) ^ Int.log 2 |x| ≤ x := by
    have h1 := Int.zpow_log_le_self (b := 2) (r := |x|) (by norm_num)
      (by rw [habs]; exact hxpos)
    rw [habs] at h1
    rw [habs]
    exact_mod_cast h1
  have ht : ((2 ^ d : Int) : ℚ) ≤ x / 2 ^ FP.ulpExp prec emin x := by
    rw [le_div_iff₀ h2q]
    push_cast
    rw [← he2]
    exact hle
  have hr : ((2 ^ d : Int) : ℚ) ≤ (FP.roundEven (x / 2 ^ FP.ulpExp prec emin x) : ℚ) := by
    exact_mod_cast le_roundEven _ _ ht
  have hj2 : (2 : ℚ) ^ j ≤ 2 ^ Int.log 2 |x| :=
    (zpow_le_zpow_iff_right₀ (by norm_num : (1 : ℚ) < 2)).mpr hlog
  calc (2 : ℚ) ^ j ≤ 2 ^ Int.log 2 |x| := hj2
    _ = ((2 ^ d : Int) : ℚ) * 2 ^ FP.ulpExp prec emin x := by rw [he2]; push_cast; rfl
    _ ≤ (FP.roundEven (x / 2 ^ FP.ulpExp prec emin x) : ℚ) * 2 ^ FP.ulpExp prec emin x :=
        mul_le_mul_of_nonneg_right hr (le_of_lt h2q)

/-- A rational of magnitude at most `2^127` rounds to a finite `float`. -/
theorem f32_fin (x : ℚ) (j : Int) (hj : -149 ≤ j) (hj2 : j < 128) (hx : |x| ≤ 2 ^ j) :
    FP.f32 x = FP.fin (FP.roundTo 24 (-149) x) := by
  unfold FP.f32 FP.round
  rw [if_pos]
  exact lt_of_le_of_lt (roundTo_abs_le 24 (-149) x j (by norm_num) hj hx)
    (zpow_lt_zpow_right₀ (by norm_num) hj2)

/-- A rational of magnitude at most `2^1023` rounds to a finite `double`. -/
theorem f64_fin (x : ℚ) (j : Int) (hj : -1074 ≤ j) (hj2 : j < 1024) (hx : |x| ≤ 2 ^ j) :
    FP.f64 x = FP.fin (FP.roundTo 53 (-1074) x) := by
  unfold FP.f64 FP.round
  rw [if_pos]
  exact lt_of_le_of_lt (roundTo_abs_le 53 (-1074) x j (by norm_num) hj hx)
    (zpow_lt_zpow_right₀ (by norm_num) hj2)

/-- An integer below `2^53` in magnitude divided by `2^k`, `k ≤ 1074`, is a `double`. -/
theorem f64_dyadic (n : Int) (k : Nat) (h : |n| < 2 ^ 53) (hk : k ≤ 1074) :
    FP.f64 ((n : ℚ) / 2 ^ k) = FP.fin ((n : ℚ) / 2 ^ k) := by
  have h2 : ((|n| : Int) : ℚ) < ((2 ^ 53 : Int) : ℚ) := by exact_mod_cast h
  rw [Int.cast_abs] at h2
  have hd : (n : ℚ) / 2 ^ k = (n : ℚ) * 2 ^ (-(k : Int)) := by
    rw [zpow_neg, zpow_natCast, div_eq_mul_inv]
  have h1 := round_exact 53 (-1074) 1024 n (-(k : Int)) h (by omega) (by
    rw [← hd, abs_div, abs_of_pos (by positivity : (0 : ℚ) < 2 ^ k)]
    have h3 : |(n : ℚ)| / 2 ^ k ≤ |(n : ℚ)| :=
      div_le_self (abs_nonneg _) (one_le_pow₀ (by norm_num))
    exact lt_of_le_of_lt h3 (lt_of_lt_of_le h2 (by norm_num)))
  rw [← hd] at h1
  exact h1

/-- The quotient of an integer below `2^24` in magnitude by `32768`, computed in `double`
and stored in a `float`, is exact. -/
theorem float_quotient_32768 (a : Int) (ha : |a| < 2 ^ 24) :
    MPU9250.float_quotient (FP.f64 (a : ℚ)) (FP.f64 32768) = FP.fin ((a : ℚ) / 32768) := by
  have h1 : FP.f64 (a : ℚ) = FP.fin a := f64_int a (by
    have : (2 : Int) ^ 24 ≤ 2 ^ 53 := by norm_num
    omega)
  have h2 : FP.f64 32768 = FP.fin 32768 := by
    have h := f64_int 32768 (by norm_num)
    simpa using h
  have h3 := f64_dyadic a 15 (by
    have : (2 : Int) ^ 24 ≤ 2 ^ 53 := by norm_num
    omega) (by norm_num)
  have h4 := f32_dyadic a 15 ha (by norm_num)
  norm_num at h3 h4
  rw [h1, h2]
  simp only [MPU9250.float_quotient, FP.div, FP.cvt]
  norm_num [h3, h4]

/-- The operations on finite values: one rounding of the exact result. -/
theorem cvt_fin (rnd : ℚ → FP) (x : ℚ) : FP.cvt rnd (FP.fin x) = rnd x := rfl

theorem mul_fin (rnd : ℚ → FP) (x y : ℚ) : FP.mul rnd (FP.fin x) (FP.fin y) = rnd (x * y) :=
  rfl

theorem add_fin (rnd : ℚ → FP) (x y : ℚ) : FP.add rnd (FP.fin x) (FP.fin y) = rnd (x + y) :=
  rfl

theorem sub_fin (rnd : ℚ → FP) (x y : ℚ) : FP.sub rnd (FP.fin x) (FP.fin y) = rnd (x - y) := by
  simp only [FP.sub, FP.neg, FP.add, sub_eq_add_neg]

theorem div_fin (rnd : ℚ → FP) (x y : ℚ) (hy : y ≠ 0) :
    FP.div rnd (FP.fin x) (FP.fin y) = rnd (x / y) := by
  simp only [FP.div, if_neg hy]
/-! ## Basic facts: integer conversions and bus reads -/

theorem toInt16_of_range {n : Int} (h1 : -32768 ≤ n) (h2 : n < 32768) : toInt16 n = n := by
  unfold toInt16
  split_ifs with h <;> omega

theorem toInt32_of_range {n : Int} (h1 : -2147483648 ≤ n) (h2 : n < 2147483648) :
    toInt32 n = n := by
  unfold toInt32
  split_ifs with h <;> omega

theorem toInt16_range (n : Int) : -32768 ≤ toInt16 n ∧ toInt16 n < 32768 := by
  unfold toInt16
  split_ifs with h <;> omega

theorem shift_or_bytes (hi : Nat) {lo : Nat} (hlo : lo < 256) :
    (hi <<< 8) ||| lo = hi * 256 + lo := by
  have h := Nat.mul_add_lt_is_or (i := 8) (b := lo) (by simpa using hlo) hi
  rw [Nat.shiftLeft_eq, Nat.mul_comm hi (2 ^ 8), ← h]

theorem int16_of_bytes_eq_s16 {hi lo : Nat} (hhi : hi < 256) (hlo : lo < 256) :
    int16_of_bytes hi lo = s16 hi lo := by
  unfold int16_of_bytes s16 toInt16
  rw [shift_or_bytes hi hlo]
  split_ifs <;> omega

theorem int16_of_bytes_range (hi lo : Nat) :
    -32768 ≤ int16_of_bytes hi lo ∧ int16_of_bytes hi lo < 32768 :=
  toInt16_range _

theorem byteAt_lt {buf : List Nat} (h : ∀ b ∈ buf, b < 256) (i : Nat) : byteAt buf i < 256 := by
  unfold byteAt
  by_cases hi : i < buf.length
  · rw [List.getD_eq_getElem buf 0 hi]
    exact h _ (List.getElem_mem hi)
  · rw [List.getD_eq_default buf 0 (by omega)]
    omega

theorem map_mod_of_lt {l : List Nat} (h : ∀ b ∈ l, b < 256) :
    l.map (fun b => b % 256) = l := by
  induction l with
  | nil => rfl
  | cons a t ih =>
    simp only [List.map_cons, List.cons.injEq]
    exact ⟨Nat.mod_eq_of_lt (h a (List.mem_cons_self a t)),
      ih (fun b hb => h b (List.mem_cons_of_mem a hb))⟩

/-- A read answered by exactly `count` bytes fills a `count`-byte buffer with them. -/
theorem readBytes_full {σ : Type} (B : Bus σ) (address subAddress count : Nat)
    (dest : List Nat) (w : World σ) (hd : dest.length = count)
    (hlen : (B.read address subAddress count w.dev).1.length = count)
    (hb : ∀ b ∈ (B.read address subAddress count w.dev).1, b < 256) :
    (readBytes B address subAddress count dest w).1
      = (B.read address subAddress count w.dev).1 := by
  unfold readBytes
  have ht : (B.read address subAddress count w.dev).1.take count
      = (B.read address subAddress count w.dev).1 := List.take_of_length_le (by omega)
  simp only [ht, map_mod_of_lt hb, hlen]
  rw [List.drop_of_length_le (by omega)]
  simp

/-- A signed 16-bit count converts to `float` without rounding. -/
theorem ofInt_int16 (hi lo : Nat) :
    FP.ofInt FP.f32 (int16_of_bytes hi lo) = FP.fin (int16_of_bytes hi lo) := by
  have h := int16_of_bytes_range hi lo
  exact f32_int _ (by rw [abs_lt]; constructor <;> omega)

/-- The dataset that `update` produces from a 14-byte answer `raw` of the device, whatever
the local array held before the read. -/
theorem update_of_block {σ : Type} (R : Regs) (B : Bus σ) (self : MPU9250)
    (rawData : List Nat) (w : World σ) (raw : List Nat) (hbuf : rawData.length = 14)
    (hraw : (B.read self.MPU9250_ADDRESS R.ACCEL_XOUT_H 14 w.dev).1 = raw)
    (hlen : raw.length = 14) (hbyte : ∀ b ∈ raw, b < 256) :
    (update R B self rawData w).1 =
      { Ax := FP.sub FP.f32
          (FP.mul FP.f32 (FP.fin (s16 (byteAt raw 0) (byteAt raw 1))) self.aRes)
          self.accelBias.x,
        Ay := FP.sub FP.f32
          (FP.mul FP.f32 (FP.fin (s16 (byteAt raw 2) (byteAt raw 3))) self.aRes)
          self.accelBias.y,
        Az := FP.sub FP.f32
          (FP.mul FP.f32 (FP.fin (s16 (byteAt raw 4) (byteAt raw 5))) self.aRes)
          self.accelBias.z,
        T := FP.cvt FP.f32
          (FP.add FP.f64
            (FP.div FP.f64 (FP.fin (s16 (byteAt raw 6) (byteAt raw 7))) (FP.f64 (33387 / 100)))
            (FP.f64 21)),
        Gx := FP.sub FP.f32
          (FP.mul FP.f32 (FP.fin (s16 (byteAt raw 8) (byteAt raw 9))) self.gRes)
          self.gyroBias.x,
        Gy := FP.sub FP.f32
          (FP.mul FP.f32 (FP.fin (s16 (byteAt raw 10) (byteAt raw 11))) self.gRes)
          self.gyroBias.y,
        Gz := FP.sub FP.f32
          (FP.mul FP.f32 (FP.fin (s16 (byteAt raw 12) (byteAt raw 13))) self.gRes)
          self.gyroBias.z } := by
  have hfull : (readBytes B self.MPU9250_ADDRESS R.ACCEL_XOUT_H 14 rawData w).1 = raw := by
    rw [readBytes_full B _ _ 14 _ w hbuf (by rw [hraw]; exact hlen)
      (by rw [hraw]; exact hbyte), hraw]
  simp only [update, hfull, Nat.mul_zero, Nat.mul_one, Nat.zero_add, Nat.reduceMul,
    Nat.reduceAdd, ofInt_int16]
  simp only [int16_of_bytes_eq_s16 (byteAt_lt hbyte _) (byteAt_lt hbyte _)]

/-- The bus traffic of `update` is one read: the register writes issued are unchanged. -/
theorem update_writes {σ : Type} (R : Regs) (B : Bus σ) (self : MPU9250)
    (rawData : List Nat) (w : World σ) :
    (update R B self rawData w).2.writes = w.writes := rfl

/-! ## C3, C4: the sample decoder -/

/-- The `double` constant `333.87`. -/
theorem f64_333_87 : FP.f64 (33387 / 100) = FP.fin double_333_87 := by
  have h := round_eval 53 (-1074) 1024 (33387 / 100) 8 (-44) 5873503154649170
    (by norm_num [abs_of_pos]) (by norm_num [abs_of_pos]) (by norm_num) (by norm_num)
    (by norm_num) (by norm_num [abs_of_pos])
  rw [FP.f64, h, double_333_87]
  norm_num

/-- The `double` constant `21.0`. -/
theorem f64_21 : FP.f64 21 = FP.fin 21 := by
  have h := f64_int 21 (by norm_num)
  simpa using h

/-- The temperature conversion on a signed 16-bit count is finite: it is three roundings
of `count / 333.87 + 21`. -/
theorem temperature_of_count (c : Int) (h1 : -32768 ≤ c) (h2 : c < 32768) :
    FP.cvt FP.f32
        (FP.add FP.f64 (FP.div FP.f64 (FP.fin c) (FP.f64 (33387 / 100))) (FP.f64 21))
      = FP.fin (FP.roundTo 24 (-149)
          (FP.roundTo 53 (-1074) (FP.roundTo 53 (-1074) ((c : ℚ) / double_333_87) + 21))) := by
  have hc : |(c : ℚ)| ≤ 32768 := by
    rw [abs_le]
    constructor
    · exact_mod_cast h1
    · exact_mod_cast (le_of_lt h2)
  have hd : (256 : ℚ) ≤ double_333_87 := by norm_num [double_333_87]
  have hdpos : (0 : ℚ) < double_333_87 := by linarith
  have hq : |(c : ℚ) / double_333_87| ≤ 2 ^ (7 : Int) := by
    rw [abs_div, abs_of_pos hdpos, div_le_iff₀ hdpos]
    have : (2 : ℚ) ^ (7 : Int) * double_333_87 ≥ 2 ^ (7 : Int) * 256 :=
      mul_le_mul_of_nonneg_left hd (by positivity)
    norm_num at this ⊢
    linarith
  have hr1 := roundTo_abs_le 53 (-1074) _ 7 (by norm_num) (by norm_num) hq
  have hs : |FP.roundTo 53 (-1074) ((c : ℚ) / double_333_87) + 21| ≤ 2 ^ (8 : Int) := by
    have h3 := abs_add (FP.roundTo 53 (-1074) ((c : ℚ) / double_333_87)) 21
    norm_num at hr1 h3 ⊢
    linarith
  have hr2 := roundTo_abs_le 53 (-1074) _ 8 (by norm_num) (by norm_num) hs
  rw [f64_333_87, f64_21]
  simp only [FP.div, if_neg (ne_of_gt hdpos)]
  rw [f64_fin _ 7 (by norm_num) (by norm_num) hq]
  simp only [FP.add]
  rw [f64_fin _ 8 (by norm_num) (by norm_num) hs]
  simp only [FP.cvt]
  rw [f32_fin _ 8 (by norm_num) (by norm_num) hr2]

/-- The bytes of a block are bytes, so a byte pair decodes to a signed 16-bit count. -/
theorem s16_range {hi lo : Nat} (hhi : hi < 256) (hlo : lo < 256) :
    -32768 ≤ s16 hi lo ∧ s16 hi lo < 32768 := by
  unfold s16
  split_ifs <;> omega

/-- The temperature conversion at the count `3339`. -/
theorem temperature_3339 :
    FP.roundTo 24 (-149)
        (FP.roundTo 53 (-1074) (FP.roundTo 53 (-1074) ((3339 : ℚ) / double_333_87) + 21))
      = 16253399 / 524288 := by
  have ha : FP.roundTo 53 (-1074) ((3339 : ℚ) / double_333_87)
      = 2815002687383953 / 281474976710656 := by
    rw [roundTo_eval 53 (-1074) _ 3 (-49) 5630005374767906
      (by norm_num [double_333_87, abs_of_pos]) (by norm_num [double_333_87, abs_of_pos])
      (by norm_num) (by norm_num [double_333_87]) (by norm_num [double_333_87])]
    norm_num
  have hb : FP.roundTo 53 (-1074) ((2815002687383953 / 281474976710656 : ℚ) + 21)
      = 8725977198307729 / 281474976710656 := by
    rw [roundTo_eval 53 (-1074) _ 4 (-48) 8725977198307729
      (by norm_num [abs_of_pos]) (by norm_num [abs_of_pos])
      (by norm_num) (by norm_num) (by norm_num)]
    norm_num
  rw [ha, hb, roundTo_eval 24 (-149) _ 4 (-19) 16253399
    (by norm_num [abs_of_pos]) (by norm_num [abs_of_pos])
    (by norm_num) (by norm_num) (by norm_num)]
  norm_num

/-- C3, amended: when the device answers the 14-register read with a 14-byte block `raw`,
`update` sets each acceleration output to the `float` difference of the `float` product
`s16(hi,lo) * aRes` and `accelBias[axis]` (bytes 0-5), and each angular-rate output to the
`float` difference of the `float` product `s16(hi,lo) * gRes` and `gyroBias[axis]` (bytes
8-13): each of the two operations rounds to the nearest `float`.  This holds for every
stored resolution and bias and whatever the local array held before the read. -/
theorem update_accel_gyro {σ : Type} (R : Regs) (B : Bus σ) (self : MPU9250)
    (rawData : List Nat) (w : World σ) (raw : List Nat) (hbuf : rawData.length = 14)
    (hraw : (B.read self.MPU9250_ADDRESS R.ACCEL_XOUT_H 14 w.dev).1 = raw)
    (hlen : raw.length = 14) (hbyte : ∀ b ∈ raw, b < 256) :
    (update R B self rawData w).1.Ax
        = FP.sub FP.f32 (FP.mul FP.f32 (FP.fin (s16 (byteAt raw 0) (byteAt raw 1))) self.aRes)
            self.accelBias.x ∧
    (update R B self rawData w).1.Ay
        = FP.sub FP.f32 (FP.mul FP.f32 (FP.fin (s16 (byteAt raw 2) (byteAt raw 3))) self.aRes)
            self.accelBias.y ∧
    (update R B self rawData w).1.Az
        = FP.sub FP.f32 (FP.mul FP.f32 (FP.fin (s16 (byteAt raw 4) (byteAt raw 5))) self.aRes)
            self.accelBias.z ∧
    (update R B self rawData w).1.Gx
        = FP.sub FP.f32 (FP.mul FP.f32 (FP.fin (s16 (byteAt raw 8) (byteAt raw 9))) self.gRes)
            self.gyroBias.x ∧
    (update R B self rawData w).1.Gy
        = FP.sub FP.f32
            (FP.mul FP.f32 (FP.fin (s16 (byteAt raw 10) (byteAt raw 11))) self.gRes)
            self.gyroBias.y ∧
    (update R B self rawData w).1.Gz
        = FP.sub FP.f32
            (FP.mul FP.f32 (FP.fin (s16 (byteAt raw 12) (byteAt raw 13))) self.gRes)
            self.gyroBias.z := by
  rw [update_of_block R B self rawData w raw hbuf hraw hlen hbyte]
  exact ⟨rfl, rfl, rfl, rfl, rfl, rfl⟩

/-- The `float` literals `0.1f` and `0.2f` are `float` values. -/
theorem f32_literals :
    FP.f32 (1 / 10) = FP.fin float_tenth ∧ FP.f32 (1 / 5) = FP.fin float_fifth ∧
    FP.f32 float_tenth = FP.fin float_tenth ∧ FP.f32 float_fifth = FP.fin float_fifth := by
  refine ⟨?_, ?_, ?_, ?_⟩
  · have h := round_eval 24 (-149) 128 (1 / 10) (-4) (-27) 13421773
      (by norm_num [abs_of_pos]) (by norm_num [abs_of_pos]) (by norm_num) (by norm_num)
      (by norm_num) (by norm_num [abs_of_pos])
    rw [FP.f32, h, float_tenth]
    norm_num
  · have h := round_eval 24 (-149) 128 (1 / 5) (-3) (-26) 13421773
      (by norm_num [abs_of_pos]) (by norm_num [abs_of_pos]) (by norm_num) (by norm_num)
      (by norm_num) (by norm_num [abs_of_pos])
    rw [FP.f32, h, float_fifth]
    norm_num
  · exact f32_of_eq _ 13421773 (-27) (by norm_num [float_tenth]) (by norm_num) (by norm_num)
      (by norm_num [float_tenth, abs_of_pos])
  · exact f32_of_eq _ 13421773 (-26) (by norm_num [float_fifth]) (by norm_num) (by norm_num)
      (by norm_num [float_fifth, abs_of_pos])

/-- The count `16384` at `±2 g` less the bias `0.1f`: the product is `1` and the `float`
difference `1 - 0.1f` is rounded to 24 bits. -/
theorem scaled_less_tenth :
    FP.sub FP.f32 (FP.mul FP.f32 (FP.fin ((16384 : Int) : ℚ)) (FP.fin (2 / 32768)))
      (FP.fin float_tenth) = FP.fin (7549747 / 8388608) := by
  have h1 : FP.f32 (((16384 : Int) : ℚ) * (2 / 32768)) = FP.fin 1 := by
    have h := f32_int 1 (by norm_num)
    norm_num at h ⊢
    exact h
  rw [mul_fin, h1, sub_fin]
  have h := round_eval 24 (-149) 128 (1 - float_tenth) (-1) (-24) 15099494
    (by norm_num [float_tenth, abs_of_pos]) (by norm_num [float_tenth, abs_of_pos])
    (by norm_num) (by norm_num [float_tenth]) (by norm_num [float_tenth])
    (by norm_num [abs_of_pos])
  rw [FP.f32, h]
  norm_num

/-- The claimed value `1 - 0.1f` is not the `float` that the code computes. -/
theorem tenth_values :
    ((16384 : Int) : ℚ) * (2 / 32768) - float_tenth = 120795955 / 134217728 ∧
    FP.fin (7549747 / 8388608) ≠ FP.fin (120795955 / 134217728) := by
  constructor
  · norm_num [float_tenth]
  · intro h
    injection h with h
    norm_num at h

/-- C3 as stated fails: at `±2 g` (`aRes = 2/32768`) with accelerometer bias x `0.1f`, the
count `16384` decodes to the `float` `7549747/8388608`, while
`s16 * aRes - accelBias[x] = 1 - 0.1f = 120795955/134217728`, which needs 27 significant
bits. -/
theorem update_rounding_counterexample :
    (update datasheet scriptBus driverTenth (List.replicate 14 0) blockWorld).1.Ax
      = FP.fin (7549747 / 8388608) ∧
    (s16 0x40 0x00 : ℚ) * (2 / 32768) - float_tenth = 120795955 / 134217728 ∧
    (update datasheet scriptBus driverTenth (List.replicate 14 0) blockWorld).1.Ax
      ≠ FP.fin ((s16 0x40 0x00 : ℚ) * (2 / 32768) - float_tenth) := by
  have hs : s16 0x40 0x00 = 16384 := by decide
  have hAx : (update datasheet scriptBus driverTenth (List.replicate 14 0) blockWorld).1.Ax
      = FP.fin (7549747 / 8388608) := by
    rw [update_of_block datasheet scriptBus driverTenth (List.replicate 14 0) blockWorld
      [0x40, 0, 0, 0, 0, 0, 0, 0, 0, 0, 0, 0, 0, 0] rfl rfl rfl (by decide)]
    show FP.sub FP.f32 (FP.mul FP.f32 (FP.fin (s16 0x40 0x00)) (FP.fin (2 / 32768)))
      (FP.fin float_tenth) = _
    rw [hs, scaled_less_tenth]
  rw [hAx, hs, tenth_values.1]
  exact ⟨rfl, rfl, tenth_values.2⟩

/-- C3, amended, at the two scenarios of the specification, where no operation rounds:
raw accelerometer counts `(16384, 0, 0)` at `±2 g` with zero bias decode to `(1, 0, 0)`,
raw gyro counts `(0, 0, 0)` with bias `(0.5f, -0.2f, 0)` decode to `(-0.5f, 0.2f, 0)`. -/
theorem update_accel_gyro_witness :
    ((update datasheet scriptBus driver2g (List.replicate 14 0) blockWorld).1.Ax = FP.fin 1 ∧
      (update datasheet scriptBus driver2g (List.replicate 14 0) blockWorld).1.Ay = FP.fin 0 ∧
      (update datasheet scriptBus driver2g (List.replicate 14 0) blockWorld).1.Az
        = FP.fin 0) ∧
    ((update datasheet scriptBus driver2g (List.replicate 14 0) blockWorld).1.Gx
        = FP.fin (-(1 / 2)) ∧
      (update datasheet scriptBus driver2g (List.replicate 14 0) blockWorld).1.Gy
        = FP.fin float_fifth ∧
      (update datasheet scriptBus driver2g (List.replicate 14 0) blockWorld).1.Gz
        = FP.fin 0) := by
  have h := update_accel_gyro datasheet scriptBus driver2g (List.replicate 14 0) blockWorld
    [0x40, 0, 0, 0, 0, 0, 0, 0, 0, 0, 0, 0, 0, 0] rfl rfl rfl (by decide)
  obtain ⟨h1, h2, h3, h4, h5, h6⟩ := h
  rw [h1, h2, h3, h4, h5, h6]
  have hs : s16 0x40 0x00 = 16384 := by decide
  have hz : s16 0 0 = 0 := by decide
  have e1 : FP.f32 1 = FP.fin 1 := by
    have h := f32_int 1 (by norm_num)
    simpa using h
  have e2 : FP.f32 (-(1 / 2)) = FP.fin (-(1 / 2)) :=
    f32_of_eq _ (-1) (-1) (by norm_num) (by norm_num) (by norm_num) (by norm_num [abs_of_pos])
  simp only [byteAt, List.getD_cons_zero, List.getD_cons_succ, hs, hz, driver2g, driver0,
    FP.mul, FP.sub, FP.neg, FP.add]
  norm_num [f32_zero, e1, e2, f32_literals.2.2.2]

/-- C4, amended: the temperature output of `update` is `s16(byte6, byte7) / 333.87 + 21.0`
computed in `double` and stored in a `float`: the quotient by the `double` nearest to
`333.87` is rounded to `double`, the sum with `21` is rounded to `double`, and the result
is rounded to `float`; it is finite.  It is the same for two driver objects that differ
only in `aRes`, `gRes`, `mRes`, `magCalibration` or the bias vectors (that is, which read
the same device address). -/
theorem update_temperature {σ : Type} (R : Regs) (B : Bus σ) (self : MPU9250)
    (rawData : List Nat) (w : World σ) (hbuf : rawData.length = 14) :
    (∀ raw : List Nat,
      (B.read self.MPU9250_ADDRESS R.ACCEL_XOUT_H 14 w.dev).1 = raw →
      raw.length = 14 → (∀ b ∈ raw, b < 256) →
      (update R B self rawData w).1.T
        = FP.fin (FP.roundTo 24 (-149)
            (FP.roundTo 53 (-1074)
              (FP.roundTo 53 (-1074)
                  ((s16 (byteAt raw 6) (byteAt raw 7) : ℚ) / double_333_87)
                + 21)))) ∧
    (∀ other : MPU9250, other.MPU9250_ADDRESS = self.MPU9250_ADDRESS →
      (update R B other rawData w).1.T = (update R B self rawData w).1.T) := by
  constructor
  · intro raw hraw hlen hbyte
    rw [update_of_block R B self rawData w raw hbuf hraw hlen hbyte]
    have hr := s16_range (byteAt_lt hbyte 6) (byteAt_lt hbyte 7)
    exact temperature_of_count _ hr.1 hr.2
  · intro other haddr
    simp only [update, haddr]

/-- C4 as stated fails: the temperature count `0x0D0B = 3339` decodes to the `float`
`16253399/524288`, while `3339 / 333.87 + 21 = 345009/11129`. -/
theorem update_temperature_counterexample :
    (update datasheet scriptBus driver0 (List.replicate 14 0) tempWorld).1.T
      = FP.fin (16253399 / 524288) ∧
    (s16 0x0D 0x0B : ℚ) / (33387 / 100) + 21 = 345009 / 11129 ∧
    (update datasheet scriptBus driver0 (List.replicate 14 0) tempWorld).1.T
      ≠ FP.fin ((s16 0x0D 0x0B : ℚ) / (33387 / 100) + 21) := by
  have hs : s16 0x0D 0x0B = 3339 := by decide
  have hT : (update datasheet scriptBus driver0 (List.replicate 14 0) tempWorld).1.T
      = FP.fin (16253399 / 524288) := by
    rw [update_of_block datasheet scriptBus driver0 (List.replicate 14 0) tempWorld
      [0, 0, 0, 0, 0, 0, 0x0D, 0x0B, 0, 0, 0, 0, 0, 0] rfl rfl rfl (by decide)]
    show FP.cvt FP.f32 (FP.add FP.f64 (FP.div FP.f64 (FP.fin (s16 0x0D 0x0B))
      (FP.f64 (33387 / 100))) (FP.f64 21)) = _
    rw [hs, temperature_of_count 3339 (by norm_num) (by norm_num)]
    have h := temperature_3339
    norm_num at h ⊢
    exact h
  have hq : (s16 0x0D 0x0B : ℚ) / (33387 / 100) + 21 = 345009 / 11129 := by
    rw [hs]
    norm_num
  refine ⟨hT, hq, ?_⟩
  rw [hT, hq]
  intro h
  injection h with h
  norm_num at h

/-- C4, amended, on a block with temperature count `0`: the output is `21` exactly, also
for a driver with other resolutions and biases. -/
theorem update_temperature_witness :
    (update datasheet scriptBus driver0 (List.replicate 14 0) blockWorld).1.T = FP.fin 21 ∧
    (update datasheet scriptBus driver2g (List.replicate 14 0) blockWorld).1.T
      = (update datasheet scriptBus driver0 (List.replicate 14 0) blockWorld).1.T := by
  have h := update_temperature datasheet scriptBus driver0 (List.replicate 14 0) blockWorld
    rfl
  refine ⟨?_, h.2 driver2g rfl⟩
  rw [h.1 [0x40, 0, 0, 0, 0, 0, 0, 0, 0, 0, 0, 0, 0, 0] rfl rfl (by decide)]
  have hz : s16 0 0 = 0 := by decide
  have e0 : FP.roundTo 53 (-1074) 0 = 0 := by simp [FP.roundTo]
  have e1 : FP.roundTo 53 (-1074) 21 = 21 := by
    have h := roundTo_exact 53 (-1074) 21 0 (by norm_num) (by norm_num)
    norm_num at h
    exact h
  have e2 : FP.roundTo 24 (-149) 21 = 21 := by
    have h := roundTo_exact 24 (-149) 21 0 (by norm_num) (by norm_num)
    norm_num at h
    exact h
  simp only [byteAt, List.getD_cons_zero, List.getD_cons_succ, hz]
  norm_num [e0, e1, e2]
/-! ## C1, C2, C5: the configuration sequence -/

/-- C1: if the identity read of the primary device gives any byte other than `0x71`, `init`
returns `false`, issues no register write, and leaves `aRes`, `gRes`, `mRes`,
`magCalibration` and the three bias vectors as they were, for every driver object, bus and
argument tuple. -/
theorem init_identity_mismatch {σ : Type} (R : Regs) (B : Bus σ) (self : MPU9250)
    (Ascale Gscale Mscale Mmode : Nat) (set_AD0 : Bool) (w : World σ)
    (hid : (readByte B (select_address self set_AD0).MPU9250_ADDRESS
      R.WHO_AM_I_MPU9250 w).1 ≠ 0x71) :
    (init R B self Ascale Gscale Mscale Mmode set_AD0 w).1 = false ∧
    (init R B self Ascale Gscale Mscale Mmode set_AD0 w).2.2.writes = w.writes ∧
    (init R B self Ascale Gscale Mscale Mmode set_AD0 w).2.1.aRes = self.aRes ∧
    (init R B self Ascale Gscale Mscale Mmode set_AD0 w).2.1.gRes = self.gRes ∧
    (init R B self Ascale Gscale Mscale Mmode set_AD0 w).2.1.mRes = self.mRes ∧
    (init R B self Ascale Gscale Mscale Mmode set_AD0 w).2.1.magCalibration
      = self.magCalibration ∧
    (init R B self Ascale Gscale Mscale Mmode set_AD0 w).2.1.accelBias = self.accelBias ∧
    (init R B self Ascale Gscale Mscale Mmode set_AD0 w).2.1.gyroBias = self.gyroBias ∧
    (init R B self Ascale Gscale Mscale Mmode set_AD0 w).2.1.magBias = self.magBias := by
  have hinit : init R B self Ascale Gscale Mscale Mmode set_AD0 w
      = (false, select_address self set_AD0,
          (readByte B (select_address self set_AD0).MPU9250_ADDRESS
            R.WHO_AM_I_MPU9250 w).2) := by
    unfold init
    simp only [if_neg hid]
  rw [hinit]
  cases set_AD0 <;> simp [select_address, readByte]

/-- C1 at the scenario of the specification: the identity register answers `0x00`. -/
theorem init_identity_mismatch_witness :
    (init datasheet scriptBus driver2g AFS_4G GFS_500DPS MFS_16BITS 6 false
        { dev := [[0x00]], writes := [] }).1 = false ∧
    (init datasheet scriptBus driver2g AFS_4G GFS_500DPS MFS_16BITS 6 false
        { dev := [[0x00]], writes := [] }).2.2.writes = [] ∧
    (init datasheet scriptBus driver2g AFS_4G GFS_500DPS MFS_16BITS 6 false
        { dev := [[0x00]], writes := [] }).2.1.aRes = driver2g.aRes :=
  have h := init_identity_mismatch datasheet scriptBus driver2g AFS_4G GFS_500DPS
    MFS_16BITS 6 false { dev := [[0x00]], writes := [] } (by decide)
  ⟨h.1, h.2.1, h.2.2.1⟩

/-- C2: `init` returns `true` exactly when the identity read of the primary device gives
`0x71` and the identity read of the magnetometer (issued after the primary device has been
configured) gives `0x48`; nothing else, an out-of-range scale selector included, makes it
return `false`. -/
theorem init_true_iff {σ : Type} (R : Regs) (B : Bus σ) (self : MPU9250)
    (Ascale Gscale Mscale Mmode : Nat) (set_AD0 : Bool) (w : World σ) :
    (init R B self Ascale Gscale Mscale Mmode set_AD0 w).1 = true ↔
      (readByte B (select_address self set_AD0).MPU9250_ADDRESS
        R.WHO_AM_I_MPU9250 w).1 = 0x71 ∧
      (readByte B R.AK8963_ADDRESS R.AK8963_WHO_AM_I
        (init_mpu R B (select_address self set_AD0).MPU9250_ADDRESS Ascale Gscale
          (readByte B (select_address self set_AD0).MPU9250_ADDRESS
            R.WHO_AM_I_MPU9250 w).2)).1 = 0x48 := by
  unfold init
  by_cases h1 : (readByte B (select_address self set_AD0).MPU9250_ADDRESS
      R.WHO_AM_I_MPU9250 w).1 = 0x71
  · by_cases h2 : (readByte B R.AK8963_ADDRESS R.AK8963_WHO_AM_I
        (init_mpu R B (select_address self set_AD0).MPU9250_ADDRESS Ascale Gscale
          (readByte B (select_address self set_AD0).MPU9250_ADDRESS
            R.WHO_AM_I_MPU9250 w).2)).1 = 0x48
    · simp [h1, h2]
    · simp [h1, h2]
  · simp [h1]

theorem switch_Ascale_aRes (self : MPU9250) (Ascale : Nat) (hA : validAscale Ascale) :
    (switch_Ascale self Ascale).aRes = FP.fin (accelFullScale Ascale / 32768) := by
  have h2 := float_quotient_32768 2 (by norm_num)
  have h4 := float_quotient_32768 4 (by norm_num)
  have h8 := float_quotient_32768 8 (by norm_num)
  have h16 := float_quotient_32768 16 (by norm_num)
  simp only [Int.cast_ofNat] at h2 h4 h8 h16
  unfold validAscale at hA
  unfold switch_Ascale accelFullScale
  unfold AFS_2G AFS_4G AFS_8G AFS_16G at *
  split_ifs <;> first | (exfalso; omega) | exact h2 | exact h4 | exact h8 | exact h16

theorem switch_Ascale_frame (self : MPU9250) (Ascale : Nat) :
    (switch_Ascale self Ascale).gRes = self.gRes ∧
    (switch_Ascale self Ascale).MPU9250_ADDRESS = self.MPU9250_ADDRESS := by
  unfold switch_Ascale
  split_ifs <;> exact ⟨rfl, rfl⟩

theorem switch_Gscale_gRes (self : MPU9250) (Gscale : Nat) (hG : validGscale Gscale) :
    (switch_Gscale self Gscale).gRes = FP.fin (gyroFullScale Gscale / 32768) := by
  have h250 := float_quotient_32768 250 (by norm_num)
  have h500 := float_quotient_32768 500 (by norm_num)
  have h1000 := float_quotient_32768 1000 (by norm_num)
  have h2000 := float_quotient_32768 2000 (by norm_num)
  simp only [Int.cast_ofNat] at h250 h500 h1000 h2000
  unfold validGscale at hG
  unfold switch_Gscale gyroFullScale
  unfold GFS_250DPS GFS_500DPS GFS_1000DPS GFS_2000DPS at *
  split_ifs <;> first | (exfalso; omega) | exact h250 | exact h500 | exact h1000 | exact h2000

theorem switch_Gscale_frame (self : MPU9250) (Gscale : Nat) :
    (switch_Gscale self Gscale).MPU9250_ADDRESS = self.MPU9250_ADDRESS := by
  unfold switch_Gscale
  split_ifs <;> rfl

theorem switch_Mscale_frame (self : MPU9250) (Mscale : Nat) :
    (switch_Mscale self Mscale).MPU9250_ADDRESS = self.MPU9250_ADDRESS := by
  unfold switch_Mscale
  split_ifs <;> rfl

theorem set_resolutions_aRes (self : MPU9250) (Ascale Gscale Mscale : Nat)
    (hA : validAscale Ascale) :
    (set_resolutions self Ascale Gscale Mscale).aRes
      = FP.fin (accelFullScale Ascale / 32768) :=
  switch_Ascale_aRes _ Ascale hA

theorem set_resolutions_gRes (self : MPU9250) (Ascale Gscale Mscale : Nat)
    (hG : validGscale Gscale) :
    (set_resolutions self Ascale Gscale Mscale).gRes
      = FP.fin (gyroFullScale Gscale / 32768) := by
  unfold set_resolutions
  rw [(switch_Ascale_frame _ Ascale).1, switch_Gscale_gRes _ Gscale hG]

theorem set_resolutions_address (self : MPU9250) (Ascale Gscale Mscale : Nat) :
    (set_resolutions self Ascale Gscale Mscale).MPU9250_ADDRESS = self.MPU9250_ADDRESS := by
  unfold set_resolutions
  rw [(switch_Ascale_frame _ Ascale).2, switch_Gscale_frame, switch_Mscale_frame]

theorem accelFullScale_pos {Ascale : Nat} (hA : validAscale Ascale) :
    0 < accelFullScale Ascale := by
  unfold validAscale at hA
  unfold accelFullScale
  unfold AFS_2G AFS_4G AFS_8G AFS_16G at *
  split_ifs <;> first | (exfalso; omega) | norm_num

theorem gyroFullScale_pos {Gscale : Nat} (hG : validGscale Gscale) :
    0 < gyroFullScale Gscale := by
  unfold validGscale at hG
  unfold gyroFullScale
  unfold GFS_250DPS GFS_500DPS GFS_1000DPS GFS_2000DPS at *
  split_ifs <;> first | (exfalso; omega) | norm_num

/-- The driver that a successful `init` leaves: the resolutions are set last. -/
theorem init_true_driver {σ : Type} (R : Regs) (B : Bus σ) (self : MPU9250)
    (Ascale Gscale Mscale Mmode : Nat) (set_AD0 : Bool) (w : World σ)
    (hok : (init R B self Ascale Gscale Mscale Mmode set_AD0 w).1 = true) :
    ∃ m : MPU9250, (init R B self Ascale Gscale Mscale Mmode set_AD0 w).2.1
      = set_resolutions m Ascale Gscale Mscale := by
  unfold init at hok ⊢
  by_cases h1 : (readByte B (select_address self set_AD0).MPU9250_ADDRESS
      R.WHO_AM_I_MPU9250 w).1 = 0x71
  · by_cases h2 : (readByte B R.AK8963_ADDRESS R.AK8963_WHO_AM_I
        (init_mpu R B (select_address self set_AD0).MPU9250_ADDRESS Ascale Gscale
          (readByte B (select_address self set_AD0).MPU9250_ADDRESS
            R.WHO_AM_I_MPU9250 w).2)).1 = 0x48
    · simp only [h1, h2, if_true]
      exact ⟨_, rfl⟩
    · simp [h1, h2] at hok
  · simp [h1] at hok

/-- C5: after a successful `init` with an accelerometer selector among 2G, 4G, 8G, 16G and
a gyro selector among 250, 500, 1000, 2000 DPS, the stored `aRes` and `gRes` are the
selected full-scale range divided by 32768; both are strictly positive; and against any
other such successful `init`, a larger full-scale range gives a strictly larger
resolution. -/
theorem init_resolutions {σ : Type} (R : Regs) (B : Bus σ) (self : MPU9250)
    (Ascale Gscale Mscale Mmode : Nat) (set_AD0 : Bool) (w : World σ)
    (hok : (init R B self Ascale Gscale Mscale Mmode set_AD0 w).1 = true)
    (hA : validAscale Ascale) (hG : validGscale Gscale) :
    (init R B self Ascale Gscale Mscale Mmode set_AD0 w).2.1.aRes
      = FP.fin (accelFullScale Ascale / 32768) ∧
    (init R B self Ascale Gscale Mscale Mmode set_AD0 w).2.1.gRes
      = FP.fin (gyroFullScale Gscale / 32768) ∧
    FP.lt (FP.fin 0) (init R B self Ascale Gscale Mscale Mmode set_AD0 w).2.1.aRes ∧
    FP.lt (FP.fin 0) (init R B self Ascale Gscale Mscale Mmode set_AD0 w).2.1.gRes ∧
    ∀ (τ : Type) (R2 : Regs) (B2 : Bus τ) (self2 : MPU9250)
      (Ascale2 Gscale2 Mscale2 Mmode2 : Nat) (set_AD02 : Bool) (w2 : World τ),
      (init R2 B2 self2 Ascale2 Gscale2 Mscale2 Mmode2 set_AD02 w2).1 = true →
      validAscale Ascale2 → validGscale Gscale2 →
      (accelFullScale Ascale < accelFullScale Ascale2 →
        FP.lt (init R B self Ascale Gscale Mscale Mmode set_AD0 w).2.1.aRes
          (init R2 B2 self2 Ascale2 Gscale2 Mscale2 Mmode2 set_AD02 w2).2.1.aRes) ∧
      (gyroFullScale Gscale < gyroFullScale Gscale2 →
        FP.lt (init R B self Ascale Gscale Mscale Mmode set_AD0 w).2.1.gRes
          (init R2 B2 self2 Ascale2 Gscale2 Mscale2 Mmode2 set_AD02 w2).2.1.gRes) := by
  obtain ⟨m, hm⟩ := init_true_driver R B self Ascale Gscale Mscale Mmode set_AD0 w hok
  have ha : (init R B self Ascale Gscale Mscale Mmode set_AD0 w).2.1.aRes
      = FP.fin (accelFullScale Ascale / 32768) := by
    rw [hm]; exact set_resolutions_aRes m Ascale Gscale Mscale hA
  have hg : (init R B self Ascale Gscale Mscale Mmode set_AD0 w).2.1.gRes
      = FP.fin (gyroFullScale Gscale / 32768) := by
    rw [hm]; exact set_resolutions_gRes m Ascale Gscale Mscale hG
  refine ⟨ha, hg, ?_, ?_, ?_⟩
  · rw [ha]; exact div_pos (accelFullScale_pos hA) (by norm_num)
  · rw [hg]; exact div_pos (gyroFullScale_pos hG) (by norm_num)
  · intro τ R2 B2 self2 Ascale2 Gscale2 Mscale2 Mmode2 set_AD02 w2 hok2 hA2 hG2
    obtain ⟨m2, hm2⟩ :=
      init_true_driver R2 B2 self2 Ascale2 Gscale2 Mscale2 Mmode2 set_AD02 w2 hok2
    rw [ha, hg, hm2, set_resolutions_aRes m2 Ascale2 Gscale2 Mscale2 hA2,
      set_resolutions_gRes m2 Ascale2 Gscale2 Mscale2 hG2]
    constructor
    · intro h
      exact div_lt_div_of_pos_right h (by norm_num)
    · intro h
      exact div_lt_div_of_pos_right h (by norm_num)

/-- C5 on the scripted device, with the selectors 4G and 500 DPS of the default arguments:
`aRes = 4/32768`, `gRes = 500/32768`, and both are smaller than after `init` with 8G and
1000 DPS. -/
theorem init_resolutions_witness :
    (init datasheet scriptBus driver0 AFS_4G GFS_500DPS MFS_16BITS 6 false goodWorld).2.1.aRes
      = FP.fin (4 / 32768) ∧
    (init datasheet scriptBus driver0 AFS_4G GFS_500DPS MFS_16BITS 6 false goodWorld).2.1.gRes
      = FP.fin (500 / 32768) ∧
    FP.lt
      (init datasheet scriptBus driver0 AFS_4G GFS_500DPS MFS_16BITS 6 false
        goodWorld).2.1.aRes
      (init datasheet scriptBus driver0 AFS_8G GFS_1000DPS MFS_16BITS 6 false
        goodWorld).2.1.aRes := by
  have h := init_resolutions datasheet scriptBus driver0 AFS_4G GFS_500DPS MFS_16BITS 6 false
    goodWorld (by decide) (Or.inr (Or.inl rfl)) (Or.inr (Or.inl rfl))
  have h2 := (h.2.2.2.2 _ datasheet scriptBus driver0 AFS_8G GFS_1000DPS MFS_16BITS 6 false
    goodWorld (by decide) (Or.inr (Or.inr (Or.inl rfl))) (Or.inr (Or.inr (Or.inl rfl)))).1
    (by norm_num [accelFullScale, AFS_2G, AFS_4G, AFS_8G])
  refine ⟨?_, ?_, h2⟩
  · rw [h.1]; norm_num [accelFullScale, AFS_2G, AFS_4G]
  · rw [h.2.1]; norm_num [gyroFullScale, GFS_250DPS, GFS_500DPS]


/-- The magnetometer resolutions that `init` stores: `10.*4912./8190.` and
`10.*4912./32760.0` are rounded to `double` and then to `float`. -/
theorem switch_Mscale_mRes (self : MPU9250) :
    (switch_Mscale self MFS_14BITS).mRes = FP.fin (12577791 / 2097152) ∧
    (switch_Mscale self MFS_16BITS).mRes = FP.fin (12577791 / 8388608) := by
  have h10 : FP.f64 10 = FP.fin 10 := by
    have h := f64_int 10 (by norm_num)
    simpa using h
  have h4912 : FP.f64 4912 = FP.fin 4912 := by
    have h := f64_int 4912 (by norm_num)
    simpa using h
  have h8190 : FP.f64 8190 = FP.fin 8190 := by
    have h := f64_int 8190 (by norm_num)
    simpa using h
  have h32760 : FP.f64 32760 = FP.fin 32760 := by
    have h := f64_int 32760 (by norm_num)
    simpa using h
  have h49120 : FP.f64 (10 * 4912) = FP.fin 49120 := by
    have h := f64_int 49120 (by norm_num)
    norm_num at h ⊢
    exact h
  have ha : FP.f64 (49120 / 8190) = FP.fin (844081248841723 / 140737488355328) := by
    have h := round_eval 53 (-1074) 1024 (49120 / 8190) 2 (-50) 6752649990733784
      (by norm_num [abs_of_pos]) (by norm_num [abs_of_pos]) (by norm_num) (by norm_num)
      (by norm_num) (by norm_num [abs_of_pos])
    rw [FP.f64, h]
    norm_num
  have hb : FP.f64 (49120 / 32760) = FP.fin (844081248841723 / 562949953421312) := by
    have h := round_eval 53 (-1074) 1024 (49120 / 32760) 0 (-52) 6752649990733784
      (by norm_num [abs_of_pos]) (by norm_num [abs_of_pos]) (by norm_num) (by norm_num)
      (by norm_num) (by norm_num [abs_of_pos])
    rw [FP.f64, h]
    norm_num
  have hc : FP.f32 (844081248841723 / 140737488355328) = FP.fin (12577791 / 2097152) := by
    have h := round_eval 24 (-149) 128 (844081248841723 / 140737488355328) 2 (-21) 12577791
      (by norm_num [abs_of_pos]) (by norm_num [abs_of_pos]) (by norm_num) (by norm_num)
      (by norm_num) (by norm_num [abs_of_pos])
    rw [FP.f32, h]
    norm_num
  have hd : FP.f32 (844081248841723 / 562949953421312) = FP.fin (12577791 / 8388608) := by
    have h := round_eval 24 (-149) 128 (844081248841723 / 562949953421312) 0 (-23) 12577791
      (by norm_num [abs_of_pos]) (by norm_num [abs_of_pos]) (by norm_num) (by norm_num)
      (by norm_num) (by norm_num [abs_of_pos])
    rw [FP.f32, h]
    norm_num
  constructor
  · have h : (switch_Mscale self MFS_14BITS).mRes
        = float_quotient (FP.mul FP.f64 (FP.f64 10) (FP.f64 4912)) (FP.f64 8190) := rfl
    rw [h, float_quotient, h10, h4912, h8190, mul_fin, h49120,
      div_fin _ _ _ (by norm_num), ha, cvt_fin, hc]
  · have h : (switch_Mscale self MFS_16BITS).mRes
        = float_quotient (FP.mul FP.f64 (FP.f64 10) (FP.f64 4912)) (FP.f64 32760) := rfl
    rw [h, float_quotient, h10, h4912, h32760, mul_fin, h49120,
      div_fin _ _ _ (by norm_num), hb, cvt_fin, hd]

/-! ## C10: the bias store -/

/-- C10, amended: after `set_bias(a, g, m)` the stored `accelBias`, `gyroBias`, `magBias` are
`a`, `g`, `m`; `aRes`, `gRes`, `mRes` and `magCalibration` are unchanged; the device and the
log of register writes are unchanged; and a following `update` on any 14-byte block returns,
on each axis, the `float` difference of the `float` product `s16 * aRes` and the component
of `a`, and the `float` difference of the `float` product `s16 * gRes` and the component of
`g` (each operation rounds to the nearest `float`). -/
theorem set_bias_replaces {σ : Type} (R : Regs) (B : Bus σ) (self : MPU9250)
    (a g m : Vec3) (rawData : List Nat) (w : World σ) (hbuf : rawData.length = 14) :
    ((set_bias self a g m w).1.accelBias = a ∧
      (set_bias self a g m w).1.gyroBias = g ∧
      (set_bias self a g m w).1.magBias = m) ∧
    ((set_bias self a g m w).1.aRes = self.aRes ∧
      (set_bias self a g m w).1.gRes = self.gRes ∧
      (set_bias self a g m w).1.mRes = self.mRes ∧
      (set_bias self a g m w).1.magCalibration = self.magCalibration) ∧
    ((set_bias self a g m w).2.writes = w.writes ∧ (set_bias self a g m w).2 = w) ∧
    ∀ raw : List Nat,
      (B.read (set_bias self a g m w).1.MPU9250_ADDRESS R.ACCEL_XOUT_H 14
        (set_bias self a g m w).2.dev).1 = raw →
      raw.length = 14 → (∀ b ∈ raw, b < 256) →
      ((update R B (set_bias self a g m w).1 rawData (set_bias self a g m w).2).1.Ax
          = FP.sub FP.f32
              (FP.mul FP.f32 (FP.fin (s16 (byteAt raw 0) (byteAt raw 1))) self.aRes) a.x ∧
        (update R B (set_bias self a g m w).1 rawData (set_bias self a g m w).2).1.Ay
          = FP.sub FP.f32
              (FP.mul FP.f32 (FP.fin (s16 (byteAt raw 2) (byteAt raw 3))) self.aRes) a.y ∧
        (update R B (set_bias self a g m w).1 rawData (set_bias self a g m w).2).1.Az
          = FP.sub FP.f32
              (FP.mul FP.f32 (FP.fin (s16 (byteAt raw 4) (byteAt raw 5))) self.aRes) a.z) ∧
      ((update R B (set_bias self a g m w).1 rawData (set_bias self a g m w).2).1.Gx
          = FP.sub FP.f32
              (FP.mul FP.f32 (FP.fin (s16 (byteAt raw 8) (byteAt raw 9))) self.gRes) g.x ∧
        (update R B (set_bias self a g m w).1 rawData (set_bias self a g m w).2).1.Gy
          = FP.sub FP.f32
              (FP.mul FP.f32 (FP.fin (s16 (byteAt raw 10) (byteAt raw 11))) self.gRes) g.y ∧
        (update R B (set_bias self a g m w).1 rawData (set_bias self a g m w).2).1.Gz
          = FP.sub FP.f32
              (FP.mul FP.f32 (FP.fin (s16 (byteAt raw 12) (byteAt raw 13))) self.gRes)
              g.z) := by
  refine ⟨⟨rfl, rfl, rfl⟩, ⟨rfl, rfl, rfl, rfl⟩, ⟨rfl, rfl⟩, ?_⟩
  intro raw hraw hlen hbyte
  rw [update_of_block R B _ rawData _ raw hbuf hraw hlen hbyte]
  exact ⟨⟨rfl, rfl, rfl⟩, ⟨rfl, rfl, rfl⟩⟩

/-- C10 as stated fails in its last part: after `set_bias` with accelerometer bias
`(0.1f, 0, 0)` on a driver at `±2 g`, the block with accelerometer count x `16384` decodes
to the `float` `7549747/8388608`, while `s16 * aRes - a[x] = 1 - 0.1f
= 120795955/134217728`. -/
theorem set_bias_rounding_counterexample :
    (update datasheet scriptBus (set_bias driver2g tenth3 zero3 zero3 blockWorld).1
        (List.replicate 14 0) (set_bias driver2g tenth3 zero3 zero3 blockWorld).2).1.Ax
      = FP.fin (7549747 / 8388608) ∧
    (s16 0x40 0x00 : ℚ) * (2 / 32768) - float_tenth = 120795955 / 134217728 ∧
    (update datasheet scriptBus (set_bias driver2g tenth3 zero3 zero3 blockWorld).1
        (List.replicate 14 0) (set_bias driver2g tenth3 zero3 zero3 blockWorld).2).1.Ax
      ≠ FP.fin ((s16 0x40 0x00 : ℚ) * (2 / 32768) - float_tenth) := by
  have hs : s16 0x40 0x00 = 16384 := by decide
  have hAx : (update datasheet scriptBus (set_bias driver2g tenth3 zero3 zero3 blockWorld).1
      (List.replicate 14 0) (set_bias driver2g tenth3 zero3 zero3 blockWorld).2).1.Ax
      = FP.fin (7549747 / 8388608) := by
    rw [update_of_block datasheet scriptBus
      (set_bias driver2g tenth3 zero3 zero3 blockWorld).1 (List.replicate 14 0)
      (set_bias driver2g tenth3 zero3 zero3 blockWorld).2
      [0x40, 0, 0, 0, 0, 0, 0, 0, 0, 0, 0, 0, 0, 0] rfl rfl rfl (by decide)]
    show FP.sub FP.f32 (FP.mul FP.f32 (FP.fin (s16 0x40 0x00)) (FP.fin (2 / 32768)))
      (FP.fin float_tenth) = _
    rw [hs, scaled_less_tenth]
  rw [hAx, hs, tenth_values.1]
  exact ⟨rfl, rfl, tenth_values.2⟩

/-- C10, amended, on the scripted device: after `set_bias` with accelerometer bias
`(0.25, 0, 0)` and gyro bias `(0.5, -0.2f, 0)`, the block with accelerometer counts
`(16384, 0, 0)` decodes to acceleration x `0.75` and angular rate y `0.2f`; no operation
rounds. -/
theorem set_bias_replaces_witness :
    (update datasheet scriptBus (set_bias driver2g quarter3 half3 zero3 blockWorld).1
        (List.replicate 14 0) (set_bias driver2g quarter3 half3 zero3 blockWorld).2).1.Ax
      = FP.fin (3 / 4) ∧
    (update datasheet scriptBus (set_bias driver2g quarter3 half3 zero3 blockWorld).1
        (List.replicate 14 0) (set_bias driver2g quarter3 half3 zero3 blockWorld).2).1.Gy
      = FP.fin float_fifth := by
  have h := (set_bias_replaces datasheet scriptBus driver2g quarter3 half3 zero3
    (List.replicate 14 0) blockWorld rfl).2.2.2
    [0x40, 0, 0, 0, 0, 0, 0, 0, 0, 0, 0, 0, 0, 0] rfl rfl (by decide)
  rw [h.1.1, h.2.2.1]
  have hs : s16 0x40 0x00 = 16384 := by decide
  have hz : s16 0 0 = 0 := by decide
  have e1 : FP.f32 (3 / 4) = FP.fin (3 / 4) :=
    f32_of_eq _ 3 (-2) (by norm_num) (by norm_num) (by norm_num) (by norm_num [abs_of_pos])
  constructor
  · show FP.sub FP.f32 (FP.mul FP.f32 (FP.fin (s16 0x40 0x00)) (FP.fin (2 / 32768)))
      (FP.fin (1 / 4)) = _
    have e2 : FP.f32 (((16384 : Int) : ℚ) * (2 / 32768)) = FP.fin 1 := by
      have h := f32_int 1 (by norm_num)
      norm_num at h ⊢
      exact h
    rw [hs, mul_fin, e2, sub_fin]
    norm_num [e1]
  · show FP.sub FP.f32 (FP.mul FP.f32 (FP.fin (s16 0 0)) (FP.fin (250 / 32768)))
      (FP.fin (-float_fifth)) = _
    rw [hz, mul_fin]
    norm_num [f32_zero, sub_fin, f32_literals.2.2.2]
/-! ## The FIFO loop of `calibrate_still_bias` -/

theorem sum_map_snoc {α : Type} (f : α → Int) (ps : List α) (d : α) :
    ((ps ++ [d]).map f).sum = (ps.map f).sum + f d := by
  simp

theorem sum_map_bound {α : Type} (f : α → Int) (hf : ∀ p, -32768 ≤ f p ∧ f p < 32768)
    (ps : List α) :
    -(32768 * (ps.length : Int)) ≤ (ps.map f).sum ∧
      (ps.map f).sum ≤ 32768 * (ps.length : Int) := by
  induction ps with
  | nil => simp
  | cons p t ih =>
    have hs := hf p
    simp only [List.map_cons, List.sum_cons, List.length_cons, Nat.cast_add, Nat.cast_one]
    omega

theorem sample_range (k : Nat) (p : List Nat) : -32768 ≤ sample k p ∧ sample k p < 32768 :=
  int16_of_bytes_range _ _

theorem colSum_append (k : Nat) (ps : List (List Nat)) (d : List Nat) :
    colSum k (ps ++ [d]) = colSum k ps + sample k d :=
  sum_map_snoc (sample k) ps d

theorem colSum_bound (k : Nat) (ps : List (List Nat)) :
    -(32768 * (ps.length : Int)) ≤ colSum k ps ∧ colSum k ps ≤ 32768 * (ps.length : Int) :=
  sum_map_bound (sample k) (sample_range k) ps

theorem toInt32_sum_step (k : Nat) (ps : List (List Nat)) (d : List Nat)
    (hlen : ps.length < 65535) :
    toInt32 (colSum k ps + sample k d) = colSum k (ps ++ [d]) := by
  rw [colSum_append]
  have hb := colSum_bound k ps
  have hs := sample_range k d
  have hl : (ps.length : Int) < 65535 := by exact_mod_cast hlen
  apply toInt32_of_range
  · omega
  · omega

theorem fifo_step_packets {σ : Type} (R : Regs) (B : Bus σ) (addr : Nat) (s : FifoAcc σ) :
    (fifo_step R B addr s).packets
      = s.packets ++ [(readBytes B addr R.FIFO_R_W 12 s.data s.w).1] := rfl

theorem fifo_step_exact {σ : Type} (R : Regs) (B : Bus σ) (addr : Nat) (s : FifoAcc σ)
    (hs : SumsExact s) (hlen : s.packets.length < 65535) :
    SumsExact (fifo_step R B addr s) := by
  obtain ⟨ha, hg⟩ := hs
  unfold SumsExact
  rw [fifo_step_packets]
  have e := fun k => toInt32_sum_step k s.packets
    (readBytes B addr R.FIFO_R_W 12 s.data s.w).1 hlen
  constructor
  · simp only [fifo_step, ha]
    rw [← e 0, ← e 1, ← e 2]
    rfl
  · simp only [fifo_step, hg]
    rw [← e 3, ← e 4, ← e 5]
    rfl

theorem fifo_loop_exact {σ : Type} (R : Regs) (B : Bus σ) (addr : Nat) (n : Nat) :
    ∀ s : FifoAcc σ, SumsExact s → s.packets.length + n ≤ 65535 →
      SumsExact (fifo_loop R B addr n s) ∧
      (fifo_loop R B addr n s).packets.length = s.packets.length + n := by
  induction n with
  | zero => intro s hs _; exact ⟨hs, rfl⟩
  | succ n ih =>
    intro s hs hlen
    have h1 := fifo_step_exact R B addr s hs (by omega)
    have hl : (fifo_step R B addr s).packets.length = s.packets.length + 1 := by
      rw [fifo_step_packets]; simp
    obtain ⟨h2, h3⟩ := ih (fifo_step R B addr s) h1 (by omega)
    refine ⟨h2, ?_⟩
    show (fifo_loop R B addr n (fifo_step R B addr s)).packets.length = _
    omega

/-- What `calibrate_collect` leaves: the FIFO loop was run `packet_count` times from empty
accumulators, and `packet_count` is at most `65535 / 12`. -/
theorem calibrate_collect_exact {σ : Type} (R : Regs) (B : Bus σ) (self : MPU9250)
    (w : World σ) :
    SumsExact (calibrate_collect R B self w).acc ∧
    (calibrate_collect R B self w).acc.packets.length
      = (calibrate_collect R B self w).packet_count ∧
    (calibrate_collect R B self w).packet_count ≤ 5461 ∧
    (calibrate_collect R B self w).packet_count
      = (calibrate_collect R B self w).fifo_count / 12 := by
  have hn : ∀ x : Nat, x % 65536 / 12 ≤ 5461 := fun x => by omega
  have key : ∀ (n : Nat) (s0 : FifoAcc σ), n ≤ 5461 → s0.packets = [] →
      s0.accel_bias = ⟨0, 0, 0⟩ → s0.gyro_bias = ⟨0, 0, 0⟩ →
      SumsExact (fifo_loop R B self.MPU9250_ADDRESS n s0) ∧
      (fifo_loop R B self.MPU9250_ADDRESS n s0).packets.length = n := by
    intro n s0 hle hp ha hg
    have h0 : SumsExact s0 := by
      unfold SumsExact
      rw [hp, ha, hg]
      exact ⟨rfl, rfl⟩
    have h := fifo_loop_exact R B self.MPU9250_ADDRESS n s0 h0 (by rw [hp]; simp; omega)
    rw [hp] at h
    simpa using h
  have h := key
    (((byteAt (calibrate_setup R B self w).1 0 <<< 8)
      ||| byteAt (calibrate_setup R B self w).1 1) % 65536 / 12)
    { data := (calibrate_setup R B self w).1, accel_bias := ⟨0, 0, 0⟩,
      gyro_bias := ⟨0, 0, 0⟩, packets := [], w := (calibrate_setup R B self w).2 }
    (hn _) rfl rfl rfl
  exact ⟨h.1, h.2, hn _, rfl⟩

theorem tdiv_bound {S : Int} {n : Nat}
    (hS : -(32768 * (n : Int)) ≤ S ∧ S ≤ 32768 * (n : Int)) :
    -32768 ≤ Int.tdiv S n ∧ Int.tdiv S n ≤ 32768 := by
  have h1 : (Int.tdiv S n).natAbs = S.natAbs / n := by
    rw [Int.natAbs_tdiv, Int.natAbs_ofNat]
    rfl
  have h2 : S.natAbs ≤ 32768 * n := by omega
  have h3 : S.natAbs / n ≤ 32768 := by
    apply Nat.div_le_of_le_mul
    rw [Nat.mul_comm]
    exact h2
  omega

theorem avg_bound (k : Nat) (packets : List (List Nat)) :
    -32768 ≤ avg k packets ∧ avg k packets ≤ 32768 :=
  tdiv_bound (colSum_bound k packets)

theorem toInt32_avg (k : Nat) (packets : List (List Nat)) :
    toInt32 (Int.tdiv (colSum k packets) (packets.length : Int)) = avg k packets := by
  have h := avg_bound k packets
  unfold avg at h ⊢
  exact toInt32_of_range (by omega) (by omega)

/-- A count within `±49152` divided by the accelerometer sensitivity `16384` in `float`
is exact. -/
theorem accel_quotient (v : Int) (h1 : -49152 ≤ v) (h2 : v ≤ 49152) :
    FP.div FP.f32 (FP.ofInt FP.f32 v) (FP.ofInt FP.f32 ((16384 : Nat) : Int))
      = FP.fin ((v : ℚ) / 16384) := by
  have hv : FP.ofInt FP.f32 v = FP.fin v := f32_int v (by rw [abs_lt]; constructor <;> omega)
  have hs : FP.ofInt FP.f32 ((16384 : Nat) : Int) = FP.fin 16384 := by
    have h := f32_int 16384 (by norm_num)
    simpa [FP.ofInt] using h
  have hq := f32_dyadic v 14 (by rw [abs_lt]; constructor <;> omega) (by norm_num)
  norm_num at hq
  rw [hv, hs, div_fin _ _ _ (by norm_num), hq]

/-- A count within `±32768` divided by the gyro sensitivity `131` in `float`: the two
conversions are exact and the quotient is rounded once. -/
theorem gyro_quotient (v : Int) (h1 : -32768 ≤ v) (h2 : v ≤ 32768) :
    FP.div FP.f32 (FP.ofInt FP.f32 v) (FP.ofInt FP.f32 ((131 : Nat) : Int))
      = FP.f32 ((v : ℚ) / 131) := by
  have hv : FP.ofInt FP.f32 v = FP.fin v := f32_int v (by rw [abs_lt]; constructor <;> omega)
  have hs : FP.ofInt FP.f32 ((131 : Nat) : Int) = FP.fin 131 := by
    have h := f32_int 131 (by norm_num)
    simpa [FP.ofInt] using h
  rw [hv, hs, div_fin _ _ _ (by norm_num)]

theorem gravity_free_bound {m : Int} (h1 : -32768 ≤ m) (h2 : m ≤ 32768) :
    -49152 ≤ gravity_free m ∧ gravity_free m ≤ 49152 := by
  unfold gravity_free
  split_ifs <;> omega

/-- The outputs of `calibrate_still_bias` in terms of the truncated averages of the
packets it drained, when it drained at least one: the accelerometer quotients by `16384`
are exact, the gyro quotients by `131` are rounded to `float`. -/
theorem calibrate_still_bias_eq {σ : Type} (R : Regs) (B : Bus σ) (self : MPU9250)
    (w : World σ) (hn : 1 ≤ (calibrate_collect R B self w).packet_count) :
    calibrate_still_bias R B self w = some
      ({ x := FP.fin ((avg 0 (calibrate_collect R B self w).acc.packets : ℚ) / 16384),
         y := FP.fin ((avg 1 (calibrate_collect R B self w).acc.packets : ℚ) / 16384),
         z := FP.fin
           ((gravity_free (avg 2 (calibrate_collect R B self w).acc.packets) : ℚ) / 16384) },
       { x := FP.f32 ((avg 3 (calibrate_collect R B self w).acc.packets : ℚ) / 131),
         y := FP.f32 ((avg 4 (calibrate_collect R B self w).acc.packets : ℚ) / 131),
         z := FP.f32 ((avg 5 (calibrate_collect R B self w).acc.packets : ℚ) / 131) },
       (calibrate_collect R B self w).acc.w) := by
  obtain ⟨⟨ha, hg⟩, hlen, _, _⟩ := calibrate_collect_exact R B self w
  have hne : 1 ≤ (calibrate_collect R B self w).acc.packets.length := by omega
  have hz := avg_bound 2 (calibrate_collect R B self w).acc.packets
  have hgrav : remove_gravity
      ⟨avg 0 (calibrate_collect R B self w).acc.packets,
        avg 1 (calibrate_collect R B self w).acc.packets,
        avg 2 (calibrate_collect R B self w).acc.packets⟩ ((16384 : Nat) : Int)
      = ⟨avg 0 (calibrate_collect R B self w).acc.packets,
        avg 1 (calibrate_collect R B self w).acc.packets,
        gravity_free (avg 2 (calibrate_collect R B self w).acc.packets)⟩ := by
    unfold remove_gravity gravity_free
    split_ifs with h
    · simp only [IVec3.mk.injEq, true_and]
      exact toInt32_of_range (by push_cast; omega) (by push_cast; omega)
    · simp only [IVec3.mk.injEq, true_and]
      exact toInt32_of_range (by push_cast; omega) (by push_cast; omega)
  have b0 := avg_bound 0 (calibrate_collect R B self w).acc.packets
  have b1 := avg_bound 1 (calibrate_collect R B self w).acc.packets
  have b2 := gravity_free_bound hz.1 hz.2
  have b3 := avg_bound 3 (calibrate_collect R B self w).acc.packets
  have b4 := avg_bound 4 (calibrate_collect R B self w).acc.packets
  have b5 := avg_bound 5 (calibrate_collect R B self w).acc.packets
  unfold calibrate_still_bias still_bias
  simp only [ha, hg, div_each, ← hlen, toInt32_avg, hgrav,
    if_neg (show ¬ (calibrate_collect R B self w).acc.packets.length = 0 by omega),
    Option.map_some']
  rw [accel_quotient _ (by omega) (by omega), accel_quotient _ (by omega) (by omega),
    accel_quotient _ b2.1 b2.2, gyro_quotient _ b3.1 b3.2, gyro_quotient _ b4.1 b4.2,
    gyro_quotient _ b5.1 b5.2]
/-! ## C8, C7: static bias calibration -/

theorem sum_map_const {α : Type} (f : α → Int) (c : Int) (p : α) (hp : f p = c) (n : Nat) :
    ((List.replicate n p).map f).sum = (n : Int) * c := by
  induction n with
  | zero => simp
  | succ n ih =>
    rw [List.replicate_succ, List.map_cons, List.sum_cons, ih, hp]
    push_cast
    ring

theorem avg_replicate (k : Nat) (p : List Nat) (n : Nat) (hn : 1 ≤ n) :
    avg k (List.replicate n p) = sample k p := by
  unfold avg colSum
  rw [sum_map_const (sample k) (sample k p) p rfl n, List.length_replicate]
  exact Int.mul_tdiv_cancel_left _ (by omega)

/-- C8: for every packet count `n ≥ 1`, when the `n` packets drained from the FIFO all
have accelerometer z count `16384` and the other five counts `0`,
`calibrate_still_bias` outputs accelerometer bias `(0, 0, 0)` and gyro bias `(0, 0, 0)`. -/
theorem calibrate_gravity_cancels {σ : Type} (R : Regs) (B : Bus σ) (self : MPU9250)
    (w : World σ) (n : Nat) (hn : 1 ≤ n)
    (hpk : (calibrate_collect R B self w).acc.packets = List.replicate n gravityPacket) :
    calibrate_still_bias R B self w
      = some (⟨FP.fin 0, FP.fin 0, FP.fin 0⟩, ⟨FP.fin 0, FP.fin 0, FP.fin 0⟩,
          (calibrate_collect R B self w).acc.w) := by
  have hlen := (calibrate_collect_exact R B self w).2.1
  have hcount : 1 ≤ (calibrate_collect R B self w).packet_count := by
    rw [← hlen, hpk, List.length_replicate]; exact hn
  rw [calibrate_still_bias_eq R B self w hcount, hpk]
  simp only [avg_replicate _ gravityPacket n hn]
  have h0 : sample 0 gravityPacket = 0 := by decide
  have h1 : sample 1 gravityPacket = 0 := by decide
  have h2 : sample 2 gravityPacket = 16384 := by decide
  have h3 : sample 3 gravityPacket = 0 := by decide
  have h4 : sample 4 gravityPacket = 0 := by decide
  have h5 : sample 5 gravityPacket = 0 := by decide
  rw [h0, h1, h2, h3, h4, h5]
  norm_num [gravity_free, f32_zero]

/-- C8 at `n = 40`. -/
theorem calibrate_gravity_cancels_witness :
    (calibrate_still_bias datasheet scriptBus driver0 fifo40World).map
      (fun b => (b.1, b.2.1))
      = some (⟨FP.fin 0, FP.fin 0, FP.fin 0⟩, ⟨FP.fin 0, FP.fin 0, FP.fin 0⟩) := by
  rw [calibrate_gravity_cancels datasheet scriptBus driver0 fifo40World 40 (by decide)
    (by decide)]
  rfl

theorem tdiv_shift_nonneg (S D : Int) (n : Nat) (hn : 1 ≤ n) (h1 : 0 ≤ S)
    (h2 : 0 ≤ S + (n : Int) * D) :
    Int.tdiv (S + (n : Int) * D) n = Int.tdiv S n + D := by
  have hn0 : (0 : Int) ≤ (n : Int) := Int.ofNat_nonneg n
  rw [Int.tdiv_eq_ediv h2 hn0, Int.tdiv_eq_ediv h1 hn0]
  exact Int.add_mul_ediv_left S D (by omega)

/-- Truncating division commutes with a shift of the dividend by a multiple of the
divisor when the dividend does not change sign. -/
theorem tdiv_shift (S D : Int) (n : Nat) (hn : 1 ≤ n)
    (hsign : (0 ≤ S ∧ 0 ≤ S + (n : Int) * D) ∨ (S ≤ 0 ∧ S + (n : Int) * D ≤ 0)) :
    Int.tdiv (S + (n : Int) * D) n = Int.tdiv S n + D := by
  rcases hsign with ⟨h1, h2⟩ | ⟨h1, h2⟩
  · exact tdiv_shift_nonneg S D n hn h1 h2
  · have h := tdiv_shift_nonneg (-S) (-D) n hn (by omega)
      (by rw [mul_neg]; omega)
    have e : -S + (n : Int) * -D = -(S + (n : Int) * D) := by ring
    rw [e, Int.neg_tdiv, Int.neg_tdiv] at h
    omega

theorem sum_map_shift {α : Type} (f : α → Int) (D : Int) (ps : List α) :
    (ps.map (fun p => f p + D)).sum = (ps.map f).sum + (ps.length : Int) * D := by
  induction ps with
  | nil => simp
  | cons p t ih =>
    simp only [List.map_cons, List.sum_cons, List.length_cons, Nat.cast_add, Nat.cast_one, ih]
    ring

/-- The remainder that truncating division leaves has the sign of the dividend and is
smaller than the divisor. -/
theorem tdiv_remainder (S : Int) (n : Nat) (hn : 1 ≤ n) :
    (0 ≤ S → 0 ≤ S - (n : Int) * Int.tdiv S n ∧ S - (n : Int) * Int.tdiv S n < n) ∧
    (S ≤ 0 → -(n : Int) < S - (n : Int) * Int.tdiv S n ∧ S - (n : Int) * Int.tdiv S n ≤ 0) := by
  have hpos : ∀ T : Int, 0 ≤ T →
      0 ≤ T - (n : Int) * Int.tdiv T n ∧ T - (n : Int) * Int.tdiv T n < n := by
    intro T hT
    rw [← Int.tmod_def]
    exact ⟨Int.tmod_nonneg _ hT, Int.tmod_lt_of_pos _ (by omega)⟩
  refine ⟨hpos S, ?_⟩
  intro hS
  have h := hpos (-S) (by omega)
  rw [Int.neg_tdiv, mul_neg] at h
  omega

/-- Truncating division commutes with a shift of the dividend by a multiple of the
divisor exactly when the divisor divides the dividend or the dividend stays positive or
stays negative. -/
theorem tdiv_shift_iff (S D : Int) (n : Nat) (hn : 1 ≤ n) :
    Int.tdiv (S + (n : Int) * D) n = Int.tdiv S n + D ↔
      ((n : Int) ∣ S ∨ (0 < S ∧ 0 < S + (n : Int) * D) ∨ (S < 0 ∧ S + (n : Int) * D < 0)) := by
  constructor
  · intro h
    have r1 := tdiv_remainder S n hn
    have r2 := tdiv_remainder (S + (n : Int) * D) n hn
    rw [h, mul_add] at r2
    by_cases hp : 0 < S ∧ 0 < S + (n : Int) * D
    · exact Or.inr (Or.inl hp)
    · by_cases hq : S < 0 ∧ S + (n : Int) * D < 0
      · exact Or.inr (Or.inr hq)
      · left
        have hr : S - (n : Int) * Int.tdiv S n = 0 := by
          rcases le_total 0 S with hS | hS
          · rcases le_total 0 (S + (n : Int) * D) with hT | hT
            · have h1 := r1.1 hS
              have h2 := r2.1 hT
              by_cases hS0 : S = 0
              · rw [hS0]; simp
              · have hT0 : S + (n : Int) * D ≤ 0 := by
                  by_contra hc
                  exact hp ⟨by omega, by omega⟩
                have h3 := r2.2 hT0
                omega
            · have h1 := r1.1 hS
              have h3 := r2.2 hT
              omega
          · rcases le_total 0 (S + (n : Int) * D) with hT | hT
            · have h1 := r1.2 hS
              have h3 := r2.1 hT
              omega
            · have h1 := r1.2 hS
              have h3 := r2.2 hT
              by_cases hS0 : S = 0
              · rw [hS0]; simp
              · have hT0 : 0 ≤ S + (n : Int) * D := by
                  by_contra hc
                  exact hq ⟨by omega, by omega⟩
                have h4 := r2.1 hT0
                omega
        exact ⟨Int.tdiv S n, by omega⟩
  · intro h
    rcases h with ⟨c, hc⟩ | ⟨h1, h2⟩ | ⟨h1, h2⟩
    · have hn0 : (n : Int) ≠ 0 := by omega
      rw [hc, ← mul_add, Int.mul_tdiv_cancel_left _ hn0, Int.mul_tdiv_cancel_left _ hn0]
    · exact tdiv_shift S D n hn (Or.inl ⟨by omega, by omega⟩)
    · exact tdiv_shift S D n hn (Or.inr ⟨by omega, by omega⟩)

/-- The truncated average of a shifted column: it shifts by `D` exactly when the packet
count divides the column sum or the column sum stays positive or stays negative. -/
theorem avg_shift (k : Nat) (D : Int) (P Q : List (List Nat)) (hne : P ≠ [])
    (hshift : Q.map (sample k) = P.map (fun p => sample k p + D)) :
    Q.length = P.length ∧
    (avg k Q = avg k P + D ↔
      (((P.length : Int) ∣ colSum k P) ∨ (0 < colSum k P ∧ 0 < colSum k Q) ∨
        (colSum k P < 0 ∧ colSum k Q < 0))) := by
  have hlen : Q.length = P.length := by
    have h := congrArg List.length hshift
    simpa using h
  have hpos : 1 ≤ P.length := by
    cases P with
    | nil => exact absurd rfl hne
    | cons a t => simp
  have hsum : colSum k Q = colSum k P + (P.length : Int) * D := by
    unfold colSum
    rw [hshift, sum_map_shift]
  refine ⟨hlen, ?_⟩
  unfold avg
  rw [hlen, hsum]
  exact tdiv_shift_iff _ D P.length hpos

/-- The gyro quotients by `131` of the counts `1` and `2` are not exact. -/
theorem f32_gyro_counts :
    FP.f32 (1 / 131) = FP.fin (16393005 / 2147483648) ∧
    FP.f32 (2 / 131) = FP.fin (16393005 / 1073741824) := by
  constructor
  · have h := round_eval 24 (-149) 128 (1 / 131) (-8) (-31) 16393005
      (by norm_num [abs_of_pos]) (by norm_num [abs_of_pos]) (by norm_num) (by norm_num)
      (by norm_num) (by norm_num [abs_of_pos])
    rw [FP.f32, h]
    norm_num
  · have h := round_eval 24 (-149) 128 (2 / 131) (-7) (-30) 16393005
      (by norm_num [abs_of_pos]) (by norm_num [abs_of_pos]) (by norm_num) (by norm_num)
      (by norm_num) (by norm_num [abs_of_pos])
    rw [FP.f32, h]
    norm_num

/-- C7, amended: take two runs of `calibrate_still_bias` that drain non-empty packet
sequences `P` and `Q`, where `Q` has sample `k` of every packet shifted by the integer `D`
(`k` any channel but accelerometer z).  Both runs return.  The truncated average of
sample `k` shifts by exactly `D` if and only if the packet count divides the sum of sample
`k` over `P`, or that sum is positive before and after the shift, or negative before and
after.  When it does, on an accelerometer axis output `k` of the second run is exactly
output `k` of the first plus `D / 16384`, and on a gyro axis output `k` of the first run is
the `float` nearest to `average / 131` and that of the second run is the `float` nearest to
`(average + D) / 131`. -/
theorem calibrate_translation {σ τ : Type} (R : Regs) (B : Bus σ) (self : MPU9250)
    (w : World σ) (R2 : Regs) (B2 : Bus τ) (self2 : MPU9250) (w2 : World τ)
    (k : Nat) (hk : k < 6) (hz : k ≠ 2) (D : Int)
    (hne : (calibrate_collect R B self w).acc.packets ≠ [])
    (hshift : (calibrate_collect R2 B2 self2 w2).acc.packets.map (sample k)
      = (calibrate_collect R B self w).acc.packets.map (fun p => sample k p + D)) :
    ((calibrate_still_bias R B self w).isSome = true ∧
      (calibrate_still_bias R2 B2 self2 w2).isSome = true) ∧
    (avg k (calibrate_collect R2 B2 self2 w2).acc.packets
        = avg k (calibrate_collect R B self w).acc.packets + D ↔
      ((((calibrate_collect R B self w).acc.packets.length : Int)
          ∣ colSum k (calibrate_collect R B self w).acc.packets) ∨
        (0 < colSum k (calibrate_collect R B self w).acc.packets ∧
          0 < colSum k (calibrate_collect R2 B2 self2 w2).acc.packets) ∨
        (colSum k (calibrate_collect R B self w).acc.packets < 0 ∧
          colSum k (calibrate_collect R2 B2 self2 w2).acc.packets < 0))) ∧
    (avg k (calibrate_collect R2 B2 self2 w2).acc.packets
        = avg k (calibrate_collect R B self w).acc.packets + D →
      (k < 3 →
        (calibrate_still_bias R2 B2 self2 w2).map (fun b => channel k b.1 b.2.1)
          = (calibrate_still_bias R B self w).map
              (fun b => offset (channel k b.1 b.2.1) ((D : ℚ) / 16384))) ∧
      (3 ≤ k →
        (calibrate_still_bias R B self w).map (fun b => channel k b.1 b.2.1)
          = some (FP.f32
              ((avg k (calibrate_collect R B self w).acc.packets : ℚ) / 131)) ∧
        (calibrate_still_bias R2 B2 self2 w2).map (fun b => channel k b.1 b.2.1)
          = some (FP.f32
              (((avg k (calibrate_collect R B self w).acc.packets + D : Int) : ℚ) / 131)))) := by
  obtain ⟨hlen, hiff⟩ := avg_shift k D _ _ hne hshift
  have hpos : 1 ≤ (calibrate_collect R B self w).acc.packets.length := by
    cases h : (calibrate_collect R B self w).acc.packets with
    | nil => exact absurd h hne
    | cons a t => simp
  have hc1 : 1 ≤ (calibrate_collect R B self w).packet_count := by
    rw [← (calibrate_collect_exact R B self w).2.1]; exact hpos
  have hc2 : 1 ≤ (calibrate_collect R2 B2 self2 w2).packet_count := by
    rw [← (calibrate_collect_exact R2 B2 self2 w2).2.1, hlen]; exact hpos
  rw [calibrate_still_bias_eq R B self w hc1, calibrate_still_bias_eq R2 B2 self2 w2 hc2]
  refine ⟨⟨rfl, rfl⟩, hiff, ?_⟩
  intro havg
  simp only [Option.map_some', Option.some.injEq]
  have hk5 : k = 0 ∨ k = 1 ∨ k = 3 ∨ k = 4 ∨ k = 5 := by omega
  rcases hk5 with h | h | h | h | h <;> subst h
  · refine ⟨fun _ => ?_, fun h3 => absurd h3 (by omega)⟩
    simp only [channel, offset, havg]
    congr 1
    push_cast
    ring
  · refine ⟨fun _ => ?_, fun h3 => absurd h3 (by omega)⟩
    simp only [channel, offset, havg]
    congr 1
    push_cast
    ring
  · refine ⟨fun h3 => absurd h3 (by omega), fun _ => ?_⟩
    simp only [channel, havg]
    exact ⟨trivial, trivial⟩
  · refine ⟨fun h3 => absurd h3 (by omega), fun _ => ?_⟩
    simp only [channel, havg]
    exact ⟨trivial, trivial⟩
  · refine ⟨fun h3 => absurd h3 (by omega), fun _ => ?_⟩
    simp only [channel, havg]
    exact ⟨trivial, trivial⟩

/-- C7 as stated fails twice.  With two packets of gyro x counts `(-1, 0)` the gyro x bias
is `0` (the sum `-1` is divided by `2` with truncation toward zero); with both counts
shifted by `D = 1`, to `(0, 1)`, it is `0` again and not `0 + 1/131`.  With both counts
shifted once more, to `(1, 2)`, the average does shift from `0` to `1`, and the gyro x bias
is the `float` `16393005/2147483648`, which is not `0 + 1/131` either. -/
theorem calibrate_shift_counterexample :
    ((calibrate_collect datasheet scriptBus driver0 fifoPlusWorld).acc.packets.map (sample 3)
        = (calibrate_collect datasheet scriptBus driver0 fifoMinusWorld).acc.packets.map
            (fun p => sample 3 p + 1) ∧
      (calibrate_still_bias datasheet scriptBus driver0 fifoMinusWorld).map
        (fun b => channel 3 b.1 b.2.1) = some (FP.fin 0) ∧
      (calibrate_still_bias datasheet scriptBus driver0 fifoPlusWorld).map
        (fun b => channel 3 b.1 b.2.1) = some (FP.fin 0) ∧
      (calibrate_still_bias datasheet scriptBus driver0 fifoPlusWorld).map
          (fun b => channel 3 b.1 b.2.1)
        ≠ (calibrate_still_bias datasheet scriptBus driver0 fifoMinusWorld).map
          (fun b => offset (channel 3 b.1 b.2.1) (((1 : Int) : ℚ) / sensitivity 3))) ∧
    ((calibrate_collect datasheet scriptBus driver0 fifoPlus2World).acc.packets.map (sample 3)
        = (calibrate_collect datasheet scriptBus driver0 fifoPlusWorld).acc.packets.map
            (fun p => sample 3 p + 1) ∧
      (calibrate_still_bias datasheet scriptBus driver0 fifoPlus2World).map
        (fun b => channel 3 b.1 b.2.1) = some (FP.fin (16393005 / 2147483648)) ∧
      (calibrate_still_bias datasheet scriptBus driver0 fifoPlus2World).map
          (fun b => channel 3 b.1 b.2.1)
        ≠ (calibrate_still_bias datasheet scriptBus driver0 fifoPlusWorld).map
          (fun b => offset (channel 3 b.1 b.2.1) (((1 : Int) : ℚ) / sensitivity 3))) := by
  have hA : (calibrate_collect datasheet scriptBus driver0 fifoMinusWorld).acc.packets
      = [[0, 0, 0, 0, 0x40, 0, 0xFF, 0xFF, 0, 0, 0, 0],
        [0, 0, 0, 0, 0x40, 0, 0, 0, 0, 0, 0, 0]] := by decide
  have hB : (calibrate_collect datasheet scriptBus driver0 fifoPlusWorld).acc.packets
      = [[0, 0, 0, 0, 0x40, 0, 0, 0, 0, 0, 0, 0],
        [0, 0, 0, 0, 0x40, 0, 0, 1, 0, 0, 0, 0]] := by decide
  have hC : (calibrate_collect datasheet scriptBus driver0 fifoPlus2World).acc.packets
      = [[0, 0, 0, 0, 0x40, 0, 0, 1, 0, 0, 0, 0],
        [0, 0, 0, 0, 0x40, 0, 0, 2, 0, 0, 0, 0]] := by decide
  have eA := calibrate_still_bias_eq datasheet scriptBus driver0 fifoMinusWorld (by decide)
  have eB := calibrate_still_bias_eq datasheet scriptBus driver0 fifoPlusWorld (by decide)
  have eC := calibrate_still_bias_eq datasheet scriptBus driver0 fifoPlus2World (by decide)
  have aA : avg 3 [[0, 0, 0, 0, 0x40, 0, 0xFF, 0xFF, 0, 0, 0, 0],
      [0, 0, 0, 0, 0x40, 0, 0, 0, 0, 0, 0, 0]] = 0 := by decide
  have aB : avg 3 [[0, 0, 0, 0, 0x40, 0, 0, 0, 0, 0, 0, 0],
      [0, 0, 0, 0, 0x40, 0, 0, 1, 0, 0, 0, 0]] = 0 := by decide
  have aC : avg 3 [[0, 0, 0, 0, 0x40, 0, 0, 1, 0, 0, 0, 0],
      [0, 0, 0, 0, 0x40, 0, 0, 2, 0, 0, 0, 0]] = 1 := by decide
  have z0 : FP.f32 (((0 : Int) : ℚ) / 131) = FP.fin 0 := by
    norm_num [f32_zero]
  have z1 : FP.f32 (((1 : Int) : ℚ) / 131) = FP.fin (16393005 / 2147483648) := by
    have h := f32_gyro_counts.1
    norm_num at h ⊢
    exact h
  rw [eA, eB, eC, hA, hB, hC]
  simp only [Option.map_some', channel, aA, aB, aC, z0, z1, offset, sensitivity]
  refine ⟨⟨by decide, trivial, trivial, ?_⟩, ⟨by decide, trivial, ?_⟩⟩
  · intro h
    injection h with h
    injection h with h
    norm_num at h
  · intro h
    injection h with h
    injection h with h
    norm_num at h

/-- C7, amended, on the scripted devices with gyro x counts `(-1, -1)` and `(2, 2)`: the
shift `D = 3` takes the sum from `-2` to `4`, across zero, the packet count `2` divides
`-2`, the average goes from `-1` to `2` and the gyro x bias from the `float` nearest to
`-1/131` to the `float` nearest to `2/131`, which is `16393005/1073741824`. -/
theorem calibrate_translation_witness :
    avg 3 (calibrate_collect datasheet scriptBus driver0 fifoTwoWorld).acc.packets
      = avg 3 (calibrate_collect datasheet scriptBus driver0 fifoNegWorld).acc.packets + 3 ∧
    (calibrate_still_bias datasheet scriptBus driver0 fifoTwoWorld).map
        (fun b => channel 3 b.1 b.2.1) = some (FP.fin (16393005 / 1073741824)) := by
  have h := calibrate_translation datasheet scriptBus driver0 fifoNegWorld datasheet
    scriptBus driver0 fifoTwoWorld 3 (by decide) (by decide) 3 (by decide) (by decide)
  have havg := h.2.1.mpr (Or.inl (by decide))
  refine ⟨havg, ?_⟩
  rw [((h.2.2 havg).2 (by decide)).2]
  have ha : avg 3 (calibrate_collect datasheet scriptBus driver0 fifoNegWorld).acc.packets
      = -1 := by decide
  rw [ha]
  have e := f32_gyro_counts.2
  norm_num at e ⊢
  exact e
/-! ## C9: self test -/

theorem sample_step_reads {σ : Type} (R : Regs) (B : Bus σ) (addr : Nat) (s : SampleAcc σ) :
    (sample_step R B addr s).aReads.length = s.aReads.length + 1 ∧
    (sample_step R B addr s).gReads.length = s.gReads.length + 1 := by
  constructor <;> simp [sample_step]

theorem sample_step_exact {σ : Type} (R : Regs) (B : Bus σ) (addr : Nat) (s : SampleAcc σ)
    (hs : SamplesExact s) (ha : s.aReads.length < 65535) (hg : s.gReads.length < 65535) :
    SamplesExact (sample_step R B addr s) := by
  obtain ⟨h1, h2⟩ := hs
  have ea := fun k => toInt32_sum_step k s.aReads
    (readBytes B addr R.ACCEL_XOUT_H 6 s.rawData s.w).1 ha
  have eg := fun k => toInt32_sum_step k s.gReads
    (readBytes B addr R.GYRO_XOUT_H 6 (readBytes B addr R.ACCEL_XOUT_H 6 s.rawData s.w).1
      (readBytes B addr R.ACCEL_XOUT_H 6 s.rawData s.w).2).1 hg
  unfold SamplesExact
  constructor
  · simp only [sample_step, h1]
    rw [← ea 0, ← ea 1, ← ea 2]
    rfl
  · simp only [sample_step, h2]
    rw [← eg 0, ← eg 1, ← eg 2]
    rfl

theorem sample_loop_exact {σ : Type} (R : Regs) (B : Bus σ) (addr : Nat) (n : Nat) :
    ∀ s : SampleAcc σ, SamplesExact s → s.aReads.length + n ≤ 65535 →
      s.gReads.length + n ≤ 65535 →
      SamplesExact (sample_loop R B addr n s) ∧
      (sample_loop R B addr n s).aReads.length = s.aReads.length + n ∧
      (sample_loop R B addr n s).gReads.length = s.gReads.length + n := by
  induction n with
  | zero => intro s hs _ _; exact ⟨hs, rfl, rfl⟩
  | succ n ih =>
    intro s hs ha hg
    have h1 := sample_step_exact R B addr s hs (by omega) (by omega)
    obtain ⟨la, lg⟩ := sample_step_reads R B addr s
    obtain ⟨h2, h3, h4⟩ := ih (sample_step R B addr s) h1 (by omega) (by omega)
    refine ⟨h2, ?_, ?_⟩
    · show (sample_loop R B addr n (sample_step R B addr s)).aReads.length = _
      omega
    · show (sample_loop R B addr n (sample_step R B addr s)).gReads.length = _
      omega

/-- A sampling loop of `self_test` started from empty accumulators: 200 blocks of each
sensor are read and `div_each _ 200` gives the truncated averages of their samples. -/
theorem sample_loop_avg {σ : Type} (R : Regs) (B : Bus σ) (addr : Nat) (s0 : SampleAcc σ)
    (ha : s0.a = ⟨0, 0, 0⟩) (hg : s0.g = ⟨0, 0, 0⟩) (hra : s0.aReads = [])
    (hrg : s0.gReads = []) :
    (sample_loop R B addr 200 s0).aReads.length = 200 ∧
    (sample_loop R B addr 200 s0).gReads.length = 200 ∧
    div_each (sample_loop R B addr 200 s0).a 200
      = ⟨avg 0 (sample_loop R B addr 200 s0).aReads, avg 1 (sample_loop R B addr 200 s0).aReads,
          avg 2 (sample_loop R B addr 200 s0).aReads⟩ ∧
    div_each (sample_loop R B addr 200 s0).g 200
      = ⟨avg 0 (sample_loop R B addr 200 s0).gReads, avg 1 (sample_loop R B addr 200 s0).gReads,
          avg 2 (sample_loop R B addr 200 s0).gReads⟩ := by
  have h0 : SamplesExact s0 := by
    unfold SamplesExact
    rw [ha, hg, hra, hrg]
    exact ⟨rfl, rfl⟩
  obtain ⟨⟨h1, h2⟩, h3, h4⟩ := sample_loop_exact R B addr 200 s0 h0
    (by rw [hra]; simp) (by rw [hrg]; simp)
  rw [hra] at h3
  rw [hrg] at h4
  simp only [List.length_nil, Nat.zero_add] at h3 h4
  have ca : ((200 : Nat) : Int) = 200 := rfl
  have ta := fun k => toInt32_avg k (sample_loop R B addr 200 s0).aReads
  have tg := fun k => toInt32_avg k (sample_loop R B addr 200 s0).gReads
  simp only [h3, h4, ca] at ta tg
  refine ⟨h3, h4, ?_, ?_⟩
  · simp only [div_each, h1, ta]
  · simp only [div_each, h2, tg]

/-- The four averages of `self_test` are the truncated averages of the 200 blocks read in
the baseline loop and in the excited loop. -/
theorem self_test_avgs {σ : Type} (R : Regs) (B : Bus σ)
    (pow : FP → FP → FP) (self : MPU9250) (w : World σ) :
    (self_test_run R B pow self w).aAvg
      = ⟨avg 0 (self_test_run R B pow self w).baseline.aReads,
          avg 1 (self_test_run R B pow self w).baseline.aReads,
          avg 2 (self_test_run R B pow self w).baseline.aReads⟩ ∧
    (self_test_run R B pow self w).gAvg
      = ⟨avg 0 (self_test_run R B pow self w).baseline.gReads,
          avg 1 (self_test_run R B pow self w).baseline.gReads,
          avg 2 (self_test_run R B pow self w).baseline.gReads⟩ ∧
    (self_test_run R B pow self w).aSTAvg
      = ⟨avg 0 (self_test_run R B pow self w).excited.aReads,
          avg 1 (self_test_run R B pow self w).excited.aReads,
          avg 2 (self_test_run R B pow self w).excited.aReads⟩ ∧
    (self_test_run R B pow self w).gSTAvg
      = ⟨avg 0 (self_test_run R B pow self w).excited.gReads,
          avg 1 (self_test_run R B pow self w).excited.gReads,
          avg 2 (self_test_run R B pow self w).excited.gReads⟩ := by
  simp only [self_test_run]
  exact ⟨(sample_loop_avg R B self.MPU9250_ADDRESS _ rfl rfl rfl rfl).2.2.1,
    (sample_loop_avg R B self.MPU9250_ADDRESS _ rfl rfl rfl rfl).2.2.2,
    (sample_loop_avg R B self.MPU9250_ADDRESS _ rfl rfl rfl rfl).2.2.1,
    (sample_loop_avg R B self.MPU9250_ADDRESS _ rfl rfl rfl rfl).2.2.2⟩

theorem ichannel_cases (a g : IVec3) :
    ichannel 0 a g = a.x ∧ ichannel 1 a g = a.y ∧ ichannel 2 a g = a.z ∧
    ichannel 3 a g = g.x ∧ ichannel 4 a g = g.y ∧ ichannel 5 a g = g.z :=
  ⟨rfl, rfl, rfl, rfl, rfl, rfl⟩

theorem getD_map_of_lt {α β : Type} (f : α → β) (l : List α) (k : Nat) (hk : k < l.length)
    (d : β) (e : α) : (l.map f).getD k d = f (l.getD k e) := by
  rw [List.getD_eq_getElem _ d (by simpa using hk), List.getD_eq_getElem _ e hk,
    List.getElem_map]

theorem self_test_codes_length {σ : Type} (R : Regs) (B : Bus σ) (self : MPU9250)
    (w : World σ) : (self_test_codes R B self w).1.length = 6 := rfl

/-- The six entries of `results`. -/
theorem self_test_results {σ : Type} (R : Regs) (B : Bus σ)
    (pow : FP → FP → FP) (self : MPU9250) (w : World σ) :
    (self_test_run R B pow self w).results
      = [percent_deviation (self_test_run R B pow self w).aSTAvg.x
            (self_test_run R B pow self w).aAvg.x
            ((self_test_run R B pow self w).factoryTrim.getD 0 FP.nan),
         percent_deviation (self_test_run R B pow self w).aSTAvg.y
            (self_test_run R B pow self w).aAvg.y
            ((self_test_run R B pow self w).factoryTrim.getD 1 FP.nan),
         percent_deviation (self_test_run R B pow self w).aSTAvg.z
            (self_test_run R B pow self w).aAvg.z
            ((self_test_run R B pow self w).factoryTrim.getD 2 FP.nan),
         percent_deviation (self_test_run R B pow self w).gSTAvg.x
            (self_test_run R B pow self w).gAvg.x
            ((self_test_run R B pow self w).factoryTrim.getD 3 FP.nan),
         percent_deviation (self_test_run R B pow self w).gSTAvg.y
            (self_test_run R B pow self w).gAvg.y
            ((self_test_run R B pow self w).factoryTrim.getD 4 FP.nan),
         percent_deviation (self_test_run R B pow self w).gSTAvg.z
            (self_test_run R B pow self w).gAvg.z
            ((self_test_run R B pow self w).factoryTrim.getD 5 FP.nan)] := rfl

/-- Entry `k` of `factoryTrim` is the factory trim of code `k`. -/
theorem self_test_trim {σ : Type} (R : Regs) (B : Bus σ)
    (pow : FP → FP → FP) (self : MPU9250) (w : World σ)
    (k : Nat) (hk : k < 6) :
    (self_test_run R B pow self w).factoryTrim.getD k FP.nan
      = factory_trim pow 0 ((self_test_run R B pow self w).selfTest.getD k 0) := by
  have hmap : (self_test_run R B pow self w).factoryTrim
      = (self_test_run R B pow self w).selfTest.map (factory_trim pow 0) := rfl
  have hlen : (self_test_run R B pow self w).selfTest.length = 6 :=
    self_test_codes_length R B self _
  rw [hmap]
  exact getD_map_of_lt _ _ k (by omega) FP.nan 0

theorem six_getD {α : Type} (a b c d e f dflt : α) :
    [a, b, c, d, e, f].getD 0 dflt = a ∧ [a, b, c, d, e, f].getD 1 dflt = b ∧
    [a, b, c, d, e, f].getD 2 dflt = c ∧ [a, b, c, d, e, f].getD 3 dflt = d ∧
    [a, b, c, d, e, f].getD 4 dflt = e ∧ [a, b, c, d, e, f].getD 5 dflt = f :=
  ⟨rfl, rfl, rfl, rfl, rfl, rfl⟩

/-- Entry `k` of `results` is the percent deviation of channel `k`, computed with the
factory trim of code `k`. -/
theorem self_test_result {σ : Type} (R : Regs) (B : Bus σ)
    (pow : FP → FP → FP) (self : MPU9250) (w : World σ)
    (k : Nat) (hk : k < 6) :
    (self_test_run R B pow self w).results.getD k FP.nan
      = percent_deviation
          (ichannel k (self_test_run R B pow self w).aSTAvg
            (self_test_run R B pow self w).gSTAvg)
          (ichannel k (self_test_run R B pow self w).aAvg (self_test_run R B pow self w).gAvg)
          ((self_test_run R B pow self w).factoryTrim.getD k FP.nan) ∧
    (self_test_run R B pow self w).factoryTrim.getD k FP.nan
      = factory_trim pow 0 ((self_test_run R B pow self w).selfTest.getD k 0) := by
  refine ⟨?_, self_test_trim R B pow self w k hk⟩
  obtain ⟨s0, s1, s2, s3, s4, s5⟩ := ichannel_cases (self_test_run R B pow self w).aSTAvg
    (self_test_run R B pow self w).gSTAvg
  obtain ⟨b0, b1, b2, b3, b4, b5⟩ := ichannel_cases (self_test_run R B pow self w).aAvg
    (self_test_run R B pow self w).gAvg
  rw [self_test_results]
  have hk6 : k = 0 ∨ k = 1 ∨ k = 2 ∨ k = 3 ∨ k = 4 ∨ k = 5 := by omega
  rcases hk6 with h | h | h | h | h | h <;> subst h
  · rw [s0, b0]; exact (six_getD _ _ _ _ _ _ FP.nan).1
  · rw [s1, b1]; exact (six_getD _ _ _ _ _ _ FP.nan).2.1
  · rw [s2, b2]; exact (six_getD _ _ _ _ _ _ FP.nan).2.2.1
  · rw [s3, b3]; exact (six_getD _ _ _ _ _ _ FP.nan).2.2.2.1
  · rw [s4, b4]; exact (six_getD _ _ _ _ _ _ FP.nan).2.2.2.2.1
  · rw [s5, b5]; exact (six_getD _ _ _ _ _ _ FP.nan).2.2.2.2.2

theorem small_avgs (P : List (List Nat)) : Small ⟨avg 0 P, avg 1 P, avg 2 P⟩ :=
  ⟨avg_bound 0 P, avg_bound 1 P, avg_bound 2 P⟩

theorem toInt32_diff_small (a g a2 g2 : IVec3) (ha : Small a) (hg : Small g)
    (ha2 : Small a2) (hg2 : Small g2) (k : Nat) (hk : k < 6) :
    toInt32 (ichannel k a g - ichannel k a2 g2) = ichannel k a g - ichannel k a2 g2 := by
  obtain ⟨hax, hay, haz⟩ := ha
  obtain ⟨hgx, hgy, hgz⟩ := hg
  obtain ⟨hax2, hay2, haz2⟩ := ha2
  obtain ⟨hgx2, hgy2, hgz2⟩ := hg2
  have hk' : k = 0 ∨ k = 1 ∨ k = 2 ∨ k = 3 ∨ k = 4 ∨ k = 5 := by omega
  rcases hk' with h | h | h | h | h | h <;> subst h <;> simp only [ichannel] <;>
    exact toInt32_of_range (by omega) (by omega)

/-- The difference of two averages of `self_test` fits in 32 bits. -/
theorem self_test_diff {σ : Type} (R : Regs) (B : Bus σ)
    (pow : FP → FP → FP) (self : MPU9250) (w : World σ)
    (k : Nat) (hk : k < 6) :
    toInt32
        (ichannel k (self_test_run R B pow self w).aSTAvg (self_test_run R B pow self w).gSTAvg
          - ichannel k (self_test_run R B pow self w).aAvg (self_test_run R B pow self w).gAvg)
      = ichannel k (self_test_run R B pow self w).aSTAvg (self_test_run R B pow self w).gSTAvg
          - ichannel k (self_test_run R B pow self w).aAvg (self_test_run R B pow self w).gAvg := by
  obtain ⟨h1, h2, h3, h4⟩ := self_test_avgs R B pow self w
  have s1 : Small (self_test_run R B pow self w).aAvg := by rw [h1]; exact small_avgs _
  have s2 : Small (self_test_run R B pow self w).gAvg := by rw [h2]; exact small_avgs _
  have s3 : Small (self_test_run R B pow self w).aSTAvg := by rw [h3]; exact small_avgs _
  have s4 : Small (self_test_run R B pow self w).gSTAvg := by rw [h4]; exact small_avgs _
  exact toInt32_diff_small _ _ _ _ s3 s4 s1 s2 k hk

/-! ### The scripted bus under the sampling loops -/

theorem script_readBytes (a r count : Nat) (dest : List Nat) (w : World (List (List Nat)))
    (blk : List Nat) (rest : List (List Nat)) (hdev : w.dev = blk :: rest)
    (hlen : blk.length = count) (hd : dest.length = count) (hb : ∀ b ∈ blk, b < 256) :
    (readBytes scriptBus a r count dest w).1 = blk ∧
    (readBytes scriptBus a r count dest w).2.dev = rest := by
  have hr : scriptBus.read a r count w.dev = (blk, rest) := by
    rw [hdev]; rfl
  constructor
  · rw [readBytes_full scriptBus a r count dest w hd (by rw [hr]; exact hlen)
      (by rw [hr]; exact hb), hr]
  · show (scriptBus.read a r count w.dev).2 = rest
    rw [hr]

theorem script_readByte (a r : Nat) (w : World (List (List Nat)))
    (blk : List Nat) (rest : List (List Nat)) (hdev : w.dev = blk :: rest) :
    (readByte scriptBus a r w).1 = blk.headD 255 % 256 ∧
    (readByte scriptBus a r w).2.dev = rest := by
  have hr : scriptBus.read a r 1 w.dev = (blk, rest) := by
    rw [hdev]; rfl
  constructor
  · show (scriptBus.read a r 1 w.dev).1.headD 255 % 256 = _
    rw [hr]
  · show (scriptBus.read a r 1 w.dev).2 = rest
    rw [hr]

theorem script_sample_step (R : Regs) (addr : Nat) (s : SampleAcc (List (List Nat)))
    (blk : List Nat) (rest : List (List Nat)) (hdev : s.w.dev = blk :: blk :: rest)
    (hraw : s.rawData.length = 6) (hlen : blk.length = 6) (hb : ∀ b ∈ blk, b < 256) :
    (sample_step R scriptBus addr s).aReads = s.aReads ++ [blk] ∧
    (sample_step R scriptBus addr s).gReads = s.gReads ++ [blk] ∧
    (sample_step R scriptBus addr s).rawData.length = 6 ∧
    (sample_step R scriptBus addr s).w.dev = rest := by
  obtain ⟨h1, h2⟩ := script_readBytes addr R.ACCEL_XOUT_H 6 s.rawData s.w blk (blk :: rest)
    hdev hlen hraw hb
  obtain ⟨h3, h4⟩ := script_readBytes addr R.GYRO_XOUT_H 6
    (readBytes scriptBus addr R.ACCEL_XOUT_H 6 s.rawData s.w).1
    (readBytes scriptBus addr R.ACCEL_XOUT_H 6 s.rawData s.w).2 blk rest h2 hlen
    (by rw [h1]; exact hlen) hb
  refine ⟨?_, ?_, ?_, ?_⟩
  · show s.aReads ++ [(readBytes scriptBus addr R.ACCEL_XOUT_H 6 s.rawData s.w).1] = _
    rw [h1]
  · show s.gReads ++ [(readBytes scriptBus addr R.GYRO_XOUT_H 6
      (readBytes scriptBus addr R.ACCEL_XOUT_H 6 s.rawData s.w).1
      (readBytes scriptBus addr R.ACCEL_XOUT_H 6 s.rawData s.w).2).1] = _
    rw [h3]
  · show (readBytes scriptBus addr R.GYRO_XOUT_H 6
      (readBytes scriptBus addr R.ACCEL_XOUT_H 6 s.rawData s.w).1
      (readBytes scriptBus addr R.ACCEL_XOUT_H 6 s.rawData s.w).2).1.length = 6
    rw [h3]; exact hlen
  · exact h4

theorem script_sample_loop (R : Regs) (addr : Nat) (blk : List Nat) (rest : List (List Nat))
    (hlen : blk.length = 6) (hb : ∀ b ∈ blk, b < 256) (n : Nat) :
    ∀ s : SampleAcc (List (List Nat)),
      s.w.dev = List.replicate (2 * n) blk ++ rest → s.rawData.length = 6 →
      (sample_loop R scriptBus addr n s).aReads = s.aReads ++ List.replicate n blk ∧
      (sample_loop R scriptBus addr n s).gReads = s.gReads ++ List.replicate n blk ∧
      (sample_loop R scriptBus addr n s).rawData.length = 6 ∧
      (sample_loop R scriptBus addr n s).w.dev = rest := by
  induction n with
  | zero =>
    intro s hdev hraw
    refine ⟨by simp [sample_loop], by simp [sample_loop], hraw, ?_⟩
    simpa [sample_loop] using hdev
  | succ n ih =>
    intro s hdev hraw
    have hdev2 : s.w.dev = blk :: blk :: (List.replicate (2 * n) blk ++ rest) := by
      rw [hdev, show 2 * (n + 1) = (2 * n + 1) + 1 by ring, List.replicate_succ,
        List.replicate_succ]
      rfl
    obtain ⟨h1, h2, h3, h4⟩ := script_sample_step R addr s blk _ hdev2 hraw hlen hb
    obtain ⟨i1, i2, i3, i4⟩ := ih (sample_step R scriptBus addr s) h4 h3
    refine ⟨?_, ?_, i3, i4⟩
    · show (sample_loop R scriptBus addr n (sample_step R scriptBus addr s)).aReads = _
      rw [i1, h1, List.replicate_succ, List.append_assoc]
      rfl
    · show (sample_loop R scriptBus addr n (sample_step R scriptBus addr s)).gReads = _
      rw [i2, h2, List.replicate_succ, List.append_assoc]
      rfl

theorem script_baseline (R : Regs) (self : MPU9250) (w : World (List (List Nat)))
    (blk : List Nat) (rest : List (List Nat)) (hlen : blk.length = 6)
    (hb : ∀ b ∈ blk, b < 256) (hdev : w.dev = List.replicate 400 blk ++ rest) :
    (self_test_baseline R scriptBus self w).aReads = List.replicate 200 blk ∧
    (self_test_baseline R scriptBus self w).gReads = List.replicate 200 blk ∧
    (self_test_baseline R scriptBus self w).rawData.length = 6 ∧
    (self_test_baseline R scriptBus self w).w.dev = rest :=
  script_sample_loop R self.MPU9250_ADDRESS blk rest hlen hb 200 _ hdev rfl

theorem script_excited (R : Regs) (self : MPU9250) (s : SampleAcc (List (List Nat)))
    (blk : List Nat) (rest : List (List Nat)) (hlen : blk.length = 6)
    (hb : ∀ b ∈ blk, b < 256) (hdev : s.w.dev = List.replicate 400 blk ++ rest)
    (hraw : s.rawData.length = 6) :
    (self_test_excited R scriptBus self s).aReads = List.replicate 200 blk ∧
    (self_test_excited R scriptBus self s).gReads = List.replicate 200 blk ∧
    (self_test_excited R scriptBus self s).rawData.length = 6 ∧
    (self_test_excited R scriptBus self s).w.dev = rest :=
  script_sample_loop R self.MPU9250_ADDRESS blk rest hlen hb 200 _ hdev hraw

theorem script_codes (R : Regs) (self : MPU9250) (w : World (List (List Nat)))
    (c : Nat) (hc : c < 256) (hdev : w.dev = List.replicate 6 [c]) :
    (self_test_codes R scriptBus self w).1 = [c, c, c, c, c, c] := by
  have hm : [c].headD 255 % 256 = c := Nat.mod_eq_of_lt hc
  have e0 := script_readByte self.MPU9250_ADDRESS R.SELF_TEST_X_ACCEL
    (delay scriptBus 25 (writeByte scriptBus self.MPU9250_ADDRESS R.GYRO_CONFIG 0x00
      (writeByte scriptBus self.MPU9250_ADDRESS R.ACCEL_CONFIG 0x00 w)))
    [c] (List.replicate 5 [c]) hdev
  have e1 := script_readByte self.MPU9250_ADDRESS R.SELF_TEST_Y_ACCEL _
    [c] (List.replicate 4 [c]) e0.2
  have e2 := script_readByte self.MPU9250_ADDRESS R.SELF_TEST_Z_ACCEL _
    [c] (List.replicate 3 [c]) e1.2
  have e3 := script_readByte self.MPU9250_ADDRESS R.SELF_TEST_X_GYRO _
    [c] (List.replicate 2 [c]) e2.2
  have e4 := script_readByte self.MPU9250_ADDRESS R.SELF_TEST_Y_GYRO _
    [c] (List.replicate 1 [c]) e3.2
  have e5 := script_readByte self.MPU9250_ADDRESS R.SELF_TEST_Z_GYRO _
    [c] (List.replicate 0 [c]) e4.2
  unfold self_test_codes
  simp only [e0.1, e1.1, e2.1, e3.1, e4.1, e5.1, hm]

/-- The averages of a list of 200 equal blocks are the samples of the block. -/
theorem avgs_replicate (blk : List Nat) :
    (⟨avg 0 (List.replicate 200 blk), avg 1 (List.replicate 200 blk),
        avg 2 (List.replicate 200 blk)⟩ : IVec3)
      = ⟨sample 0 blk, sample 1 blk, sample 2 blk⟩ := by
  rw [avg_replicate 0 blk 200 (by decide), avg_replicate 1 blk 200 (by decide),
    avg_replicate 2 blk 200 (by decide)]

/-- A self test on a scripted device that answers the 400 baseline reads with `base`, the
400 excited reads with `exc` and the six code reads with `c`: the averages are the samples
of the two blocks and the six codes are `c`. -/
theorem script_self_test (R : Regs) (pow : FP → FP → FP) (self : MPU9250)
    (w : World (List (List Nat)))
    (base exc : List Nat) (c : Nat) (hbase : base.length = 6) (hexc : exc.length = 6)
    (hb : ∀ b ∈ base, b < 256) (he : ∀ b ∈ exc, b < 256) (hc : c < 256)
    (hdev : w.dev = List.replicate 400 base
      ++ (List.replicate 400 exc ++ List.replicate 6 [c])) :
    (self_test_run R scriptBus pow self w).aAvg = ⟨sample 0 base, sample 1 base, sample 2 base⟩ ∧
    (self_test_run R scriptBus pow self w).gAvg = ⟨sample 0 base, sample 1 base, sample 2 base⟩ ∧
    (self_test_run R scriptBus pow self w).aSTAvg = ⟨sample 0 exc, sample 1 exc, sample 2 exc⟩ ∧
    (self_test_run R scriptBus pow self w).gSTAvg = ⟨sample 0 exc, sample 1 exc, sample 2 exc⟩ ∧
    (self_test_run R scriptBus pow self w).selfTest = [c, c, c, c, c, c] := by
  obtain ⟨b1, b2, b3, b4⟩ := script_baseline R self w base _ hbase hb hdev
  obtain ⟨x1, x2, x3, x4⟩ := script_excited R self (self_test_baseline R scriptBus self w)
    exc _ hexc he b4 b3
  have hcodes := script_codes R self (self_test_excited R scriptBus self
    (self_test_baseline R scriptBus self w)).w c hc x4
  obtain ⟨a1, a2, a3, a4⟩ := self_test_avgs R scriptBus pow self w
  have eb : (self_test_run R scriptBus pow self w).baseline
      = self_test_baseline R scriptBus self w := rfl
  have ee : (self_test_run R scriptBus pow self w).excited
      = self_test_excited R scriptBus self (self_test_baseline R scriptBus self w) := rfl
  rw [eb] at a1 a2
  rw [ee] at a3 a4
  rw [b1, avgs_replicate] at a1
  rw [b2, avgs_replicate] at a2
  rw [x1, avgs_replicate] at a3
  rw [x2, avgs_replicate] at a4
  exact ⟨a1, a2, a3, a4, hcodes⟩

theorem readByte_lt {σ : Type} (B : Bus σ) (address subAddress : Nat) (w : World σ) :
    (readByte B address subAddress w).1 < 256 :=
  Nat.mod_lt _ (by decide)

theorem self_test_codes_lt {σ : Type} (R : Regs) (B : Bus σ) (self : MPU9250)
    (w : World σ) : ∀ c ∈ (self_test_codes R B self w).1, c < 256 := by
  intro c hc
  simp only [self_test_codes, List.mem_cons, List.mem_singleton, List.not_mem_nil,
    or_false] at hc
  rcases hc with h | h | h | h | h | h <;> rw [h] <;> exact readByte_lt B _ _ _

/-! ### The floating-point steps of the self test -/

/-- The `double` constant `1.01`. -/
theorem f64_1_01 : FP.f64 (101 / 100) = FP.fin double_1_01 := by
  have h := round_eval 53 (-1074) 1024 (101 / 100) 0 (-52) 4548635623644201
    (by norm_num [abs_of_pos]) (by norm_num [abs_of_pos]) (by norm_num) (by norm_num)
    (by norm_num) (by norm_num [abs_of_pos])
  rw [FP.f64, h, double_1_01]
  norm_num

/-- The exponent `(float)code - 1.0` of a trim code is exact. -/
theorem code_exponent (code : Nat) (h : code < 256) :
    FP.sub FP.f64 (FP.ofInt FP.f32 (code : Int)) (FP.f64 1) = FP.fin ((code : ℚ) - 1) := by
  have h1 : FP.ofInt FP.f32 (code : Int) = FP.fin ((code : Int) : ℚ) :=
    f32_int _ (by rw [abs_lt]; constructor <;> omega)
  have h2 : FP.f64 1 = FP.fin 1 := by
    have h := f64_int 1 (by norm_num)
    simpa using h
  have h3 := f64_int ((code : Int) - 1) (by rw [abs_lt]; constructor <;> omega)
  push_cast at h3
  rw [h1, h2, sub_fin]
  push_cast
  exact h3

/-- The factory trim of `self_test` (`FS = 0`) in evaluated form. -/
theorem factory_trim_eq (pow : FP → FP → FP) (code : Nat) (h : code < 256) :
    factory_trim pow 0 code = float_trim pow code := by
  have h1 : FP.ofInt FP.f32 ((((2620 / 1) <<< 0 : Nat)) : Int) = FP.fin 2620 := by
    have h := f32_int 2620 (by norm_num)
    simpa [FP.ofInt] using h
  unfold factory_trim float_trim
  rw [h1, f64_1_01, code_exponent code h]

/-- With a `pow` that meets `PowOK`, a finite factory trim is at least `1024`. -/
theorem float_trim_ge (pow : FP → FP → FP) (hpow : PowOK pow) (code : Nat) (h : code < 256)
    (t : ℚ) (ht : float_trim pow code = FP.fin t) : 1024 ≤ t := by
  obtain ⟨p, hp, hge⟩ := hpow ((code : Int) - 1) (by omega) (by omega)
  push_cast at hp
  have hx : (2 : ℚ) ^ (10 : Int) ≤ 2620 * p := by
    norm_num
    linarith
  have hr := roundTo_ge_pow 53 (-1074) _ 10 (by norm_num) (by norm_num) hx
  have hr2 := roundTo_ge_pow 24 (-149) _ 10 (by norm_num) (by norm_num) hr
  unfold float_trim at ht
  rw [hp, mul_fin] at ht
  unfold FP.f64 FP.round at ht
  split_ifs at ht with h1
  · rw [cvt_fin] at ht
    unfold FP.f32 FP.round at ht
    split_ifs at ht with h2
    injection ht with ht
    rw [← ht]
    norm_num at hr2
    exact hr2
  · cases ht

/-- The percent deviation in evaluated form: the conversion of the difference of the two
averages and its product with `100` are exact. -/
theorem percent_deviation_eq (stAvg avg d : Int) (trim : FP) (hd : toInt32 (stAvg - avg) = d)
    (h1 : -65536 ≤ d) (h2 : d ≤ 65536) :
    percent_deviation stAvg avg trim
      = FP.cvt FP.f32
          (FP.sub FP.f64 (FP.div FP.f64 (FP.fin (100 * (d : ℚ))) trim) (FP.fin 100)) := by
  have e1 : FP.f64 100 = FP.fin 100 := by
    have h := f64_int 100 (by norm_num)
    simpa using h
  have e2 : FP.ofInt FP.f32 d = FP.fin d := f32_int d (by rw [abs_lt]; constructor <;> omega)
  have e3 := f64_int (100 * d) (by rw [abs_lt]; constructor <;> omega)
  push_cast at e3
  unfold percent_deviation
  rw [hd, e1, e2, mul_fin, e3]

/-- A difference of the two averages that equals a non-zero factory trim gives the percent
deviation `0`. -/
theorem percent_deviation_zero (stAvg avg d : Int) (hd : toInt32 (stAvg - avg) = d)
    (h1 : -65536 ≤ d) (h2 : d ≤ 65536) (h0 : d ≠ 0) :
    percent_deviation stAvg avg (FP.fin (d : ℚ)) = FP.fin 0 := by
  have e1 : FP.f64 100 = FP.fin 100 := by
    have h := f64_int 100 (by norm_num)
    simpa using h
  have hq : (d : ℚ) ≠ 0 := by exact_mod_cast h0
  rw [percent_deviation_eq stAvg avg d _ hd h1 h2, div_fin _ _ _ hq,
    mul_div_assoc, div_self hq, mul_one, e1, sub_fin, sub_self, f64_zero, cvt_fin, f32_zero]

theorem diff_small_bound (a g a2 g2 : IVec3) (ha : Small a) (hg : Small g)
    (ha2 : Small a2) (hg2 : Small g2) (k : Nat) (hk : k < 6) :
    -65536 ≤ ichannel k a g - ichannel k a2 g2 ∧ ichannel k a g - ichannel k a2 g2 ≤ 65536 := by
  obtain ⟨hax, hay, haz⟩ := ha
  obtain ⟨hgx, hgy, hgz⟩ := hg
  obtain ⟨hax2, hay2, haz2⟩ := ha2
  obtain ⟨hgx2, hgy2, hgz2⟩ := hg2
  have hk6 : k = 0 ∨ k = 1 ∨ k = 2 ∨ k = 3 ∨ k = 4 ∨ k = 5 := by omega
  rcases hk6 with h | h | h | h | h | h <;> subst h <;> simp only [ichannel] <;>
    constructor <;> omega

/-- The difference of two averages of `self_test` lies within `±65536`. -/
theorem self_test_diff_bound {σ : Type} (R : Regs) (B : Bus σ) (pow : FP → FP → FP)
    (self : MPU9250) (w : World σ) (k : Nat) (hk : k < 6) :
    -65536 ≤ ichannel k (self_test_run R B pow self w).aSTAvg
        (self_test_run R B pow self w).gSTAvg
      - ichannel k (self_test_run R B pow self w).aAvg (self_test_run R B pow self w).gAvg ∧
    ichannel k (self_test_run R B pow self w).aSTAvg (self_test_run R B pow self w).gSTAvg
      - ichannel k (self_test_run R B pow self w).aAvg (self_test_run R B pow self w).gAvg
      ≤ 65536 := by
  obtain ⟨h1, h2, h3, h4⟩ := self_test_avgs R B pow self w
  have s1 : Small (self_test_run R B pow self w).aAvg := by rw [h1]; exact small_avgs _
  have s2 : Small (self_test_run R B pow self w).gAvg := by rw [h2]; exact small_avgs _
  have s3 : Small (self_test_run R B pow self w).aSTAvg := by rw [h3]; exact small_avgs _
  have s4 : Small (self_test_run R B pow self w).gSTAvg := by rw [h4]; exact small_avgs _
  exact diff_small_bound _ _ _ _ s3 s4 s1 s2 k hk

/-- The six trim codes of `self_test` are bytes. -/
theorem self_test_code_lt {σ : Type} (R : Regs) (B : Bus σ) (pow : FP → FP → FP)
    (self : MPU9250) (w : World σ) (k : Nat) :
    (self_test_run R B pow self w).selfTest.getD k 0 < 256 := by
  have hcodes : (self_test_run R B pow self w).selfTest
      = (self_test_codes R B self
          (self_test_excited R B self (self_test_baseline R B self w)).w).1 := rfl
  rw [hcodes]
  exact byteAt_lt (self_test_codes_lt R B self _) k

/-- The correctly rounded `pow` at a whole exponent. -/
theorem refPow_int (x : ℚ) (n : Int) (hx : x ≠ 0) :
    refPow (FP.fin x) (FP.fin (n : ℚ)) = FP.f64 (x ^ n) := by
  simp [refPow, hx]

/-- The correctly rounded `pow` meets `PowOK`. -/
theorem refPow_ok : PowOK refPow := by
  intro n h1 h2
  have hX1 : (1 : ℚ) ≤ double_1_01 := by norm_num [double_1_01]
  have hX2 : double_1_01 ≤ 2 := by norm_num [double_1_01]
  have hX0 : (0 : ℚ) < double_1_01 := by linarith
  have hlo : (2 : ℚ) ^ (-1 : Int) ≤ double_1_01 ^ n := by
    by_cases hn : 0 ≤ n
    · have : (1 : ℚ) ≤ double_1_01 ^ n := one_le_zpow₀ hX1 hn
      norm_num
      linarith
    · have hn1 : n = -1 := by omega
      rw [hn1, zpow_neg_one, zpow_neg_one]
      exact inv_anti₀ hX0 hX2
  have hhi : |double_1_01 ^ n| ≤ 2 ^ (254 : Int) := by
    rw [abs_of_pos (zpow_pos hX0 n)]
    by_cases hn : 0 ≤ n
    · obtain ⟨m, hm⟩ := Int.eq_ofNat_of_zero_le hn
      calc double_1_01 ^ n ≤ (2 : ℚ) ^ n := by
            rw [hm, zpow_natCast, zpow_natCast]
            exact pow_le_pow_left₀ (le_of_lt hX0) hX2 m
        _ ≤ 2 ^ (254 : Int) := zpow_le_zpow_right₀ (by norm_num) h2
    · have hn1 : n = -1 := by omega
      rw [hn1, zpow_neg_one]
      have : double_1_01⁻¹ ≤ 1 := inv_le_one_of_one_le₀ hX1
      exact le_trans this (one_le_zpow₀ (by norm_num) (by norm_num))
  refine ⟨FP.roundTo 53 (-1074) (double_1_01 ^ n), ?_, ?_⟩
  · rw [refPow_int _ n (ne_of_gt hX0), f64_fin _ 254 (by norm_num) (by norm_num) hhi]
  · have h := roundTo_ge_pow 53 (-1074) _ (-1) (by norm_num) (by norm_num) hlo
    norm_num at h ⊢
    exact h

/-- The factory trim of the code `141` with the correctly rounded `pow`: `10551`. -/
theorem float_trim_141 : float_trim refPow 141 = FP.fin 10551 := by
  have hp : refPow (FP.fin double_1_01) (FP.fin ((141 : Nat) - 1))
      = FP.fin (4534110632966355 / 1125899906842624) := by
    have e : (((141 : Nat) : ℚ) - 1) = ((140 : Int) : ℚ) := by norm_num
    rw [e, refPow_int _ 140 (by norm_num [double_1_01])]
    have h := round_eval 53 (-1074) 1024 (double_1_01 ^ (140 : Int)) 2 (-50) 4534110632966355
      (by norm_num [double_1_01, abs_of_pos]) (by norm_num [double_1_01, abs_of_pos])
      (by norm_num) (by norm_num [double_1_01]) (by norm_num [double_1_01])
      (by norm_num [abs_of_pos])
    rw [FP.f64, h]
    norm_num
  have hm : FP.f64 (2620 * (4534110632966355 / 1125899906842624))
      = FP.fin (2900236781829065 / 274877906944) := by
    have h := round_eval 53 (-1074) 1024 (2620 * (4534110632966355 / 1125899906842624))
      13 (-39) 5800473563658130
      (by norm_num [abs_of_pos]) (by norm_num [abs_of_pos])
      (by norm_num) (by norm_num) (by norm_num) (by norm_num [abs_of_pos])
    rw [FP.f64, h]
    norm_num
  have hf : FP.f32 (2900236781829065 / 274877906944) = FP.fin 10551 := by
    have h := round_eval 24 (-149) 128 (2900236781829065 / 274877906944) 13 (-10) 10804224
      (by norm_num [abs_of_pos]) (by norm_num [abs_of_pos])
      (by norm_num) (by norm_num) (by norm_num) (by norm_num [abs_of_pos])
    rw [FP.f32, h]
    norm_num
  unfold float_trim
  rw [hp, mul_fin, hm, cvt_fin, hf]

/-- C9: for every channel `k` (accelerometer x, y, z, gyro x, y, z), whatever the factory
trim code read from the device: if the excited 200-sample average minus the baseline
200-sample average equals the factory trim value of the channel, the percent deviation
that `self_test` reports for the channel is exactly `0`.  (The arithmetic is that of
`float` and `double`; the C library `pow` is any function that meets `PowOK`.) -/
theorem self_test_zero_deviation {σ : Type} (R : Regs) (B : Bus σ) (pow : FP → FP → FP)
    (self : MPU9250) (w : World σ) (k : Nat) (hk : k < 6) (hpow : PowOK pow)
    (h : FP.fin
        ((ichannel k (self_test_run R B pow self w).aSTAvg
            (self_test_run R B pow self w).gSTAvg
          - ichannel k (self_test_run R B pow self w).aAvg
            (self_test_run R B pow self w).gAvg : Int) : ℚ)
      = (self_test_run R B pow self w).factoryTrim.getD k FP.nan) :
    (self_test R B pow self w).1.getD k FP.nan = FP.fin 0 := by
  obtain ⟨hres, htrim⟩ := self_test_result R B pow self w k hk
  have hb := self_test_diff_bound R B pow self w k hk
  have hlt := self_test_code_lt R B pow self w k
  have e : (self_test R B pow self w).1 = (self_test_run R B pow self w).results := rfl
  rw [htrim, factory_trim_eq pow _ hlt] at h
  have hge := float_trim_ge pow hpow _ hlt _ h.symm
  have h0 : ichannel k (self_test_run R B pow self w).aSTAvg
      (self_test_run R B pow self w).gSTAvg
      - ichannel k (self_test_run R B pow self w).aAvg (self_test_run R B pow self w).gAvg
      ≠ 0 := by
    intro hz
    rw [hz] at hge
    norm_num at hge
  rw [e, hres, htrim, factory_trim_eq pow _ hlt, ← h]
  exact percent_deviation_zero _ _ _ (self_test_diff R B pow self w k hk) hb.1 hb.2 h0

/-- C9 on the scripted device with trim codes `141` and the correctly rounded `pow`: the
factory trim is the `float` `10551`, the excited averages exceed the baseline averages by
`10551`, and the deviation reported for gyro y (channel 4) is `0`. -/
theorem self_test_zero_deviation_witness :
    (self_test datasheet scriptBus refPow driver0 selfTestWorld141).1.getD 4 FP.nan
      = FP.fin 0 := by
  apply self_test_zero_deviation datasheet scriptBus refPow driver0 selfTestWorld141 4
    (by decide) refPow_ok
  obtain ⟨h1, h2, h3, h4, h5⟩ := script_self_test datasheet refPow driver0 selfTestWorld141
    [0, 0, 0, 0, 0, 0] [0x29, 0x37, 0x29, 0x37, 0x29, 0x37] 141 rfl rfl (by decide)
    (by decide) (by decide) rfl
  rw [self_test_trim datasheet scriptBus refPow driver0 selfTestWorld141 4 (by decide),
    h1, h2, h3, h4, h5]
  have e1 : ichannel 4 ⟨sample 0 [0x29, 0x37, 0x29, 0x37, 0x29, 0x37],
      sample 1 [0x29, 0x37, 0x29, 0x37, 0x29, 0x37],
      sample 2 [0x29, 0x37, 0x29, 0x37, 0x29, 0x37]⟩
      ⟨sample 0 [0x29, 0x37, 0x29, 0x37, 0x29, 0x37],
      sample 1 [0x29, 0x37, 0x29, 0x37, 0x29, 0x37],
      sample 2 [0x29, 0x37, 0x29, 0x37, 0x29, 0x37]⟩ = 10551 := by decide
  have e2 : ichannel 4 ⟨sample 0 [0, 0, 0, 0, 0, 0], sample 1 [0, 0, 0, 0, 0, 0],
      sample 2 [0, 0, 0, 0, 0, 0]⟩
      ⟨sample 0 [0, 0, 0, 0, 0, 0], sample 1 [0, 0, 0, 0, 0, 0],
      sample 2 [0, 0, 0, 0, 0, 0]⟩ = 0 := by decide
  have e3 : [141, 141, 141, 141, 141, 141].getD 4 0 = 141 := rfl
  rw [e1, e2, e3, factory_trim_eq refPow 141 (by norm_num), float_trim_141]
  norm_num
/-! ## C6: resolutions against the full-scale registers, on a register-map bus -/

theorem bits_accel : ∀ c : Fin 256, ∀ A : Fin 4,
    ((((c.val &&& 0xE7) ||| (A.val <<< 3)) % 256) >>> 3) &&& 3 = A.val := by
  set_option maxRecDepth 100000 in decide

theorem bits_gyro : ∀ c : Fin 256, ∀ A : Fin 4,
    (((((c.val &&& 0xFD) &&& 0xE7) ||| (A.val <<< 3)) % 256) >>> 3) &&& 3 = A.val := by
  set_option maxRecDepth 100000 in decide

theorem fsBits_accel (c A : Nat) (hA : A < 4) :
    fsBits ((((c % 256) &&& 0xE7) ||| (A <<< 3)) % 256 % 256) = A := by
  rw [Nat.mod_mod]
  exact bits_accel ⟨c % 256, Nat.mod_lt _ (by decide)⟩ ⟨A, hA⟩

theorem fsBits_gyro (c A : Nat) (hA : A < 4) :
    fsBits (((((c % 256) &&& 0xFD) &&& 0xE7) ||| (A <<< 3)) % 256 % 256) = A := by
  rw [Nat.mod_mod]
  exact bits_gyro ⟨c % 256, Nat.mod_lt _ (by decide)⟩ ⟨A, hA⟩

theorem regBus_write_dev (a r d : Nat) (w : World (Nat → Nat → Nat)) (a2 r2 : Nat) :
    (writeByte regBus a r d w).dev a2 r2
      = if a2 = a ∧ r2 = r then d % 256 else w.dev a2 r2 := rfl

theorem regBus_readByte (a r : Nat) (w : World (Nat → Nat → Nat)) :
    readByte regBus a r w = (w.dev a r % 256, w) := rfl

theorem regBus_readBytes_world (a r count : Nat) (dest : List Nat)
    (w : World (Nat → Nat → Nat)) : (readBytes regBus a r count dest w).2 = w := rfl

theorem regBus_delay (ms : Nat) (w : World (Nat → Nat → Nat)) : delay regBus ms w = w := rfl

/-- On the register map, `init_mpu` leaves the selected scale bits in both full-scale
registers. -/
theorem regBus_init_mpu (R : Regs) (hR : DistinctRegs R) (addr Ascale Gscale : Nat)
    (hA : Ascale < 4) (hG : Gscale < 4) (w : World (Nat → Nat → Nat)) :
    fsBits ((init_mpu R regBus addr Ascale Gscale w).dev addr R.ACCEL_CONFIG) = Ascale ∧
    fsBits ((init_mpu R regBus addr Ascale Gscale w).dev addr R.GYRO_CONFIG) = Gscale := by
  obtain ⟨h1, ⟨h2, h3⟩, ⟨h4, h5⟩, ⟨h6, h7⟩, _⟩ := hR
  unfold init_mpu
  simp only [regBus_delay, regBus_readByte, regBus_write_dev, true_and, h1, h1.symm, h2, h3,
    h4, h5, h6, h7, h2.symm, h3.symm, h4.symm, h5.symm, h6.symm, h7.symm, if_true, if_false,
    and_true, and_false]
  exact ⟨fsBits_accel _ _ hA, fsBits_gyro _ _ hG⟩

theorem regBus_init_mag (R : Regs) (hR : DistinctRegs R) (self : MPU9250) (Mscale Mmode : Nat)
    (w : World (Nat → Nat → Nat)) (a : Nat) :
    (init_mag R regBus self Mscale Mmode w).2.dev a R.ACCEL_CONFIG = w.dev a R.ACCEL_CONFIG ∧
    (init_mag R regBus self Mscale Mmode w).2.dev a R.GYRO_CONFIG = w.dev a R.GYRO_CONFIG ∧
    (init_mag R regBus self Mscale Mmode w).1.MPU9250_ADDRESS = self.MPU9250_ADDRESS ∧
    (init_mag R regBus self Mscale Mmode w).1.aRes = self.aRes ∧
    (init_mag R regBus self Mscale Mmode w).1.gRes = self.gRes := by
  obtain ⟨_, _, _, _, h8, h9⟩ := hR
  unfold init_mag
  simp only [regBus_delay, regBus_readBytes_world, regBus_write_dev, h8.symm, h9.symm,
    and_false, if_false, and_self]

/-- The result of a successful `init`, phase by phase. -/
theorem init_true_eq {σ : Type} (R : Regs) (B : Bus σ) (self : MPU9250)
    (Ascale Gscale Mscale Mmode : Nat) (set_AD0 : Bool) (w : World σ)
    (hok : (init R B self Ascale Gscale Mscale Mmode set_AD0 w).1 = true) :
    (init R B self Ascale Gscale Mscale Mmode set_AD0 w).2
      = (set_resolutions
          (init_mag R B (select_address self set_AD0) Mscale Mmode
            (readByte B R.AK8963_ADDRESS R.AK8963_WHO_AM_I
              (init_mpu R B (select_address self set_AD0).MPU9250_ADDRESS Ascale Gscale
                (readByte B (select_address self set_AD0).MPU9250_ADDRESS
                  R.WHO_AM_I_MPU9250 w).2)).2).1 Ascale Gscale Mscale,
         (init_mag R B (select_address self set_AD0) Mscale Mmode
            (readByte B R.AK8963_ADDRESS R.AK8963_WHO_AM_I
              (init_mpu R B (select_address self set_AD0).MPU9250_ADDRESS Ascale Gscale
                (readByte B (select_address self set_AD0).MPU9250_ADDRESS
                  R.WHO_AM_I_MPU9250 w).2)).2).2) := by
  unfold init at hok ⊢
  by_cases h1 : (readByte B (select_address self set_AD0).MPU9250_ADDRESS
      R.WHO_AM_I_MPU9250 w).1 = 0x71
  · by_cases h2 : (readByte B R.AK8963_ADDRESS R.AK8963_WHO_AM_I
        (init_mpu R B (select_address self set_AD0).MPU9250_ADDRESS Ascale Gscale
          (readByte B (select_address self set_AD0).MPU9250_ADDRESS
            R.WHO_AM_I_MPU9250 w).2)).1 = 0x48
    · simp only [h1, h2, if_true]
    · simp [h1, h2] at hok
  · simp [h1] at hok

theorem validAscale_lt {Ascale : Nat} (h : validAscale Ascale) : Ascale < 4 := by
  unfold validAscale AFS_2G AFS_4G AFS_8G AFS_16G at h
  omega

theorem validGscale_lt {Gscale : Nat} (h : validGscale Gscale) : Gscale < 4 := by
  unfold validGscale GFS_250DPS GFS_500DPS GFS_1000DPS GFS_2000DPS at h
  omega

/-- On the register map, a successful `init` with selectors of the enumerations leaves the
stored resolutions in step with the full-scale registers. -/
theorem regBus_init_synced (R : Regs) (hR : DistinctRegs R) (self : MPU9250)
    (Ascale Gscale Mscale Mmode : Nat) (set_AD0 : Bool) (w : World (Nat → Nat → Nat))
    (hok : (init R regBus self Ascale Gscale Mscale Mmode set_AD0 w).1 = true)
    (hA : validAscale Ascale) (hG : validGscale Gscale) :
    Synced R (init R regBus self Ascale Gscale Mscale Mmode set_AD0 w).2.1
      (init R regBus self Ascale Gscale Mscale Mmode set_AD0 w).2.2 := by
  rw [init_true_eq R regBus self Ascale Gscale Mscale Mmode set_AD0 w hok]
  unfold Synced
  simp only [set_resolutions_aRes _ _ _ _ hA, set_resolutions_gRes _ _ _ _ hG,
    set_resolutions_address]
  obtain ⟨m1, m2, m3, _, _⟩ := regBus_init_mag R hR (select_address self set_AD0) Mscale Mmode
    (readByte regBus R.AK8963_ADDRESS R.AK8963_WHO_AM_I
      (init_mpu R regBus (select_address self set_AD0).MPU9250_ADDRESS Ascale Gscale
        (readByte regBus (select_address self set_AD0).MPU9250_ADDRESS
          R.WHO_AM_I_MPU9250 w).2)).2 (select_address self set_AD0).MPU9250_ADDRESS
  obtain ⟨p1, p2⟩ := regBus_init_mpu R hR (select_address self set_AD0).MPU9250_ADDRESS
    Ascale Gscale (validAscale_lt hA) (validGscale_lt hG)
    (readByte regBus (select_address self set_AD0).MPU9250_ADDRESS R.WHO_AM_I_MPU9250 w).2
  rw [m3, m1, m2]
  simp only [regBus_readByte] at p1 p2 ⊢
  rw [p1, p2]
  exact ⟨rfl, rfl⟩

theorem regBus_update_world (R : Regs) (self : MPU9250) (rawData : List Nat)
    (w : World (Nat → Nat → Nat)) : (update R regBus self rawData w).2 = w := rfl

/-- On the register map, `self_test` ends with both full-scale registers at `0`. -/
theorem regBus_self_test_codes (R : Regs) (hR : DistinctRegs R) (self : MPU9250)
    (w : World (Nat → Nat → Nat)) :
    (self_test_codes R regBus self w).2.dev self.MPU9250_ADDRESS R.ACCEL_CONFIG = 0 ∧
    (self_test_codes R regBus self w).2.dev self.MPU9250_ADDRESS R.GYRO_CONFIG = 0 := by
  obtain ⟨h1, _⟩ := hR
  unfold self_test_codes
  simp only [regBus_delay, regBus_readByte, regBus_write_dev, h1.symm, and_false, if_false,
    and_self, if_true]

/-- C6, amended: on a register-map bus, in every state reached by a successful `init` with
accelerometer and gyro selectors of the enumerations, followed by any sequence of
`set_bias` calls, `update` calls and further such successful `init` calls, the stored
`aRes` and `gRes` are the resolutions of the full-scale bits `[4:3]` held in the
`ACCEL_CONFIG` and `GYRO_CONFIG` registers of the device. -/
theorem resolutions_synced (R : Regs) (hR : DistinctRegs R) (self : MPU9250)
    (w : World (Nat → Nat → Nat)) (h : Reach R self w) : Synced R self w := by
  induction h with
  | init self w Ascale Gscale Mscale Mmode set_AD0 hok hA hG =>
    exact regBus_init_synced R hR self Ascale Gscale Mscale Mmode set_AD0 w hok hA hG
  | set_bias self w a g m _ ih => exact ih
  | update self w rawData _ ih =>
    rw [regBus_update_world]
    exact ih

theorem datasheet_distinct : DistinctRegs datasheet := by
  unfold DistinctRegs
  decide

theorem self_test_world {σ : Type} (R : Regs) (B : Bus σ) (pow : FP → FP → FP)
    (self : MPU9250) (w : World σ) :
    (self_test R B pow self w).2
      = (self_test_codes R B self
          (self_test_excited R B self (self_test_baseline R B self w)).w).2 := rfl

/-- On the register map, `self_test` leaves both full-scale registers at `0` and does not
touch the driver object. -/
theorem regBus_self_test (R : Regs) (hR : DistinctRegs R) (pow : FP → FP → FP)
    (self : MPU9250) (w : World (Nat → Nat → Nat)) :
    (self_test R regBus pow self w).2.dev self.MPU9250_ADDRESS R.ACCEL_CONFIG = 0 ∧
    (self_test R regBus pow self w).2.dev self.MPU9250_ADDRESS R.GYRO_CONFIG = 0 := by
  rw [self_test_world]
  exact regBus_self_test_codes R hR self _

/-- C6 as stated fails: on the register-map device `idWorld`, `init` with the selectors 4G
and 500 DPS succeeds and stores `aRes = 4/32768`; a following `self_test` leaves
`ACCEL_CONFIG = 0x00` (bits `[4:3] = 0`, the 2 g range) while `aRes` is still `4/32768`. -/
theorem self_test_desync_counterexample :
    (init datasheet regBus driver0 AFS_4G GFS_500DPS MFS_16BITS 6 false idWorld).1 = true ∧
    (init datasheet regBus driver0 AFS_4G GFS_500DPS MFS_16BITS 6 false idWorld).2.1.aRes
      = FP.fin (4 / 32768) ∧
    fsBits ((self_test datasheet regBus refPow
        (init datasheet regBus driver0 AFS_4G GFS_500DPS MFS_16BITS 6 false idWorld).2.1
        (init datasheet regBus driver0 AFS_4G GFS_500DPS MFS_16BITS 6 false idWorld).2.2).2.dev
      (init datasheet regBus driver0 AFS_4G GFS_500DPS MFS_16BITS 6 false
        idWorld).2.1.MPU9250_ADDRESS datasheet.ACCEL_CONFIG) = 0 ∧
    ¬ Synced datasheet
      (init datasheet regBus driver0 AFS_4G GFS_500DPS MFS_16BITS 6 false idWorld).2.1
      (self_test datasheet regBus refPow
        (init datasheet regBus driver0 AFS_4G GFS_500DPS MFS_16BITS 6 false idWorld).2.1
        (init datasheet regBus driver0 AFS_4G GFS_500DPS MFS_16BITS 6 false idWorld).2.2).2 := by
  have hok : (init datasheet regBus driver0 AFS_4G GFS_500DPS MFS_16BITS 6 false idWorld).1
      = true := by decide
  have hA : validAscale AFS_4G := Or.inr (Or.inl rfl)
  have ha : (init datasheet regBus driver0 AFS_4G GFS_500DPS MFS_16BITS 6 false
      idWorld).2.1.aRes = FP.fin (4 / 32768) := by
    rw [init_true_eq datasheet regBus driver0 AFS_4G GFS_500DPS MFS_16BITS 6 false idWorld hok]
    simp only [set_resolutions_aRes _ _ _ _ hA]
    norm_num [accelFullScale, AFS_2G, AFS_4G]
  have hreg := (regBus_self_test datasheet datasheet_distinct refPow
    (init datasheet regBus driver0 AFS_4G GFS_500DPS MFS_16BITS 6 false idWorld).2.1
    (init datasheet regBus driver0 AFS_4G GFS_500DPS MFS_16BITS 6 false idWorld).2.2).1
  refine ⟨hok, ha, by rw [hreg]; rfl, ?_⟩
  intro hs
  have h1 := hs.1
  rw [ha, hreg] at h1
  injection h1 with h1
  norm_num [accelFullScale, fsBits, AFS_2G] at h1

/-- C6, amended, on the register-map device `idWorld`: after `init` with 4G and 500 DPS,
`set_bias` and `update`, `aRes` and `gRes` match the full-scale registers. -/
theorem resolutions_synced_witness :
    Synced datasheet
      (set_bias
        (init datasheet regBus driver0 AFS_4G GFS_500DPS MFS_16BITS 6 false idWorld).2.1
        quarter3 half3 zero3
        (init datasheet regBus driver0 AFS_4G GFS_500DPS MFS_16BITS 6 false idWorld).2.2).1
      (update datasheet regBus
        (set_bias
          (init datasheet regBus driver0 AFS_4G GFS_500DPS MFS_16BITS 6 false idWorld).2.1
          quarter3 half3 zero3
          (init datasheet regBus driver0 AFS_4G GFS_500DPS MFS_16BITS 6 false idWorld).2.2).1
        (List.replicate 14 0)
        (set_bias
          (init datasheet regBus driver0 AFS_4G GFS_500DPS MFS_16BITS 6 false idWorld).2.1
          quarter3 half3 zero3
          (init datasheet regBus driver0 AFS_4G GFS_500DPS MFS_16BITS 6 false idWorld).2.2).2).2 :=
  resolutions_synced datasheet datasheet_distinct _ _
    (Reach.update _ _ _
      (Reach.set_bias _ _ _ _ _
        (Reach.init driver0 idWorld AFS_4G GFS_500DPS MFS_16BITS 6 false (by decide)
          (Or.inr (Or.inl rfl)) (Or.inr (Or.inl rfl)))))

/-! ## C13: the gravity step of the static bias calibration -/

/-- C13: when `calibrate_still_bias` drains a non-empty packet sequence whose truncated
accelerometer z average is `m`, the z component of `newAccelBias` is `(m - 16384)/16384`
when `m > 0` and `(m + 16384)/16384` when `m < 0`; when `m = 0` the add branch is taken
and the reported bias is `+1` g. -/
theorem calibrate_gravity_sign {σ : Type} (R : Regs) (B : Bus σ) (self : MPU9250)
    (w : World σ) (hne : (calibrate_collect R B self w).acc.packets ≠ []) :
    (0 < avg 2 (calibrate_collect R B self w).acc.packets →
      (calibrate_still_bias R B self w).map (fun b => b.1.z)
        = some (FP.fin
            (((avg 2 (calibrate_collect R B self w).acc.packets - 16384 : Int) : ℚ)
              / 16384))) ∧
    (avg 2 (calibrate_collect R B self w).acc.packets < 0 →
      (calibrate_still_bias R B self w).map (fun b => b.1.z)
        = some (FP.fin
            (((avg 2 (calibrate_collect R B self w).acc.packets + 16384 : Int) : ℚ)
              / 16384))) ∧
    (avg 2 (calibrate_collect R B self w).acc.packets = 0 →
      (calibrate_still_bias R B self w).map (fun b => b.1.z) = some (FP.fin 1)) := by
  have hpos : 1 ≤ (calibrate_collect R B self w).acc.packets.length := by
    cases h : (calibrate_collect R B self w).acc.packets with
    | nil => exact absurd h hne
    | cons a t => simp
  have hc : 1 ≤ (calibrate_collect R B self w).packet_count := by
    rw [← (calibrate_collect_exact R B self w).2.1]; exact hpos
  rw [calibrate_still_bias_eq R B self w hc]
  simp only [Option.map_some', Option.some.injEq]
  refine ⟨?_, ?_, ?_⟩
  · intro h
    rw [gravity_free, if_pos h]
  · intro h
    rw [gravity_free, if_neg (by omega)]
  · intro h
    rw [gravity_free, if_neg (by omega), h]
    norm_num

/-- C13 at `m = 0`: one FIFO packet with all counts `0` gives an accelerometer z bias of
`+1` g. -/
theorem calibrate_gravity_sign_witness :
    (calibrate_still_bias datasheet scriptBus driver0 fifoZeroWorld).map (fun b => b.1.z)
      = some (FP.fin 1) :=
  (calibrate_gravity_sign datasheet scriptBus driver0 fifoZeroWorld (by decide)).2.2
    (by decide)

/-! ## C15: the packet count of the static bias calibration -/

theorem readBytes_length {σ : Type} (B : Bus σ) (address subAddress count : Nat)
    (dest : List Nat) (w : World σ) (hc : count ≤ dest.length) :
    (readBytes B address subAddress count dest w).1.length = dest.length := by
  unfold readBytes
  simp only [List.length_append, List.length_map, List.length_take, List.length_drop]
  omega

theorem readBytes_lt {σ : Type} (B : Bus σ) (address subAddress count : Nat)
    (dest : List Nat) (w : World σ) (hd : ∀ b ∈ dest, b < 256) :
    ∀ b ∈ (readBytes B address subAddress count dest w).1, b < 256 := by
  intro b hb
  unfold readBytes at hb
  rcases List.mem_append.mp hb with h | h
  · obtain ⟨a, _, rfl⟩ := List.mem_map.mp h
    exact Nat.mod_lt _ (by decide)
  · exact hd b (List.mem_of_mem_drop h)

theorem fifo_loop_lengths {σ : Type} (R : Regs) (B : Bus σ) (addr : Nat) (n : Nat) :
    ∀ s : FifoAcc σ, s.data.length = 12 → (∀ p ∈ s.packets, p.length = 12) →
      (fifo_loop R B addr n s).data.length = 12 ∧
      ∀ p ∈ (fifo_loop R B addr n s).packets, p.length = 12 := by
  induction n with
  | zero => intro s hd hp; exact ⟨hd, hp⟩
  | succ n ih =>
    intro s hd hp
    have hl : (readBytes B addr R.FIFO_R_W 12 s.data s.w).1.length = 12 := by
      rw [readBytes_length B addr R.FIFO_R_W 12 s.data s.w (by omega), hd]
    apply ih (fifo_step R B addr s) hl
    intro p hmem
    rw [fifo_step_packets] at hmem
    rcases List.mem_append.mp hmem with h | h
    · exact hp p h
    · rw [List.mem_singleton] at h
      rw [h]; exact hl

/-- The byte count formed at line 322 is the big-endian value of the two bytes read. -/
theorem calibrate_fifo_count {σ : Type} (R : Regs) (B : Bus σ) (self : MPU9250)
    (w : World σ) :
    (calibrate_collect R B self w).fifo_count
      = byteAt (calibrate_setup R B self w).1 0 * 256
        + byteAt (calibrate_setup R B self w).1 1 ∧
    (calibrate_collect R B self w).fifo_count < 65536 := by
  have hb : ∀ b ∈ (calibrate_setup R B self w).1, b < 256 := by
    unfold calibrate_setup
    apply readBytes_lt
    intro b hb
    rw [List.mem_replicate] at hb
    omega
  have h0 := byteAt_lt hb 0
  have h1 := byteAt_lt hb 1
  have e : (calibrate_collect R B self w).fifo_count
      = ((byteAt (calibrate_setup R B self w).1 0 <<< 8)
          ||| byteAt (calibrate_setup R B self w).1 1) % 65536 := rfl
  rw [e, shift_or_bytes _ h1]
  constructor <;> omega

/-- C15: in `calibrate_still_bias` the FIFO count is the big-endian 16-bit value of the two
bytes read from the device, the packet count is `fifo_count / 12` rounded down, exactly
that many 12-byte packets are drained, the averaging divisor is non-zero exactly when
`fifo_count ≥ 12`, and for every `fifo_count < 12` the averaging divisions divide by zero
and the routine has no result. -/
theorem calibrate_packet_count {σ : Type} (R : Regs) (B : Bus σ) (self : MPU9250)
    (w : World σ) :
    ((calibrate_collect R B self w).fifo_count
        = byteAt (calibrate_setup R B self w).1 0 * 256
          + byteAt (calibrate_setup R B self w).1 1 ∧
      (calibrate_collect R B self w).fifo_count < 65536) ∧
    (calibrate_collect R B self w).packet_count
      = (calibrate_collect R B self w).fifo_count / 12 ∧
    ((calibrate_collect R B self w).acc.packets.length
        = (calibrate_collect R B self w).packet_count ∧
      ∀ p ∈ (calibrate_collect R B self w).acc.packets, p.length = 12) ∧
    ((calibrate_collect R B self w).packet_count ≠ 0
      ↔ 12 ≤ (calibrate_collect R B self w).fifo_count) ∧
    ((calibrate_collect R B self w).fifo_count < 12 →
      calibrate_still_bias R B self w = none) ∧
    (12 ≤ (calibrate_collect R B self w).fifo_count →
      (calibrate_still_bias R B self w).isSome = true) := by
  obtain ⟨_, hlen, _, hpc⟩ := calibrate_collect_exact R B self w
  have hl : (calibrate_setup R B self w).1.length = 12 := by
    unfold calibrate_setup
    rw [readBytes_length _ _ _ 2 _ _ (by simp)]
    simp
  have hpk : ∀ p ∈ (calibrate_collect R B self w).acc.packets, p.length = 12 :=
    (fifo_loop_lengths R B self.MPU9250_ADDRESS _
      { data := (calibrate_setup R B self w).1, accel_bias := ⟨0, 0, 0⟩,
        gyro_bias := ⟨0, 0, 0⟩, packets := [], w := (calibrate_setup R B self w).2 }
      hl (by intro p hp; cases hp)).2
  refine ⟨calibrate_fifo_count R B self w, hpc, ⟨hlen, hpk⟩, by omega, ?_, ?_⟩
  · intro h
    have h0 : (calibrate_collect R B self w).packet_count = 0 := by omega
    unfold calibrate_still_bias still_bias
    simp only [h0, if_true, Option.map_none']
  · intro h
    rw [calibrate_still_bias_eq R B self w (by omega)]
    rfl

/-- C15 on two scripted devices: a FIFO count of `11` gives no result, a FIFO count of
`12` gives one. -/
theorem calibrate_packet_count_witness :
    calibrate_still_bias datasheet scriptBus driver0 fifoShortWorld = none ∧
    (calibrate_still_bias datasheet scriptBus driver0 fifoZeroWorld).isSome = true :=
  ⟨(calibrate_packet_count datasheet scriptBus driver0 fifoShortWorld).2.2.2.2.1 (by decide),
    (calibrate_packet_count datasheet scriptBus driver0 fifoZeroWorld).2.2.2.2.2 (by decide)⟩

/-! ## C14: the 32-bit accumulators never wrap -/

theorem fifo_start_eq {σ : Type} (R : Regs) (B : Bus σ) (self : MPU9250) (w : World σ) :
    (calibrate_collect R B self w).acc
      = fifo_loop R B self.MPU9250_ADDRESS (calibrate_collect R B self w).packet_count
          (fifo_start R B self w) := rfl

theorem baseline_start_eq {σ : Type} (R : Regs) (B : Bus σ) (self : MPU9250) (w : World σ) :
    self_test_baseline R B self w
      = sample_loop R B self.MPU9250_ADDRESS 200 (baseline_start R B self w) := rfl

theorem excited_start_eq {σ : Type} (R : Regs) (B : Bus σ) (self : MPU9250)
    (s : SampleAcc σ) :
    self_test_excited R B self s
      = sample_loop R B self.MPU9250_ADDRESS 200 (excited_start R B self s) := rfl

theorem fifo_loop_succ {σ : Type} (R : Regs) (B : Bus σ) (addr : Nat) (n : Nat) :
    ∀ s : FifoAcc σ,
      fifo_loop R B addr (n + 1) s = fifo_step R B addr (fifo_loop R B addr n s) := by
  induction n with
  | zero => intro s; rfl
  | succ n ih =>
    intro s
    show fifo_loop R B addr (n + 1) (fifo_step R B addr s) = _
    rw [ih (fifo_step R B addr s)]
    rfl

theorem sample_loop_succ {σ : Type} (R : Regs) (B : Bus σ) (addr : Nat) (n : Nat) :
    ∀ s : SampleAcc σ,
      sample_loop R B addr (n + 1) s = sample_step R B addr (sample_loop R B addr n s) := by
  induction n with
  | zero => intro s; rfl
  | succ n ih =>
    intro s
    show sample_loop R B addr (n + 1) (sample_step R B addr s) = _
    rw [ih (sample_step R B addr s)]
    rfl

/-- The sums of at most 65535 signed 16-bit samples lie in the range of `int32_t`. -/
theorem colSums_fit (j0 j1 j2 : Nat) (ps : List (List Nat)) (hlen : ps.length ≤ 65535) :
    Fits32 ⟨colSum j0 ps, colSum j1 ps, colSum j2 ps⟩ := by
  have h0 := colSum_bound j0 ps
  have h1 := colSum_bound j1 ps
  have h2 := colSum_bound j2 ps
  have hl : (ps.length : Int) ≤ 65535 := by exact_mod_cast hlen
  refine ⟨⟨?_, ?_⟩, ⟨?_, ?_⟩, ⟨?_, ?_⟩⟩ <;> simp only <;> omega

theorem fifo_start_exact {σ : Type} (R : Regs) (B : Bus σ) (self : MPU9250) (w : World σ) :
    SumsExact (fifo_start R B self w) := ⟨rfl, rfl⟩

theorem baseline_start_exact {σ : Type} (R : Regs) (B : Bus σ) (self : MPU9250)
    (w : World σ) : SamplesExact (baseline_start R B self w) := ⟨rfl, rfl⟩

theorem excited_start_exact {σ : Type} (R : Regs) (B : Bus σ) (self : MPU9250)
    (s : SampleAcc σ) : SamplesExact (excited_start R B self s) := ⟨rfl, rfl⟩

/-- A sampling loop of at most 65535 passes from empty accumulators: the accumulators are
the mathematical sums of the blocks read, and these sums fit in 32 bits. -/
theorem sample_loop_fits {σ : Type} (R : Regs) (B : Bus σ) (addr : Nat) (s0 : SampleAcc σ)
    (h0 : SamplesExact s0) (ha : s0.aReads = []) (hg : s0.gReads = []) (i : Nat)
    (hi : i ≤ 65535) :
    SamplesExact (sample_loop R B addr i s0) ∧
    Fits32 ⟨colSum 0 (sample_loop R B addr i s0).aReads,
      colSum 1 (sample_loop R B addr i s0).aReads,
      colSum 2 (sample_loop R B addr i s0).aReads⟩ ∧
    Fits32 ⟨colSum 0 (sample_loop R B addr i s0).gReads,
      colSum 1 (sample_loop R B addr i s0).gReads,
      colSum 2 (sample_loop R B addr i s0).gReads⟩ := by
  obtain ⟨h1, h2, h3⟩ := sample_loop_exact R B addr i s0 h0
    (by rw [ha]; simpa using hi) (by rw [hg]; simpa using hi)
  rw [ha] at h2
  rw [hg] at h3
  simp only [List.length_nil, Nat.zero_add] at h2 h3
  exact ⟨h1, colSums_fit 0 1 2 _ (by omega), colSums_fit 0 1 2 _ (by omega)⟩

/-- C14: for every FIFO byte count the device can report and every sequence of samples, at
every step `i` of the FIFO loop of `calibrate_still_bias` the six 32-bit accumulators are
the mathematical sums of the samples of the `i` packets read so far, and these sums lie in
the signed 32-bit range, so no addition wraps; the same holds at every step of the two
200-pass sampling loops of `self_test`.  (The state after `i + 1` passes is one loop body
applied to the state after `i` passes.) -/
theorem accumulators_exact {σ : Type} (R : Regs) (B : Bus σ) (self : MPU9250)
    (w : World σ) :
    (∀ i, i ≤ (calibrate_collect R B self w).packet_count →
      SumsExact (fifo_loop R B self.MPU9250_ADDRESS i (fifo_start R B self w)) ∧
      Fits32 ⟨colSum 0 (fifo_loop R B self.MPU9250_ADDRESS i (fifo_start R B self w)).packets,
        colSum 1 (fifo_loop R B self.MPU9250_ADDRESS i (fifo_start R B self w)).packets,
        colSum 2 (fifo_loop R B self.MPU9250_ADDRESS i (fifo_start R B self w)).packets⟩ ∧
      Fits32 ⟨colSum 3 (fifo_loop R B self.MPU9250_ADDRESS i (fifo_start R B self w)).packets,
        colSum 4 (fifo_loop R B self.MPU9250_ADDRESS i (fifo_start R B self w)).packets,
        colSum 5 (fifo_loop R B self.MPU9250_ADDRESS i (fifo_start R B self w)).packets⟩ ∧
      fifo_loop R B self.MPU9250_ADDRESS (i + 1) (fifo_start R B self w)
        = fifo_step R B self.MPU9250_ADDRESS
            (fifo_loop R B self.MPU9250_ADDRESS i (fifo_start R B self w))) ∧
    (∀ i, i ≤ 200 →
      SamplesExact (sample_loop R B self.MPU9250_ADDRESS i (baseline_start R B self w)) ∧
      Fits32 ⟨colSum 0 (sample_loop R B self.MPU9250_ADDRESS i
          (baseline_start R B self w)).aReads,
        colSum 1 (sample_loop R B self.MPU9250_ADDRESS i (baseline_start R B self w)).aReads,
        colSum 2 (sample_loop R B self.MPU9250_ADDRESS i
          (baseline_start R B self w)).aReads⟩ ∧
      Fits32 ⟨colSum 0 (sample_loop R B self.MPU9250_ADDRESS i
          (baseline_start R B self w)).gReads,
        colSum 1 (sample_loop R B self.MPU9250_ADDRESS i (baseline_start R B self w)).gReads,
        colSum 2 (sample_loop R B self.MPU9250_ADDRESS i
          (baseline_start R B self w)).gReads⟩ ∧
      sample_loop R B self.MPU9250_ADDRESS (i + 1) (baseline_start R B self w)
        = sample_step R B self.MPU9250_ADDRESS
            (sample_loop R B self.MPU9250_ADDRESS i (baseline_start R B self w))) ∧
    (∀ i, i ≤ 200 →
      SamplesExact (sample_loop R B self.MPU9250_ADDRESS i
        (excited_start R B self (self_test_baseline R B self w))) ∧
      Fits32 ⟨colSum 0 (sample_loop R B self.MPU9250_ADDRESS i
          (excited_start R B self (self_test_baseline R B self w))).aReads,
        colSum 1 (sample_loop R B self.MPU9250_ADDRESS i
          (excited_start R B self (self_test_baseline R B self w))).aReads,
        colSum 2 (sample_loop R B self.MPU9250_ADDRESS i
          (excited_start R B self (self_test_baseline R B self w))).aReads⟩ ∧
      Fits32 ⟨colSum 0 (sample_loop R B self.MPU9250_ADDRESS i
          (excited_start R B self (self_test_baseline R B self w))).gReads,
        colSum 1 (sample_loop R B self.MPU9250_ADDRESS i
          (excited_start R B self (self_test_baseline R B self w))).gReads,
        colSum 2 (sample_loop R B self.MPU9250_ADDRESS i
          (excited_start R B self (self_test_baseline R B self w))).gReads⟩ ∧
      sample_loop R B self.MPU9250_ADDRESS (i + 1)
          (excited_start R B self (self_test_baseline R B self w))
        = sample_step R B self.MPU9250_ADDRESS
            (sample_loop R B self.MPU9250_ADDRESS i
              (excited_start R B self (self_test_baseline R B self w)))) := by
  have hpc := (calibrate_collect_exact R B self w).2.2.1
  refine ⟨?_, ?_, ?_⟩
  · intro i hi
    obtain ⟨h1, h2⟩ := fifo_loop_exact R B self.MPU9250_ADDRESS i (fifo_start R B self w)
      (fifo_start_exact R B self w) (by show 0 + i ≤ 65535; omega)
    have hl : (fifo_loop R B self.MPU9250_ADDRESS i (fifo_start R B self w)).packets.length
        = i := by
      rw [h2]; show 0 + i = i; omega
    exact ⟨h1, colSums_fit 0 1 2 _ (by omega), colSums_fit 3 4 5 _ (by omega),
      fifo_loop_succ R B _ i _⟩
  · intro i hi
    obtain ⟨h1, h2, h3⟩ := sample_loop_fits R B self.MPU9250_ADDRESS
      (baseline_start R B self w) (baseline_start_exact R B self w) rfl rfl i (by omega)
    exact ⟨h1, h2, h3, sample_loop_succ R B _ i _⟩
  · intro i hi
    obtain ⟨h1, h2, h3⟩ := sample_loop_fits R B self.MPU9250_ADDRESS
      (excited_start R B self (self_test_baseline R B self w))
      (excited_start_exact R B self _) rfl rfl i (by omega)
    exact ⟨h1, h2, h3, sample_loop_succ R B _ i _⟩

/-- C14 on the scripted FIFO with 40 gravity packets: after all 40 passes the
accelerometer z accumulator holds the mathematical sum `40 * 16384 = 655360`. -/
theorem accumulators_exact_witness :
    SumsExact (fifo_loop datasheet scriptBus driver0.MPU9250_ADDRESS 40
      (fifo_start datasheet scriptBus driver0 fifo40World)) ∧
    colSum 2 (fifo_loop datasheet scriptBus driver0.MPU9250_ADDRESS 40
      (fifo_start datasheet scriptBus driver0 fifo40World)).packets = 655360 :=
  ⟨((accumulators_exact datasheet scriptBus driver0 fifo40World).1 40 (by decide)).1,
    by decide⟩


/-! ## C11: the results of the self test -/

/-- Each sampling loop of `self_test` reads 200 blocks of each sensor. -/
theorem self_test_reads_length {σ : Type} (R : Regs) (B : Bus σ) (pow : FP → FP → FP)
    (self : MPU9250) (w : World σ) :
    (self_test_run R B pow self w).baseline.aReads.length = 200 ∧
    (self_test_run R B pow self w).baseline.gReads.length = 200 ∧
    (self_test_run R B pow self w).excited.aReads.length = 200 ∧
    (self_test_run R B pow self w).excited.gReads.length = 200 := by
  simp only [self_test_run]
  exact ⟨(sample_loop_avg R B self.MPU9250_ADDRESS _ rfl rfl rfl rfl).1,
    (sample_loop_avg R B self.MPU9250_ADDRESS _ rfl rfl rfl rfl).2.1,
    (sample_loop_avg R B self.MPU9250_ADDRESS _ rfl rfl rfl rfl).1,
    (sample_loop_avg R B self.MPU9250_ADDRESS _ rfl rfl rfl rfl).2.1⟩

theorem avg_of_200 (j : Nat) (reads : List (List Nat)) (h : reads.length = 200) :
    avg j reads = Int.tdiv (colSum j reads) 200 := by
  unfold avg
  rw [h]
  rfl

/-- A percent deviation computed from the averages of two runs of 200 blocks with the
factory trim of a byte-sized code: the conversions and the product with `100` are exact,
and four operations round. -/
theorem percent_deviation_float (pow : FP → FP → FP) (exc base : List (List Nat))
    (j code : Nat) (he : exc.length = 200) (hb : base.length = 200) (hc : code < 256) :
    percent_deviation (avg j exc) (avg j base) (factory_trim pow 0 code)
      = float_result pow exc base j code := by
  have h1 := avg_bound j exc
  have h2 := avg_bound j base
  rw [percent_deviation_eq _ _ (avg j exc - avg j base) _
    (toInt32_of_range (by omega) (by omega)) (by omega) (by omega),
    factory_trim_eq pow code hc, avg_of_200 j exc he, avg_of_200 j base hb]
  rfl

/-- The six results of `self_test` in terms of the blocks and the codes read. -/
theorem self_test_results_float {σ : Type} (R : Regs) (B : Bus σ) (pow : FP → FP → FP)
    (self : MPU9250) (w : World σ) :
    (self_test R B pow self w).1
      = [float_result pow (self_test_run R B pow self w).excited.aReads
            (self_test_run R B pow self w).baseline.aReads 0
            ((self_test_run R B pow self w).selfTest.getD 0 0),
         float_result pow (self_test_run R B pow self w).excited.aReads
            (self_test_run R B pow self w).baseline.aReads 1
            ((self_test_run R B pow self w).selfTest.getD 1 0),
         float_result pow (self_test_run R B pow self w).excited.aReads
            (self_test_run R B pow self w).baseline.aReads 2
            ((self_test_run R B pow self w).selfTest.getD 2 0),
         float_result pow (self_test_run R B pow self w).excited.gReads
            (self_test_run R B pow self w).baseline.gReads 0
            ((self_test_run R B pow self w).selfTest.getD 3 0),
         float_result pow (self_test_run R B pow self w).excited.gReads
            (self_test_run R B pow self w).baseline.gReads 1
            ((self_test_run R B pow self w).selfTest.getD 4 0),
         float_result pow (self_test_run R B pow self w).excited.gReads
            (self_test_run R B pow self w).baseline.gReads 2
            ((self_test_run R B pow self w).selfTest.getD 5 0)] := by
  obtain ⟨l1, l2, l3, l4⟩ := self_test_reads_length R B pow self w
  obtain ⟨a1, a2, a3, a4⟩ := self_test_avgs R B pow self w
  have e : (self_test R B pow self w).1 = (self_test_run R B pow self w).results := rfl
  rw [e, self_test_results, a1, a2, a3, a4,
    self_test_trim R B pow self w 0 (by decide), self_test_trim R B pow self w 1 (by decide),
    self_test_trim R B pow self w 2 (by decide), self_test_trim R B pow self w 3 (by decide),
    self_test_trim R B pow self w 4 (by decide), self_test_trim R B pow self w 5 (by decide)]
  simp only [percent_deviation_float pow _ _ _ _ l3 l1 (self_test_code_lt R B pow self w _),
    percent_deviation_float pow _ _ _ _ l4 l2 (self_test_code_lt R B pow self w _)]

/-- C11, amended: whatever the device answers and whatever `pow` returns, `self_test`
reads six 8-bit trim codes and two runs of 200 blocks per sensor, and reports, for each of
the six channels, the `float` nearest to the `double` difference of the `double` quotient
`100 * (excitedAvg - baselineAvg) / trim` and `100`, where each average is the sum of the
200 signed 16-bit samples divided by 200 with truncation toward zero and `trim` is the
`float` nearest to the `double` product of `2620` and `pow(1.01, code - 1)` (the factory
trim formula at `FS = 0`, with `1.01` the nearest `double`). -/
theorem self_test_formula {σ : Type} (R : Regs) (B : Bus σ) (pow : FP → FP → FP)
    (self : MPU9250) (w : World σ) :
    ((self_test_run R B pow self w).baseline.aReads.length = 200 ∧
      (self_test_run R B pow self w).baseline.gReads.length = 200 ∧
      (self_test_run R B pow self w).excited.aReads.length = 200 ∧
      (self_test_run R B pow self w).excited.gReads.length = 200) ∧
    ((self_test_run R B pow self w).selfTest.length = 6 ∧
      ∀ c ∈ (self_test_run R B pow self w).selfTest, c < 256) ∧
    (self_test R B pow self w).1
      = [float_result pow (self_test_run R B pow self w).excited.aReads
            (self_test_run R B pow self w).baseline.aReads 0
            ((self_test_run R B pow self w).selfTest.getD 0 0),
         float_result pow (self_test_run R B pow self w).excited.aReads
            (self_test_run R B pow self w).baseline.aReads 1
            ((self_test_run R B pow self w).selfTest.getD 1 0),
         float_result pow (self_test_run R B pow self w).excited.aReads
            (self_test_run R B pow self w).baseline.aReads 2
            ((self_test_run R B pow self w).selfTest.getD 2 0),
         float_result pow (self_test_run R B pow self w).excited.gReads
            (self_test_run R B pow self w).baseline.gReads 0
            ((self_test_run R B pow self w).selfTest.getD 3 0),
         float_result pow (self_test_run R B pow self w).excited.gReads
            (self_test_run R B pow self w).baseline.gReads 1
            ((self_test_run R B pow self w).selfTest.getD 4 0),
         float_result pow (self_test_run R B pow self w).excited.gReads
            (self_test_run R B pow self w).baseline.gReads 2
            ((self_test_run R B pow self w).selfTest.getD 5 0)] := by
  have hcodes : (self_test_run R B pow self w).selfTest
      = (self_test_codes R B self
          (self_test_excited R B self (self_test_baseline R B self w)).w).1 := rfl
  refine ⟨self_test_reads_length R B pow self w, ⟨self_test_codes_length R B self _, ?_⟩,
    self_test_results_float R B pow self w⟩
  rw [hcodes]
  exact self_test_codes_lt R B self _

theorem tdiv200_replicate (j : Nat) (blk : List Nat) :
    Int.tdiv (colSum j (List.replicate 200 blk)) 200 = sample j blk := by
  rw [← avg_of_200 j _ (List.length_replicate 200 blk)]
  exact avg_replicate j blk 200 (by decide)

/-- The blocks and codes that `self_test` reads on a scripted device that answers the 400
baseline reads with `base`, the 400 excited reads with `exc` and the six code reads with
`c`. -/
theorem script_self_test_reads (R : Regs) (pow : FP → FP → FP) (self : MPU9250)
    (w : World (List (List Nat))) (base exc : List Nat) (c : Nat) (hbase : base.length = 6)
    (hexc : exc.length = 6) (hb : ∀ b ∈ base, b < 256) (he : ∀ b ∈ exc, b < 256)
    (hc : c < 256)
    (hdev : w.dev = List.replicate 400 base
      ++ (List.replicate 400 exc ++ List.replicate 6 [c])) :
    (self_test_run R scriptBus pow self w).baseline.aReads = List.replicate 200 base ∧
    (self_test_run R scriptBus pow self w).baseline.gReads = List.replicate 200 base ∧
    (self_test_run R scriptBus pow self w).excited.aReads = List.replicate 200 exc ∧
    (self_test_run R scriptBus pow self w).excited.gReads = List.replicate 200 exc ∧
    (self_test_run R scriptBus pow self w).selfTest = [c, c, c, c, c, c] := by
  obtain ⟨b1, b2, b3, b4⟩ := script_baseline R self w base _ hbase hb hdev
  obtain ⟨x1, x2, _, _⟩ := script_excited R self (self_test_baseline R scriptBus self w)
    exc _ hexc he b4 b3
  have h5 := (script_self_test R pow self w base exc c hbase hexc hb he hc hdev).2.2.2.2
  have eb : (self_test_run R scriptBus pow self w).baseline
      = self_test_baseline R scriptBus self w := rfl
  have ee : (self_test_run R scriptBus pow self w).excited
      = self_test_excited R scriptBus self (self_test_baseline R scriptBus self w) := rfl
  rw [eb, ee]
  exact ⟨b1, b2, x1, x2, h5⟩

/-- The factory trim of the code `0` with the correctly rounded `pow`. -/
theorem float_trim_0 : float_trim refPow 0 = FP.fin (10625267 / 4096) := by
  have hp : refPow (FP.fin double_1_01) (FP.fin ((0 : Nat) - 1))
      = FP.fin (1114752383012499 / 1125899906842624) := by
    have e : (((0 : Nat) : ℚ) - 1) = ((-1 : Int) : ℚ) := by norm_num
    rw [e, refPow_int _ (-1) (by norm_num [double_1_01])]
    have h := round_eval 53 (-1074) 1024 (double_1_01 ^ (-1 : Int)) (-1) (-53)
      8918019064099992
      (by norm_num [double_1_01, abs_of_pos]) (by norm_num [double_1_01, abs_of_pos])
      (by norm_num) (by norm_num [double_1_01]) (by norm_num [double_1_01])
      (by norm_num [abs_of_pos])
    rw [FP.f64, h]
    norm_num
  have hm : FP.f64 (2620 * (1114752383012499 / 1125899906842624))
      = FP.fin (1426099239986693 / 549755813888) := by
    have h := round_eval 53 (-1074) 1024 (2620 * (1114752383012499 / 1125899906842624))
      11 (-41) 5704396959946772
      (by norm_num [abs_of_pos]) (by norm_num [abs_of_pos])
      (by norm_num) (by norm_num) (by norm_num) (by norm_num [abs_of_pos])
    rw [FP.f64, h]
    norm_num
  have hf : FP.f32 (1426099239986693 / 549755813888) = FP.fin (10625267 / 4096) := by
    have h := round_eval 24 (-149) 128 (1426099239986693 / 549755813888) 11 (-12) 10625267
      (by norm_num [abs_of_pos]) (by norm_num [abs_of_pos])
      (by norm_num) (by norm_num) (by norm_num) (by norm_num [abs_of_pos])
    rw [FP.f32, h]
    norm_num
  unfold float_trim
  rw [hp, mul_fin, hm, cvt_fin, hf]

/-- The factory trim of the code `1` with the correctly rounded `pow`: `2620`. -/
theorem float_trim_1 : float_trim refPow 1 = FP.fin 2620 := by
  have hp : refPow (FP.fin double_1_01) (FP.fin ((1 : Nat) - 1)) = FP.fin 1 := by
    have e : (((1 : Nat) : ℚ) - 1) = ((0 : Int) : ℚ) := by norm_num
    rw [e, refPow_int _ 0 (by norm_num [double_1_01]), zpow_zero]
    have h := f64_int 1 (by norm_num)
    simpa using h
  have hm : FP.f64 (2620 * 1) = FP.fin 2620 := by
    have h := f64_int 2620 (by norm_num)
    norm_num at h ⊢
    exact h
  have hf : FP.f32 2620 = FP.fin 2620 := by
    have h := f32_int 2620 (by norm_num)
    simpa using h
  unfold float_trim
  rw [hp, mul_fin, hm, cvt_fin, hf]

/-- The result that `self_test` computes from the difference `2620` and the factory trim
of the code `0`: the quotient, the difference with `100` and the conversion to `float`
round. -/
theorem float_result_code0 :
    FP.cvt FP.f32
        (FP.sub FP.f64
          (FP.div FP.f64 (FP.fin (100 * (((2620 - 0 : Int)) : ℚ))) (FP.fin (10625267 / 4096)))
          (FP.fin 100))
      = FP.fin (4194317 / 4194304) := by
  have hq : FP.f64 (100 * (((2620 - 0 : Int)) : ℚ) / (10625267 / 4096))
      = FP.fin (7107243380495613 / 70368744177664) := by
    have h := round_eval 53 (-1074) 1024 (100 * (((2620 - 0 : Int)) : ℚ) / (10625267 / 4096))
      6 (-46) 7107243380495613
      (by norm_num [abs_of_pos]) (by norm_num [abs_of_pos])
      (by norm_num) (by norm_num) (by norm_num) (by norm_num [abs_of_pos])
    rw [FP.f64, h]
    norm_num
  have hs : FP.f64 (7107243380495613 / 70368744177664 - 100)
      = FP.fin (70368962729213 / 70368744177664) := by
    have h := round_eval 53 (-1074) 1024 (7107243380495613 / 70368744177664 - 100)
      0 (-52) 4503613614669632
      (by norm_num [abs_of_pos]) (by norm_num [abs_of_pos])
      (by norm_num) (by norm_num) (by norm_num) (by norm_num [abs_of_pos])
    rw [FP.f64, h]
    norm_num
  have hf : FP.f32 (70368962729213 / 70368744177664) = FP.fin (4194317 / 4194304) := by
    have h := round_eval 24 (-149) 128 (70368962729213 / 70368744177664) 0 (-23) 8388634
      (by norm_num [abs_of_pos]) (by norm_num [abs_of_pos])
      (by norm_num) (by norm_num) (by norm_num) (by norm_num [abs_of_pos])
    rw [FP.f32, h]
    norm_num
  rw [div_fin _ _ _ (by norm_num), hq, sub_fin, hs, cvt_fin, hf]

/-- C11 as stated fails: on the scripted device with baseline counts `0`, excited counts
`2620` and trim codes `0`, with the correctly rounded `pow`, the formula of the claim
gives `100 * 2620 / (2620 * 1.01^(-1)) - 100 = 1`, while `self_test` reports the `float`
`4194317/4194304` for accelerometer x: the factory trim is the `float` `10625267/4096` and
not `2620/1.01`. -/
theorem self_test_rounding_counterexample :
    (self_test_run datasheet scriptBus refPow driver0 selfTestWorld0).selfTest.getD 0 0 = 0 ∧
    spec_result (self_test_run datasheet scriptBus refPow driver0 selfTestWorld0).excited.aReads
        (self_test_run datasheet scriptBus refPow driver0 selfTestWorld0).baseline.aReads 0
        ((self_test_run datasheet scriptBus refPow driver0 selfTestWorld0).selfTest.getD 0 0)
      = 1 ∧
    (self_test datasheet scriptBus refPow driver0 selfTestWorld0).1.getD 0 FP.nan
      = FP.fin (4194317 / 4194304) ∧
    (self_test datasheet scriptBus refPow driver0 selfTestWorld0).1.getD 0 FP.nan
      ≠ FP.fin (spec_result
          (self_test_run datasheet scriptBus refPow driver0 selfTestWorld0).excited.aReads
          (self_test_run datasheet scriptBus refPow driver0 selfTestWorld0).baseline.aReads 0
          ((self_test_run datasheet scriptBus refPow driver0 selfTestWorld0).selfTest.getD
            0 0)) := by
  obtain ⟨r1, _, r3, _, r5⟩ := script_self_test_reads datasheet refPow driver0 selfTestWorld0
    [0, 0, 0, 0, 0, 0] [0x0A, 0x3C, 0x0A, 0x3C, 0x0A, 0x3C] 0 rfl rfl (by decide) (by decide)
    (by decide) rfl
  have s0 : sample 0 [0x0A, 0x3C, 0x0A, 0x3C, 0x0A, 0x3C] = 2620 := by decide
  have z0 : sample 0 [0, 0, 0, 0, 0, 0] = 0 := by decide
  have hc : [0, 0, 0, 0, 0, 0].getD 0 0 = 0 := rfl
  have hspec : spec_result (List.replicate 200 [0x0A, 0x3C, 0x0A, 0x3C, 0x0A, 0x3C])
      (List.replicate 200 [0, 0, 0, 0, 0, 0]) 0 0 = 1 := by
    simp only [spec_result, tdiv200_replicate, s0, z0]
    norm_num
  have hres : (self_test datasheet scriptBus refPow driver0 selfTestWorld0).1.getD 0 FP.nan
      = FP.fin (4194317 / 4194304) := by
    rw [self_test_results_float, (six_getD _ _ _ _ _ _ FP.nan).1, r1, r3, r5, hc]
    unfold float_result
    rw [tdiv200_replicate, tdiv200_replicate, s0, z0, float_trim_0, float_result_code0]
  rw [hres, r1, r3, r5, hc, hspec]
  refine ⟨rfl, rfl, rfl, ?_⟩
  intro h
  injection h with h
  norm_num at h

/-- C11, amended, on the scripted self-test device (baseline counts `0`, excited counts
`2620`, codes `1`) with the correctly rounded `pow`: the trim is `2620` and all six
reported deviations are `0`. -/
theorem self_test_formula_witness :
    (self_test datasheet scriptBus refPow driver0 selfTestWorld).1
      = [FP.fin 0, FP.fin 0, FP.fin 0, FP.fin 0, FP.fin 0, FP.fin 0] := by
  rw [(self_test_formula datasheet scriptBus refPow driver0 selfTestWorld).2.2]
  obtain ⟨r1, r2, r3, r4, r5⟩ := script_self_test_reads datasheet refPow driver0 selfTestWorld
    [0, 0, 0, 0, 0, 0] [0x0A, 0x3C, 0x0A, 0x3C, 0x0A, 0x3C] 1 rfl rfl (by decide) (by decide)
    (by decide) rfl
  rw [r1, r2, r3, r4, r5]
  have s0 : sample 0 [0x0A, 0x3C, 0x0A, 0x3C, 0x0A, 0x3C] = 2620 := by decide
  have s1 : sample 1 [0x0A, 0x3C, 0x0A, 0x3C, 0x0A, 0x3C] = 2620 := by decide
  have s2 : sample 2 [0x0A, 0x3C, 0x0A, 0x3C, 0x0A, 0x3C] = 2620 := by decide
  have z0 : sample 0 [0, 0, 0, 0, 0, 0] = 0 := by decide
  have z1 : sample 1 [0, 0, 0, 0, 0, 0] = 0 := by decide
  have z2 : sample 2 [0, 0, 0, 0, 0, 0] = 0 := by decide
  have e100 : FP.f64 100 = FP.fin 100 := by
    have h := f64_int 100 (by norm_num)
    simpa using h
  have hr : FP.cvt FP.f32
      (FP.sub FP.f64 (FP.div FP.f64 (FP.fin (100 * (((2620 - 0 : Int)) : ℚ))) (FP.fin 2620))
        (FP.fin 100)) = FP.fin 0 := by
    rw [div_fin _ _ _ (by norm_num)]
    norm_num [e100, sub_fin, f64_zero, cvt_fin, f32_zero]
  simp only [float_result, tdiv200_replicate, s0, s1, s2, z0, z1, z2, List.getD_cons_zero,
    List.getD_cons_succ, float_trim_1, hr]
/-! ## C12: the byte written to `GYRO_CONFIG` -/

theorem writeByte_writes {σ : Type} (B : Bus σ) (a r d : Nat) (w : World σ) :
    (writeByte B a r d w).writes = w.writes ++ [(a, r, d % 256)] := rfl

theorem readByte_writes {σ : Type} (B : Bus σ) (a r : Nat) (w : World σ) :
    (readByte B a r w).2.writes = w.writes := rfl

theorem delay_writes {σ : Type} (B : Bus σ) (ms : Nat) (w : World σ) :
    (delay B ms w).writes = w.writes := rfl

/-- The sixth register write of `init_mpu` is the write-back to `GYRO_CONFIG` of the prior
value with bit 1 and bits `[4:3]` cleared and the selector or-ed in at bit 3. -/
theorem init_mpu_gyro_write {σ : Type} (R : Regs) (B : Bus σ) (addr Ascale Gscale : Nat)
    (w : World σ) :
    (init_mpu R B addr Ascale Gscale w).writes.getD (w.writes.length + 5) (0, 0, 0)
      = (addr, R.GYRO_CONFIG,
          ((((gyro_config_prior R B addr w &&& 0xFD) &&& 0xE7) ||| (Gscale <<< 3)) % 256)) := by
  simp only [init_mpu, gyro_config_prior, writeByte_writes, readByte_writes, delay_writes,
    List.append_assoc, List.singleton_append, List.cons_append, List.nil_append]
  rw [List.getD_append_right _ _ _ _ (by omega)]
  simp only [Nat.add_sub_cancel_left, List.getD_cons_succ, List.getD_cons_zero, Nat.mod_mod]

theorem gyro_config_prior_lt {σ : Type} (R : Regs) (B : Bus σ) (addr : Nat) (w : World σ) :
    gyro_config_prior R B addr w < 256 :=
  readByte_lt B _ _ _

/-- The byte written back to `GYRO_CONFIG`, for every prior value `c` and selector `s` in
`0..3`: bits `[4:3]` are `s`, bit 1 is cleared, bits 7, 6, 5, 2 are those of `c`, and bit 0
is that of `c` too (it is not cleared). -/
theorem gyro_byte_bits : ∀ c : Fin 256, ∀ s : Fin 4,
    fsBits ((((c.val &&& 0xFD) &&& 0xE7) ||| (s.val <<< 3)) % 256) = s.val ∧
    ((((c.val &&& 0xFD) &&& 0xE7) ||| (s.val <<< 3)) % 256) &&& 0x02 = 0 ∧
    ((((c.val &&& 0xFD) &&& 0xE7) ||| (s.val <<< 3)) % 256) &&& 0xE4 = c.val &&& 0xE4 ∧
    ((((c.val &&& 0xFD) &&& 0xE7) ||| (s.val <<< 3)) % 256) &&& 0x01 = c.val &&& 0x01 := by
  set_option maxRecDepth 100000 in decide

/-- C12 at the failing input: on a device whose `GYRO_CONFIG` register reads `0x01`, `init`
with the selector 250 DPS succeeds and its only write to `GYRO_CONFIG` is the byte `0x01`:
choice bit 0 is still set, although line 87 is commented "Clear Fchoice bits [1:0]". -/
theorem gyro_config_bit0_kept :
    (init datasheet scriptBus driver0 AFS_4G GFS_250DPS MFS_16BITS 6 false fchoiceWorld).1
      = true ∧
    gyro_config_prior datasheet scriptBus 0x68
        (readByte scriptBus 0x68 datasheet.WHO_AM_I_MPU9250 fchoiceWorld).2 = 0x01 ∧
    (init datasheet scriptBus driver0 AFS_4G GFS_250DPS MFS_16BITS 6 false
        fchoiceWorld).2.2.writes.filter (fun e => e.2.1 = datasheet.GYRO_CONFIG)
      = [(0x68, 0x1B, 0x01)] ∧
    (0x01 : Nat) &&& 0x03 ≠ 0 := by
  decide

end MPU9250
